import Mathlib

/-!
# libDiscordBot: gateway client and state replica

A shallow embedding of `src/controller/DiscordClient.cpp` (class `CDiscordClient`).

* Shared objects (`std::shared_ptr`) that the client mutates through several
  references are heap cells addressed by a natural number: users live in
  `Client.Users`, the members of a guild in `CGuild.Objs`.  Roles and channels are
  never mutated after they were inserted, they are stored by value.
* `std::map` tables are association lists with the `find` / `insert` / `erase`
  behaviour of `std::map` (an `insert` under a key that is present changes nothing).
* Everything the client does to the outside (frames handed to the socket, controller
  callbacks, event-bus posts, socket and thread operations, REST requests) is
  appended, in program order, to `Client.trace`.
* The JSON bodies are taken as already parsed records (a well-formed body); a key that
  is missing from a body is the default value of its field, as `CJSON::GetValue`
  returns it.
-/

namespace DiscordBot

/-! ## std::map -/

/-- A `std::map<std::string, T>`: the entries in insertion order (the iteration order
of the C++ container is not modelled). -/
abbrev Map (α : Type) := List (String × α)

/-- The call `m.find(key)`: the mapped value, `none` for `m.end()`. -/
def Map.find {α : Type} : Map α → String → Option α
  | [], _ => none
  | (k, v) :: m, key => if k = key then some v else Map.find m key

/-- The call `m.insert({key, v})`: no effect when the key is already present. -/
def Map.insert {α : Type} (m : Map α) (key : String) (v : α) : Map α :=
  match Map.find m key with
  | some _ => m
  | none => m ++ [(key, v)]

/-- The call `m.erase(key)`. -/
def Map.erase {α : Type} (m : Map α) (key : String) : Map α :=
  List.filter (fun p => decide (p.1 ≠ key)) m

/-- A write through the pointer stored under `key` (the object the entry holds is
mutated in place; the set of keys is unchanged). -/
def Map.assign {α : Type} (m : Map α) (key : String) (v : α) : Map α :=
  List.map (fun p => if p.1 = key then (p.1, v) else p) m

/-- The keys of the container. -/
def Map.keys {α : Type} (m : Map α) : List String :=
  List.map Prod.fst m

/-! ## Model types

The headers that declare the model classes (`models/*.hpp`, `DiscordClient.hpp`) are
not part of the sources at hand; the records below carry the fields that
`DiscordClient.cpp` reads and writes. -/

/-- Modelled from the spec: the enumeration `OnlineState` (declared in a header that is
not under src/), with the five states that `OnlineStateToStr` switches over. -/
inductive OnlineState where
  | DND
  | IDLE
  | INVISIBLE
  | ONLINE
  | OFFLINE
  deriving DecidableEq, Repr, Inhabited

/-- Modelled from the spec: the enumeration `ChannelTypes` (declared in a header that is
not under src/): "type (text/voice/DM/...)". -/
inductive ChannelTypes where
  | GUILD_TEXT
  | DM
  | GUILD_VOICE
  | GROUP_DM
  | GUILD_CATEGORY
  | GUILD_NEWS
  | GUILD_STORE
  deriving DecidableEq, Repr, Inhabited

/-- An activity of a user (`CActivity`), reduced to the fields of `CreateActivity` that
identify it (`Type_` is its field `Type`). -/
structure CActivity where
  Name : String := ""
  Type_ : Int := 0
  URL : String := ""
  deriving DecidableEq, Repr, Inhabited

/-- A user object (`CUser`). -/
structure CUser where
  ID : String := ""
  Username : String := ""
  State : OnlineState := OnlineState.OFFLINE
  Activities : List CActivity := []
  Game : Option CActivity := none
  Desktop : OnlineState := OnlineState.OFFLINE
  Mobile : OnlineState := OnlineState.OFFLINE
  Web : OnlineState := OnlineState.OFFLINE
  deriving DecidableEq, Repr, Inhabited

/-- A role object (`CRole`). -/
structure CRole where
  ID : String := ""
  Name : String := ""
  deriving DecidableEq, Repr, Inhabited

/-- A channel object (`CChannel`); `Type_` is its field `Type`. -/
structure CChannel where
  ID : String := ""
  GuildID : String := ""
  Type_ : ChannelTypes := ChannelTypes.GUILD_TEXT
  Name : String := ""
  deriving DecidableEq, Repr, Inhabited

/-- A voice state object (`CVoiceState`).  `GuildRef` names the guild object by its id,
`UserRef` is the address of the user object in `Client.Users`. -/
structure CVoiceState where
  GuildRef : Option String := none
  UserRef : Option Nat := none
  ChannelRef : Option CChannel := none
  SessionID : String := ""
  Deaf : Bool := false
  Mute : Bool := false
  SelfDeaf : Bool := false
  SelfMute : Bool := false
  SelfStream : Bool := false
  Supress : Bool := false
  deriving DecidableEq, Repr, Inhabited

/-- A guild member object (`CGuildMember`).  `UserRef` is the address of the user
object in `Client.Users`; `State` is the voice state the member owns, if any. -/
structure CGuildMember where
  GuildID : String := ""
  UserRef : Option Nat := none
  Nick : String := ""
  JoinedAt : String := ""
  PremiumSince : String := ""
  Deaf : Bool := false
  Mute : Bool := false
  Roles : List CRole := []
  State : Option CVoiceState := none
  deriving DecidableEq, Repr, Inhabited

/-- A guild object (`CGuild`).  `Objs` holds the member objects that were created for
this guild, addressed by their index; `Members` maps a user id to the address of the
member object, `Owner` is the address of the owning member object. -/
structure CGuild where
  ID : String := ""
  Name : String := ""
  Icon : String := ""
  Owner : Option Nat := none
  Roles : Map CRole := []
  Channels : Map CChannel := []
  Members : Map Nat := []
  Objs : List CGuildMember := []
  deriving DecidableEq, Repr, Inhabited

/-- A voice connection of a guild (`CVoiceSocket`): the session id and the user id it
was built with, and the source it is speaking, if any. -/
structure CVoiceSocket where
  SessionID : String := ""
  ClientID : String := ""
  Source : Option String := none
  Paused : Bool := false
  deriving DecidableEq, Repr, Inhabited

/-- A playback queue of a guild (`IMusicQueue`): the guild id and the pending items. -/
structure CMusicQueue where
  GuildID : String := ""
  Songs : List String := []
  deriving DecidableEq, Repr, Inhabited

/-- A pointer to a guild member object held by a message: the member object at an
address of the guild of the message, or an object of its own (`new CGuildMember()`). -/
inductive MemberRef where
  | cached (p : Nat)
  | fresh (m : CGuildMember)
  deriving DecidableEq, Repr, Inhabited

/-- A message object (`CMessage`).  `GuildRef` names the guild object by its id,
`Author` is the address of the user object in `Client.Users`, `Member` the address of
the member object in the guild. -/
structure CMessage where
  ID : String := ""
  GuildRef : Option String := none
  ChannelRef : Option CChannel := none
  Author : Option Nat := none
  Member : Option Nat := none
  Content : String := ""
  Timestamp : String := ""
  EditedTimestamp : String := ""
  Mention : Bool := false
  Mentions : List MemberRef := []
  deriving DecidableEq, Repr, Inhabited

/-! ## Parsed JSON bodies -/

/-- A user object of the wire format. -/
structure UserJson where
  id : String := ""
  username : String := ""
  deriving DecidableEq, Repr, Inhabited

/-- A guild member object of the wire format; `user = none` is an absent (empty)
`user` field. -/
structure MemberJson where
  user : Option UserJson := none
  nick : String := ""
  joined_at : String := ""
  premium_since : String := ""
  deaf : Bool := false
  mute : Bool := false
  roles : List String := []
  deriving DecidableEq, Repr, Inhabited

/-- A role object of the wire format. -/
structure RoleJson where
  id : String := ""
  name : String := ""
  deriving DecidableEq, Repr, Inhabited

/-- A channel object of the wire format. -/
structure ChannelJson where
  id : String := ""
  guild_id : String := ""
  type : ChannelTypes := ChannelTypes.GUILD_TEXT
  name : String := ""
  deriving DecidableEq, Repr, Inhabited

/-- A voice state object of the wire format; `member = none` is a `member` field
whose parse raises `CJSONException`. -/
structure VoiceStateJson where
  guild_id : String := ""
  user_id : String := ""
  channel_id : String := ""
  member : Option MemberJson := none
  session_id : String := ""
  deaf : Bool := false
  mute : Bool := false
  self_deaf : Bool := false
  self_mute : Bool := false
  self_stream : Bool := false
  suppress : Bool := false
  deriving DecidableEq, Repr, Inhabited

/-- The body of GUILD_CREATE. -/
structure GuildJson where
  id : String := ""
  name : String := ""
  icon : String := ""
  roles : List RoleJson := []
  channels : List ChannelJson := []
  members : List MemberJson := []
  voice_states : List VoiceStateJson := []
  owner_id : String := ""
  deriving DecidableEq, Repr, Inhabited

/-- The body of READY: the session id, the bot user and the ids of the listed guilds. -/
structure ReadyJson where
  session_id : String := ""
  user : UserJson := {}
  guilds : List String := []
  deriving DecidableEq, Repr, Inhabited

/-- An activity object of the wire format. -/
structure ActivityJson where
  name : String := ""
  type : Int := 0
  url : String := ""
  deriving DecidableEq, Repr, Inhabited

/-- The body of PRESENCE_UPDATE; `game = none` is an absent (empty) `game` field. -/
structure PresenceJson where
  user : UserJson := {}
  guild_id : String := ""
  status : String := ""
  game : Option ActivityJson := none
  activities : List ActivityJson := []
  desktop : String := ""
  mobile : String := ""
  web : String := ""
  deriving DecidableEq, Repr, Inhabited

/-- The body of VOICE_SERVER_UPDATE. -/
structure VoiceServerJson where
  guild_id : String := ""
  token : String := ""
  endpoint : String := ""
  deriving DecidableEq, Repr, Inhabited

/-- The body of GUILD_MEMBER_UPDATE. -/
structure MemberUpdateJson where
  guild_id : String := ""
  premium_since : String := ""
  nick : String := ""
  roles : List String := []
  user_id : String := ""
  deriving DecidableEq, Repr, Inhabited

/-- The body of MESSAGE_CREATE, MESSAGE_UPDATE and MESSAGE_DELETE; an empty `guild_id`
is an absent field (a direct message), `author = none` an absent (empty) `author`
field. -/
structure MessageJson where
  id : String := ""
  channel_id : String := ""
  guild_id : String := ""
  author : Option UserJson := none
  content : String := ""
  timestamp : String := ""
  edited_timestamp : String := ""
  mention_everyone : Bool := false
  mentions : List UserJson := []
  deriving DecidableEq, Repr, Inhabited

/-! ## Effects -/

/-- A callback of the controller interface, with the ids of the objects handed over. -/
inductive Notification where
  | OnReady
  | OnGuildJoin (guild : String)
  | OnGuildAvailable (guild : String)
  | OnGuildUnavailable (guild : String)
  | OnGuildLeave (guild : String)
  | OnMemberAdd (guild : String) (user : Option String)
  | OnMemberUpdate (guild : String) (user : String)
  | OnMemberRemove (guild : String) (user : String)
  | OnDisconnect
  | OnQuit
  | OnResume
  | OnPresenceUpdate (guild : String) (user : Option String)
  | OnVoiceStateUpdate (guild : String) (user : String)
  | OnMessage (msg : CMessage)
  | OnMessageEdited (msg : CMessage)
  | OnMessageDeleted (msg : CMessage)
  | OnEndSpeaking (guild : String)
  deriving DecidableEq, Repr, Inhabited

/-- The presence body built by `CreateUserInfoJSON` (the `since` time stamp is left
out). -/
structure UserInfoJSON where
  status : String := ""
  afk : Bool := false
  name : String := ""
  url : Option String := none
  type : Nat := 0
  deriving DecidableEq, Repr, Inhabited

/-- A frame handed to the socket by `SendOP`: the op-code and its data. -/
inductive Frame where
  | IDENTIFY (Token : String) (Intents : Nat) (presence : UserInfoJSON)
  | RESUME (Token : String) (SessionID : String) (Seq : Int)
  | HEARTBEAT (D : String)
  | PRESENCE_UPDATE (D : UserInfoJSON)
  | VOICE_STATE_UPDATE (guild_id : String) (channel_id : Option String)
  deriving DecidableEq, Repr, Inhabited

/-- The value posted with a message of the event bus: a number or a string. -/
inductive BusValue where
  | int (n : Int)
  | str (v : String)
  deriving DecidableEq, Repr, Inhabited

/-- The message ids of the event bus the client subscribes to. -/
inductive BusEvent where
  | QUEUE_NEXT_SONG
  | RESUME
  | RECONNECT
  | QUIT
  deriving DecidableEq, Repr, Inhabited

/-- Modelled from the spec: the enumeration `ActionType` of the guild admin interface
(declared in a header that is not under src/), with the three values the message
handlers pass. -/
inductive ActionType where
  | MESSAGE_CREATED
  | MESSAGE_EDITED
  | MESSAGE_DELETED
  deriving DecidableEq, Repr, Inhabited

/-- One observable action of the client. -/
inductive Effect where
  | notify (n : Notification)
  | send (f : Frame)
  | post (ev : BusEvent) (value : BusValue) (delay : Nat)
  | socketStart
  | socketStop
  | socketClose
  | heartbeatThread
  | httpGet (url : String)
  | adminVoiceStateChanged (guild : String) (channel : String) (user : String)
  | adminMessageEvent (action : ActionType) (channel : Option CChannel) (msg : CMessage)
  deriving DecidableEq, Repr, Inhabited

/-! ## The client -/

/-- The state of a `CDiscordClient`. `m_Controller` tells whether a controller is
attached, `m_QueueFactory` whether a queue factory is set, `m_Admins` holds the ids of
the guilds that have a guild admin object. -/
structure Client where
  m_Token : String := ""
  m_Intents : Nat := 0
  m_Terminate : Bool := false
  m_HeartACKReceived : Bool := false
  m_Quit : Bool := false
  m_LastSeqNum : Int := -1
  m_IsAFK : Bool := false
  m_State : OnlineState := OnlineState.ONLINE
  m_Text : String := ""
  m_URL : String := ""
  m_SessionID : String := ""
  m_HeartbeatInterval : Nat := 0
  m_Controller : Bool := false
  m_QueueFactory : Bool := false
  m_BotUser : Option Nat := none
  Users : List CUser := []
  m_Users : Map Nat := []
  m_Guilds : Map CGuild := []
  m_Unavailables : List String := []
  m_VoiceSockets : Map CVoiceSocket := []
  m_MusicQueues : Map CMusicQueue := []
  m_AudioSources : Map String := []
  m_Admins : Map Unit := []
  trace : List Effect := []
  deriving DecidableEq, Repr, Inhabited

/-- The constructor `CDiscordClient(Token, Intents)`. -/
def Client.create (Token : String) (Intents : Nat) : Client :=
  { m_Token := Token, m_Intents := Intents, m_Terminate := false,
    m_HeartACKReceived := false, m_Quit := false, m_LastSeqNum := -1,
    m_IsAFK := false, m_State := OnlineState.ONLINE }

/-- How a handler ends: it returns (`done`), a C++ exception leaves it with the state
as it is at the throw (`thrown`), or it dereferences a past-the-end iterator or a
null pointer (`fault`). -/
inductive Outcome where
  | done (s : Client)
  | thrown (s : Client)
  | fault
  deriving DecidableEq, Repr, Inhabited

/-- Appends an effect to the trace. -/
def Client.emit (s : Client) (e : Effect) : Client :=
  { s with trace := s.trace ++ [e] }

/-- The guarded callback `if (m_Controller) m_Controller->...`. -/
def Client.notifyIf (s : Client) (n : Notification) : Client :=
  if s.m_Controller then s.emit (Effect.notify n) else s

/-- The client after a write to the guild object cached under `id`. -/
def Client.setGuild (s : Client) (id : String) (g : CGuild) : Client :=
  { s with m_Guilds := Map.assign s.m_Guilds id g }

/-- The guild cached under `id` (an empty guild object when there is none). -/
def Client.guildAt (s : Client) (id : String) : CGuild :=
  (Map.find s.m_Guilds id).getD {}

/-- A write through the user pointer `up`. -/
def Client.setUser (s : Client) (up : Nat) (f : CUser → CUser) : Client :=
  match s.Users[up]? with
  | some u => { s with Users := s.Users.set up (f u) }
  | none => s

/-! ## Object construction -/

/-- Modelled from the spec: the operator `m_Users | json` (declared in a helper header
that is not under src/), which "resolves or creates the backing User": the user cached
under the id of the body, or else a new user object that is put into the cache. -/
def resolveUser (s : Client) (json : UserJson) : Client × Nat :=
  match Map.find s.m_Users json.id with
  | some up => (s, up)
  | none =>
    let up := s.Users.length
    ({ s with Users := s.Users ++ [{ ID := json.id, Username := json.username }],
              m_Users := Map.insert s.m_Users json.id up }, up)

/-- Modelled from the spec: the deserialisation `json >> role` of a role (declared in a
helper header that is not under src/). -/
def toRole (json : RoleJson) : CRole :=
  { ID := json.id, Name := json.name }

/-- Modelled from the spec: the deserialisation `(json & m_Users) >> channel` of a guild
channel (declared in a helper header that is not under src/); the recipients of a
direct-message channel are not modelled. -/
def toChannel (json : ChannelJson) : CChannel :=
  { ID := json.id, GuildID := json.guild_id, Type_ := json.type, Name := json.name }

/-- The user object at an address. -/
def Client.user (s : Client) (up : Nat) : CUser :=
  s.Users.getD up default

/-- A write through a member pointer of the guild. -/
def CGuild.setMember (g : CGuild) (p : Nat) (f : CGuildMember → CGuildMember) : CGuild :=
  match g.Objs[p]? with
  | some m => { g with Objs := g.Objs.set p (f m) }
  | none => g

/-- `CDiscordClient::CreateMember`: returns the client, the guild and the address of the
new member object. -/
def CreateMember (s : Client) (json : MemberJson) (guild : CGuild) : Client × CGuild × Nat :=
  let r : Client × Option Nat :=
    match json.user with
    | some UserInfo => let q := resolveUser s UserInfo; (q.1, some q.2)
    | none => (s, none)
  let Ret : CGuildMember :=
    { GuildID := guild.ID, UserRef := r.2, Nick := json.nick, JoinedAt := json.joined_at,
      PremiumSince := json.premium_since, Deaf := json.deaf, Mute := json.mute,
      Roles := json.roles.filterMap (fun e => Map.find guild.Roles e), State := none }
  let p := guild.Objs.length
  let g1 : CGuild := { guild with Objs := guild.Objs ++ [Ret] }
  match r.2 with
  | some up => (r.1, { g1 with Members := Map.insert g1.Members (r.1.user up).ID p }, p)
  | none => (r.1, g1, p)

/-- `CDiscordClient::GetMember`; `rest` is the member body the REST request answers
with (`none`: a status other than 200, or a body that does not parse). -/
def GetMember (s : Client) (guild : CGuild) (UserID : String) (rest : Option MemberJson) :
    Client × CGuild × Option Nat :=
  match Map.find guild.Members UserID with
  | some p => (s, guild, some p)
  | none =>
    let s1 := s.emit (Effect.httpGet ("/guilds/" ++ guild.ID ++ "/members/" ++ UserID))
    match rest with
    | none => (s1, guild, none)
    | some JOwner => let r := CreateMember s1 JOwner guild; (r.1, r.2.1, some r.2.2)

/-- The fields `CreateVoiceState` reads from the body after the references. -/
def VoiceStateJson.fill (json : VoiceStateJson) (Ret : CVoiceState) : CVoiceState :=
  { Ret with SessionID := json.session_id, Deaf := json.deaf, Mute := json.mute,
             SelfDeaf := json.self_deaf, SelfMute := json.self_mute,
             SelfStream := json.self_stream, Supress := json.suppress }

/-- `CDiscordClient::CreateVoiceState` from the point where `Ret->GuildRef` is the guild
object `guild`: returns the client, the guild and the voice state. -/
def CreateVoiceStateIn (s : Client) (json : VoiceStateJson) (guild : CGuild) :
    Client × CGuild × CVoiceState :=
  let Ret : CVoiceState :=
    { GuildRef := some guild.ID, UserRef := Map.find s.m_Users json.user_id,
      ChannelRef := Map.find guild.Channels json.channel_id }
  let setState (s1 : Client) (g1 : CGuild) (p : Nat) : Client × CGuild × CVoiceState :=
    match Ret.ChannelRef with
    | none => (s1, g1.setMember p (fun m => { m with State := none }), Ret)
    | some _ => (s1, g1.setMember p (fun m => { m with State := some (json.fill Ret) }),
                  json.fill Ret)
  match Map.find guild.Members json.user_id with
  | some p => setState s guild p
  | none =>
    match json.member with
    | none => (s, guild, Ret)
    | some JMember => let r := CreateMember s JMember guild; setState r.1 r.2.1 r.2.2

/-- `CDiscordClient::CreateVoiceState(json, nullptr)`: the guild is looked up in the
cache and mutated there. -/
def CreateVoiceState (s : Client) (json : VoiceStateJson) : Client × CVoiceState :=
  match Map.find s.m_Guilds json.guild_id with
  | some guild =>
    let r := CreateVoiceStateIn s json guild
    (r.1.setGuild json.guild_id r.2.1, r.2.2)
  | none => (s, json.fill { UserRef := Map.find s.m_Users json.user_id })

/-! ## Outbound frames -/

/-- `CDiscordClient::OnlineStateToStr`. -/
def OnlineStateToStr (state : OnlineState) : String :=
  match state with
  | OnlineState.ONLINE => "online"
  | OnlineState.DND => "dnd"
  | OnlineState.IDLE => "idle"
  | OnlineState.INVISIBLE => "invisible"
  | OnlineState.OFFLINE => "offline"

/-- `CDiscordClient::CreateUserInfoJSON`. -/
def CreateUserInfoJSON (s : Client) : UserInfoJSON :=
  if s.m_URL ≠ "" then
    { status := OnlineStateToStr s.m_State, afk := s.m_IsAFK, name := s.m_Text,
      url := some s.m_URL, type := 1 }
  else
    { status := OnlineStateToStr s.m_State, afk := s.m_IsAFK, name := s.m_Text,
      url := none, type := 0 }

/-- `CDiscordClient::SendOP`: the payload is handed to the socket. -/
def SendOP (s : Client) (f : Frame) : Client :=
  s.emit (Effect.send f)

/-- `CDiscordClient::SendIdentity`. -/
def SendIdentity (s : Client) : Client :=
  SendOP s (Frame.IDENTIFY s.m_Token s.m_Intents (CreateUserInfoJSON s))

/-- `CDiscordClient::SendResume`. -/
def SendResume (s : Client) : Client :=
  SendOP s (Frame.RESUME s.m_Token s.m_SessionID s.m_LastSeqNum)

/-! ## Reference counts of user objects -/

/-- The number of references a member object holds to the user object at `up`: its
`UserRef`, and the `UserRef` of the voice state it owns. -/
def CGuildMember.holds (m : CGuildMember) (up : Nat) : Nat :=
  (if m.UserRef = some up then 1 else 0) +
    (match m.State with
     | some v => if v.UserRef = some up then 1 else 0
     | none => 0)

/-- The addresses of the member objects the guild keeps alive: the values of its member
map and its owner reference. -/
def CGuild.live (g : CGuild) : List Nat :=
  (List.map Prod.snd g.Members ++ g.Owner.toList).dedup

/-- The number of references to the user object at `up` held by the member object at
address `p` of the guild. -/
def CGuild.refs (g : CGuild) (p : Nat) (up : Nat) : Nat :=
  match g.Objs[p]? with
  | some m => m.holds up
  | none => 0

/-- The number of references to the user object at `up` held by the live member objects
of the guild. -/
def CGuild.holds (g : CGuild) (up : Nat) : Nat :=
  (g.live.map (fun p => g.refs p up)).sum

/-- The value of `m_Users->at(id).use_count()` for the user object at `up`: the cache
slot itself, the bot-user slot, the references held by the member objects of the cached
guilds, and `outside` references held by whatever is not part of the cache graph (the
controller, objects that outlive their guild). -/
def Client.use_count (s : Client) (up : Nat) (outside : Nat) : Nat :=
  1 + (if s.m_BotUser = some up then 1 else 0) +
    (s.m_Guilds.map (fun e => e.2.holds up)).sum + outside

/-! ## Dispatch handlers -/

/-- The handler of READY.  Modelled from the spec: the chain
`json >> m_BotUser >> m_Users` (operators of a helper header that is not under src/)
is taken to resolve or create the user in the cache and to store it as the bot user. -/
def OnReady (s : Client) (json : ReadyJson) : Outcome :=
  let s1 : Client := { s with m_SessionID := json.session_id }
  let r := resolveUser s1 json.user
  let s2 : Client := { r.1 with m_BotUser := some r.2 }
  let s3 : Client := { s2 with m_Unavailables := s2.m_Unavailables ++ json.guilds }
  Outcome.done (s3.notifyIf Notification.OnReady)

/-- The loop "Get all Roles" of GUILD_CREATE. -/
def addRoles (Array : List RoleJson) (guild : CGuild) : CGuild :=
  Array.foldl
    (fun g e =>
      let Tmp : CRole := toRole e
      { g with Roles := Map.insert g.Roles Tmp.ID Tmp }) guild

/-- The loop "Get all Channels" of GUILD_CREATE. -/
def addChannels (Array : List ChannelJson) (guild : CGuild) : CGuild :=
  Array.foldl
    (fun g e =>
      let Tmp : CChannel := { (toChannel e) with GuildID := g.ID }
      { g with Channels := Map.insert g.Channels Tmp.ID Tmp }) guild

/-- The loop "Get all members" of GUILD_CREATE. -/
def addMembers (Array : List MemberJson) (a : Client × CGuild) : Client × CGuild :=
  Array.foldl (fun a e => let r := CreateMember a.1 e a.2; (r.1, r.2.1)) a

/-- The loop "Get all voice states" of GUILD_CREATE. -/
def addVoiceStates (Array : List VoiceStateJson) (a : Client × CGuild) : Client × CGuild :=
  Array.foldl (fun a e => let r := CreateVoiceStateIn a.1 e a.2; (r.1, r.2.1)) a

/-- The guild object GUILD_CREATE builds from the snapshot, up to and including the
owner lookup; `owner` is the answer of the REST request for the owner. -/
def buildGuild (s : Client) (json : GuildJson) (owner : Option MemberJson) : Client × CGuild :=
  let g0 : CGuild := { ID := json.id, Name := json.name, Icon := json.icon }
  let g2 : CGuild := addChannels json.channels (addRoles json.roles g0)
  let r4 : Client × CGuild := addVoiceStates json.voice_states (addMembers json.members (s, g2))
  let r5 := GetMember r4.1 r4.2 json.owner_id owner
  (r5.1, { r5.2.1 with Owner := r5.2.2 })

/-- The handler of GUILD_CREATE. -/
def OnGuildCreate (s : Client) (json : GuildJson) (owner : Option MemberJson) : Outcome :=
  let r := buildGuild s json owner
  let guild := r.2
  let s1 : Client := { r.1 with m_Guilds := Map.insert r.1.m_Guilds guild.ID guild }
  if guild.ID ∈ s1.m_Unavailables then
    Outcome.done (({ s1 with m_Unavailables := s1.m_Unavailables.erase guild.ID } : Client).notifyIf
      (Notification.OnGuildAvailable guild.ID))
  else
    Outcome.done (s1.notifyIf (Notification.OnGuildJoin guild.ID))

/-- The handler of GUILD_DELETE. -/
def OnGuildDelete (s : Client) (id : String) (Unavailable : Bool) : Outcome :=
  match Map.find s.m_Guilds id with
  | none => Outcome.done s
  | some guild =>
    let s1 : Client :=
      if Unavailable ∧ s.m_Controller ∧ guild.ID ∈ s.m_Unavailables then
        ({ s with m_Unavailables := s.m_Unavailables.erase guild.ID } : Client).emit
          (Effect.notify (Notification.OnGuildUnavailable guild.ID))
      else if ¬ Unavailable ∧ s.m_Controller then
        s.emit (Effect.notify (Notification.OnGuildLeave guild.ID))
      else
        { s with m_Unavailables := s.m_Unavailables ++ [guild.ID] }
    Outcome.done
      { s1 with m_VoiceSockets := Map.erase s1.m_VoiceSockets guild.ID,
                m_MusicQueues := Map.erase s1.m_MusicQueues guild.ID,
                m_Guilds := Map.erase s1.m_Guilds id }

/-- The loop of GUILD_MEMBER_UPDATE that refills the role list with
`guild->Roles->at(e)`: the roles pushed, and whether the loop ran to its end (`at`
raises `std::out_of_range` on an id that is not a key). -/
def pushRolesAt (Roles : Map CRole) : List String → List CRole → List CRole × Bool
  | [], acc => (acc, true)
  | e :: Array, acc =>
    match Map.find Roles e with
    | some r => pushRolesAt Roles Array (acc ++ [r])
    | none => (acc, false)

/-- The member after `Roles->clear()` and the pushes of the role loop. -/
def writeRoles (Roles : List CRole) (m : CGuildMember) : CGuildMember :=
  { m with Roles := Roles }

/-- The member after the role loop and the assignments of `Nick` and `PremiumSince`. -/
def writeUpdate (json : MemberUpdateJson) (Roles : List CRole) (m : CGuildMember) :
    CGuildMember :=
  { m with Roles := Roles, Nick := json.nick, PremiumSince := json.premium_since }

/-- The handler of GUILD_MEMBER_UPDATE. -/
def OnGuildMemberUpdate (s : Client) (json : MemberUpdateJson) : Outcome :=
  match Map.find s.m_Guilds json.guild_id with
  | none => Outcome.done s
  | some guild =>
    match Map.find guild.Members json.user_id with
    | none => Outcome.done s
    | some p =>
      let r := pushRolesAt guild.Roles json.roles []
      if r.2 then
        Outcome.done ((s.setGuild json.guild_id (guild.setMember p (writeUpdate json r.1))).notifyIf
          (Notification.OnMemberUpdate guild.ID json.user_id))
      else
        Outcome.thrown (s.setGuild json.guild_id (guild.setMember p (writeRoles r.1)))

/-- The handler of GUILD_MEMBER_REMOVE and GUILD_BAN_ADD; `outside` is the number of
references to the user held outside the cache graph when `use_count` is read. -/
def OnGuildMemberRemove (s : Client) (GuildID UserID : String) (outside : Nat) : Outcome :=
  match Map.find s.m_Guilds GuildID with
  | none => Outcome.done s
  | some guild =>
    let s1 : Client :=
      match Map.find guild.Members UserID with
      | some _ =>
        (s.setGuild GuildID { guild with Members := Map.erase guild.Members UserID }).notifyIf
          (Notification.OnMemberRemove guild.ID UserID)
      | none => s
    match Map.find s1.m_Users UserID with
    | some up =>
      if s1.use_count up outside = 1 then
        Outcome.done { s1 with m_Users := Map.erase s1.m_Users UserID }
      else
        Outcome.done s1
    | none => Outcome.done s1

/-- The handler of CHANNEL_CREATE; the channel is deserialised by
`(Pay.D & m_Users) >> Tmp` (see `toChannel`: the operator is declared in a helper header
that is not under src/, and the recipients of a direct-message channel are not
modelled). -/
def OnChannelCreate (s : Client) (json : ChannelJson) : Outcome :=
  let Tmp : CChannel := toChannel json
  match Map.find s.m_Guilds Tmp.GuildID with
  | some guild =>
    Outcome.done (s.setGuild Tmp.GuildID
      { guild with Channels := Map.insert guild.Channels Tmp.ID Tmp })
  | none => Outcome.done s

/-- The handler of CHANNEL_UPDATE: the entry of the channel is erased, then inserted. -/
def OnChannelUpdate (s : Client) (json : ChannelJson) : Outcome :=
  let Tmp : CChannel := toChannel json
  match Map.find s.m_Guilds Tmp.GuildID with
  | some guild =>
    Outcome.done (s.setGuild Tmp.GuildID
      { guild with Channels := Map.insert (Map.erase guild.Channels Tmp.ID) Tmp.ID Tmp })
  | none => Outcome.done s

/-- The handler of CHANNEL_DELETE. -/
def OnChannelDelete (s : Client) (json : ChannelJson) : Outcome :=
  let Tmp : CChannel := toChannel json
  match Map.find s.m_Guilds Tmp.GuildID with
  | some guild =>
    Outcome.done (s.setGuild Tmp.GuildID
      { guild with Channels := Map.erase guild.Channels Tmp.ID })
  | none => Outcome.done s

/-- The handler of GUILD_MEMBER_ADD; `GuildID` is the field `guild_id` of the body. -/
def OnGuildMemberAdd (s : Client) (GuildID : String) (json : MemberJson) : Outcome :=
  match Map.find s.m_Guilds GuildID with
  | some guild =>
    let r := CreateMember s json guild
    let user : Option String :=
      ((r.2.1.Objs[r.2.2]?).bind (fun m => m.UserRef)).map (fun up => (r.1.user up).ID)
    Outcome.done ((r.1.setGuild GuildID r.2.1).notifyIf
      (Notification.OnMemberAdd guild.ID user))
  | none => Outcome.done s

/-! ## Presence and voice events -/

/-- The UTF-8 bytes of a string, as numbers. -/
def bytesOf (str : String) : List Nat :=
  str.data.flatMap (fun c => (String.utf8EncodeChar c).map UInt8.toNat)

/-- Modelled from the spec: the routing hash `Adler32` (declared in a helper header that
is not under src/), taken to be the Adler-32 checksum of the bytes of the string: two
sums modulo 65521, the second in the upper sixteen bits. -/
def Adler32 (str : String) : Nat :=
  let r : Nat × Nat := (bytesOf str).foldl
    (fun a x => ((a.1 + x) % 65521, (a.2 + (a.1 + x) % 65521) % 65521)) (1, 0)
  r.2 * 65536 + r.1

/-- `CDiscordClient::StrToOnlineState`: a switch over the hash of the string. -/
def StrToOnlineState (state : String) : OnlineState :=
  if Adler32 state = Adler32 "online" then OnlineState.ONLINE
  else if Adler32 state = Adler32 "dnd" then OnlineState.DND
  else if Adler32 state = Adler32 "idle" then OnlineState.IDLE
  else if Adler32 state = Adler32 "invisible" then OnlineState.INVISIBLE
  else if Adler32 state = Adler32 "offline" then OnlineState.OFFLINE
  else OnlineState.OFFLINE

/-- `CDiscordClient::CreateActivity`, for the fields the model keeps. -/
def CreateActivity (json : ActivityJson) : CActivity :=
  { Name := json.name, Type_ := json.type, URL := json.url }

/-- The writes of PRESENCE_UPDATE to the user object: `Game` when the body has one, the
status, one `push_back` per listed activity, and the three client states. -/
def writePresence (json : PresenceJson) (u : CUser) : CUser :=
  let u1 : CUser :=
    match json.game with
    | some JGame => { u with Game := some (CreateActivity JGame) }
    | none => u
  { u1 with State := StrToOnlineState json.status,
            Activities := u1.Activities ++ json.activities.map CreateActivity,
            Desktop := StrToOnlineState json.desktop,
            Mobile := StrToOnlineState json.mobile,
            Web := StrToOnlineState json.web }

/-- The handler of PRESENCE_UPDATE; `rest` is the member body the REST request answers
with when the member is not cached. -/
def OnPresenceUpdate (s : Client) (json : PresenceJson) (rest : Option MemberJson) : Outcome :=
  let r := resolveUser s json.user
  let s1 := r.1.setUser r.2 (writePresence json)
  match Map.find s1.m_Guilds json.guild_id with
  | none => Outcome.done s1
  | some guild =>
    let q := GetMember s1 guild (s1.user r.2).ID rest
    let s2 := q.1.setGuild json.guild_id q.2.1
    Outcome.done (s2.notifyIf (Notification.OnPresenceUpdate guild.ID
      (q.2.2.map (fun _ => (s1.user r.2).ID))))

/-- The channel the member at `p` of the guild is connected to (`State->ChannelRef`). -/
def CGuild.channelOf (g : CGuild) (p : Nat) : Option CChannel :=
  match g.Objs[p]? with
  | some m =>
    match m.State with
    | some v => v.ChannelRef
    | none => none
  | none => none

/-- The part of VOICE_STATE_UPDATE that runs when a controller is attached and the voice
state has a guild and a user: `c` is the channel saved before the update, `up` the user
of the voice state and `bp` the bot user. -/
def voiceStateNotify (s : Client) (json : VoiceStateJson) (Tmp : CVoiceState)
    (c : Option CChannel) (up bp : Nat) : Client :=
  let guild := s.guildAt json.guild_id
  let s1 : Client :=
    if (s.user up).ID = (s.user bp).ID ∧ Tmp.ChannelRef = none then
      { s with m_VoiceSockets := Map.erase s.m_VoiceSockets guild.ID,
               m_MusicQueues := Map.erase s.m_MusicQueues guild.ID }
    else s
  match Map.find guild.Members (s.user up).ID with
  | none => s1
  | some _ =>
    let s2 := s1.emit (Effect.notify (Notification.OnVoiceStateUpdate guild.ID (s.user up).ID))
    match Map.find s2.m_Admins guild.ID with
    | none => s2
    | some _ =>
      match (match c with
             | some ch => some ch
             | none => Tmp.ChannelRef) with
      | some ch => s2.emit (Effect.adminVoiceStateChanged guild.ID ch.ID (s.user up).ID)
      | none => s2

/-- The handler of VOICE_STATE_UPDATE.  The iterators `G` and `M` are dereferenced
without a comparison with `end()`, and `m_BotUser` without a null test. -/
def OnVoiceStateUpdate (s : Client) (json : VoiceStateJson) : Outcome :=
  match Map.find s.m_Guilds json.guild_id with
  | none => Outcome.fault
  | some G =>
    match Map.find G.Members json.user_id with
    | none => Outcome.fault
    | some pm =>
      let c := G.channelOf pm
      let r := CreateVoiceState s json
      if r.1.m_Controller ∧ r.2.GuildRef.isSome then
        match r.2.UserRef with
        | none => Outcome.done r.1
        | some up =>
          match r.1.m_BotUser with
          | none => Outcome.fault
          | some bp => Outcome.done (voiceStateNotify r.1 json r.2 c up bp)
      else Outcome.done r.1

/-- The handler of VOICE_SERVER_UPDATE.  `m_BotUser` and the voice state of the bot
member are dereferenced without a null test. -/
def OnVoiceServerUpdate (s : Client) (json : VoiceServerJson) : Outcome :=
  match Map.find s.m_Guilds json.guild_id with
  | none => Outcome.done s
  | some guild =>
    match s.m_BotUser with
    | none => Outcome.fault
    | some bp =>
      match Map.find guild.Members (s.user bp).ID with
      | none => Outcome.done s
      | some p =>
        match (match guild.Objs[p]? with
               | some m => m.State
               | none => none) with
        | none => Outcome.fault
        | some st =>
          let Socket : CVoiceSocket := { SessionID := st.SessionID, ClientID := (s.user bp).ID }
          let isNew : Bool := (Map.find s.m_VoiceSockets guild.ID).isNone
          let s1 : Client := { s with m_VoiceSockets := Map.insert s.m_VoiceSockets guild.ID Socket }
          let s2 : Client :=
            if s1.m_QueueFactory then
              { s1 with m_MusicQueues := Map.insert s1.m_MusicQueues guild.ID { GuildID := guild.ID } }
            else s1
          match Map.find s2.m_AudioSources guild.ID with
          | none => Outcome.done s2
          | some src =>
            let socks : Map CVoiceSocket :=
              if isNew then Map.assign s2.m_VoiceSockets guild.ID { Socket with Source := some src }
              else s2.m_VoiceSockets
            Outcome.done { s2 with m_VoiceSockets := socks,
                                   m_AudioSources := Map.erase s2.m_AudioSources guild.ID }

/-! ## Message events -/

/-- One pass of the loop over `mentions` in `CreateMessage`: the user of the entry is
resolved, and the member pushed is looked up under the id of the AUTHOR of the message
(`Ret->Author->ID`); `none` is the dereference of a null `Author`.  `guild` is the guild
object of the message, `Author` its author. -/
def mentionOf (s : Client) (guild : Option CGuild) (Author : Option Nat) (e : UserJson) :
    Option (Client × MemberRef) :=
  let r := resolveUser s e
  match guild with
  | some g =>
    match Author with
    | none => none
    | some ap =>
      match Map.find g.Members (r.1.user ap).ID with
      | some p => some (r.1, MemberRef.cached p)
      | none => some (r.1, MemberRef.fresh { UserRef := some r.2 })
  | none => some (r.1, MemberRef.fresh { UserRef := some r.2 })

/-- The loop over `mentions` in `CreateMessage`: the client and the list pushed so far. -/
def addMentions (guild : Option CGuild) (Author : Option Nat) :
    List UserJson → Client × List MemberRef → Option (Client × List MemberRef)
  | [], a => some a
  | e :: rest, a =>
    match mentionOf a.1 guild Author e with
    | none => none
    | some r => addMentions guild Author rest (r.1, a.2 ++ [r.2])

/-- `CDiscordClient::CreateMessage`; `rest` is the member body the REST request of
`GetMember` answers with, `none` as a result is the dereference of a null pointer. -/
def CreateMessage (s : Client) (json : MessageJson) (rest : Option MemberJson) :
    Option (Client × CMessage) :=
  let IT := Map.find s.m_Guilds json.guild_id
  let found : Option CChannel := IT.bind (fun g => Map.find g.Channels json.channel_id)
  let channel : CChannel :=
    match found with
    | some c => c
    | none => { ID := json.channel_id, Type_ := ChannelTypes.DM }
  let Ret : CMessage :=
    { ID := json.id, GuildRef := IT.map (fun g => g.ID), ChannelRef := some channel }
  let a : Client × CMessage :=
    match json.author with
    | none => (s, Ret)
    | some UserJson =>
      let r := resolveUser s UserJson
      match IT with
      | none => (r.1, { Ret with Author := some r.2 })
      | some g =>
        match Map.find g.Members (r.1.user r.2).ID with
        | some p => (r.1, { Ret with Author := some r.2, Member := some p })
        | none =>
          let q := GetMember r.1 g (r.1.user r.2).ID rest
          (q.1.setGuild json.guild_id q.2.1, { Ret with Author := some r.2, Member := q.2.2 })
  let msg : CMessage :=
    { a.2 with Content := json.content, Timestamp := json.timestamp,
               EditedTimestamp := json.edited_timestamp, Mention := json.mention_everyone }
  match addMentions (Map.find a.1.m_Guilds json.guild_id) msg.Author json.mentions (a.1, []) with
  | none => none
  | some r => some (r.1, { msg with Mentions := r.2 })

/-- The common branch of MESSAGE_CREATE, MESSAGE_UPDATE and MESSAGE_DELETE; `T` tells
which of the three event names the payload carries.  `msg->GuildRef` is dereferenced
without a null test. -/
def OnMessageEvent (s : Client) (T : ActionType) (json : MessageJson)
    (rest : Option MemberJson) : Outcome :=
  match CreateMessage s json rest with
  | none => Outcome.fault
  | some r =>
    let msg := r.2
    match msg.GuildRef with
    | none => Outcome.fault
    | some gid =>
      let Admin := Map.find r.1.m_Admins gid
      let s1 : Client :=
        match T with
        | ActionType.MESSAGE_CREATED => r.1.notifyIf (Notification.OnMessage msg)
        | ActionType.MESSAGE_EDITED => r.1.notifyIf (Notification.OnMessageEdited msg)
        | ActionType.MESSAGE_DELETED => r.1.notifyIf (Notification.OnMessageDeleted msg)
      match Admin with
      | some _ => Outcome.done (s1.emit (Effect.adminMessageEvent T msg.ChannelRef msg))
      | none => Outcome.done s1

/-- A dispatch event the gateway delivers, with the answers of the environment the
handler consumes (REST responses, outside reference counts). -/
inductive DispatchEvent where
  | READY (d : ReadyJson)
  | GUILD_CREATE (d : GuildJson) (owner : Option MemberJson)
  | GUILD_DELETE (id : String) (unavailable : Bool)
  | GUILD_MEMBER_UPDATE (d : MemberUpdateJson)
  | GUILD_MEMBER_REMOVE (guild_id user_id : String) (outside : Nat)
  | GUILD_BAN_ADD (guild_id user_id : String) (outside : Nat)
  | RESUMED
  | PRESENCE_UPDATE (d : PresenceJson) (member : Option MemberJson)
  | VOICE_STATE_UPDATE (d : VoiceStateJson)
  | VOICE_SERVER_UPDATE (d : VoiceServerJson)
  | MESSAGE_CREATE (d : MessageJson) (member : Option MemberJson)
  | MESSAGE_UPDATE (d : MessageJson) (member : Option MemberJson)
  | MESSAGE_DELETE (d : MessageJson) (member : Option MemberJson)
  | CHANNEL_CREATE (d : ChannelJson)
  | CHANNEL_UPDATE (d : ChannelJson)
  | CHANNEL_DELETE (d : ChannelJson)
  | GUILD_MEMBER_ADD (guild_id : String) (d : MemberJson)
  deriving DecidableEq, Repr, Inhabited

/-- The DISPATCH branch of `CDiscordClient::OnWebsocketEvent`: the sequence number `S`
of the payload is recorded, then the handler of the event type runs. -/
def OnDispatch (s : Client) (S : Int) (ev : DispatchEvent) : Outcome :=
  let s0 : Client := { s with m_LastSeqNum := S }
  match ev with
  | DispatchEvent.READY d => OnReady s0 d
  | DispatchEvent.GUILD_CREATE d owner => OnGuildCreate s0 d owner
  | DispatchEvent.GUILD_DELETE id unavailable => OnGuildDelete s0 id unavailable
  | DispatchEvent.GUILD_MEMBER_UPDATE d => OnGuildMemberUpdate s0 d
  | DispatchEvent.GUILD_MEMBER_REMOVE g u outside => OnGuildMemberRemove s0 g u outside
  | DispatchEvent.GUILD_BAN_ADD g u outside => OnGuildMemberRemove s0 g u outside
  | DispatchEvent.RESUMED => Outcome.done (s0.notifyIf Notification.OnResume)
  | DispatchEvent.PRESENCE_UPDATE d member => OnPresenceUpdate s0 d member
  | DispatchEvent.VOICE_STATE_UPDATE d => OnVoiceStateUpdate s0 d
  | DispatchEvent.VOICE_SERVER_UPDATE d => OnVoiceServerUpdate s0 d
  | DispatchEvent.MESSAGE_CREATE d member =>
    OnMessageEvent s0 ActionType.MESSAGE_CREATED d member
  | DispatchEvent.MESSAGE_UPDATE d member =>
    OnMessageEvent s0 ActionType.MESSAGE_EDITED d member
  | DispatchEvent.MESSAGE_DELETE d member =>
    OnMessageEvent s0 ActionType.MESSAGE_DELETED d member
  | DispatchEvent.CHANNEL_CREATE d => OnChannelCreate s0 d
  | DispatchEvent.CHANNEL_UPDATE d => OnChannelUpdate s0 d
  | DispatchEvent.CHANNEL_DELETE d => OnChannelDelete s0 d
  | DispatchEvent.GUILD_MEMBER_ADD g d => OnGuildMemberAdd s0 g d

/-- A run of dispatch events, each with its sequence number; the run ends where a
handler does not return. -/
def runDispatch : Client → List (Int × DispatchEvent) → Outcome
  | s, [] => Outcome.done s
  | s, e :: rest =>
    match OnDispatch s e.1 e.2 with
    | Outcome.done s1 => runDispatch s1 rest
    | o => o

/-! ## Gateway control frames and the liveness monitor -/

/-- One iteration of the loop of `CDiscordClient::Heartbeat`, from the test of the loop
condition to the end of the body (the wait between two beats excluded): the state, and
whether the loop goes on. -/
def HeartbeatIter (s : Client) : Client × Bool :=
  if s.m_Terminate then (s, false)
  else if ¬ s.m_HeartACKReceived then
    let s1 := s.emit Effect.socketStop
    let s2 : Client := { s1 with m_VoiceSockets := [] }
    let s3 := s2.notifyIf Notification.OnDisconnect
    let s4 : Client := { s3 with m_Terminate := true }
    (s4.emit (Effect.post BusEvent.RESUME (BusValue.int 0) 100), false)
  else
    let s1 := SendOP s (Frame.HEARTBEAT (if s.m_LastSeqNum ≠ -1 then toString s.m_LastSeqNum else ""))
    ({ s1 with m_HeartACKReceived := false }, true)

/-- The loop of `CDiscordClient::Heartbeat` from a test of the loop condition on, as the
thread goes through it while no other thread writes the flags (the waits between two
beats are not modelled): at most `fuel` iterations; the state, and whether the loop has
ended. -/
def HeartbeatLoop : Nat → Client → Client × Bool
  | 0, s => (s, false)
  | fuel + 1, s =>
    let r := HeartbeatIter s
    if r.2 then HeartbeatLoop fuel r.1 else (r.1, true)

/-- The statement `if (m_Heartbeat.joinable()) m_Heartbeat.join();` of the HELLO branch.
`live` tells whether the heartbeat thread an earlier HELLO started is still in its loop
(`false`: there is no such thread, or its loop has ended, and `join` returns at once).
The handler waits for a live thread until its loop has ended; an iteration that goes on
clears the acknowledgement flag, which only the blocked handler thread sets, so the
second iteration ends the loop and two iterations are all there are. -/
def joinHeartbeat (s : Client) (live : Bool) : Client :=
  if live then (HeartbeatLoop 2 s).1 else s

/-- The HELLO branch of `CDiscordClient::OnWebsocketEvent` for a body whose
`heartbeat_interval` parses; the interval is read as a `uint32_t`.  `live` tells whether
the heartbeat thread of an earlier HELLO is still in its loop when the branch joins
it. -/
def OnHello (s : Client) (heartbeat_interval : Nat) (live : Bool) : Outcome :=
  let s1 : Client := { s with m_HeartbeatInterval := heartbeat_interval % 4294967296 }
  let s2 : Client := if s1.m_SessionID = "" then SendIdentity s1 else SendResume s1
  let s3 : Client := { s2 with m_HeartACKReceived := true, m_Terminate := false }
  let s4 : Client := joinHeartbeat s3 live
  Outcome.done (s4.emit Effect.heartbeatThread)


/-- The INVALID_SESSION branch of `CDiscordClient::OnWebsocketEvent`; `D` is the data
of the payload. -/
def OnInvalidSession (s : Client) (D : String) : Outcome :=
  if D = "true" then Outcome.done (SendResume s)
  else
    Outcome.done ((s.emit Effect.socketClose).emit
      (Effect.post BusEvent.RECONNECT (BusValue.int 0) 5000))

/-- `CDiscordClient::OnSpeakFinish`: the callback of a voice connection that has
finished its source.  `PostMessage` is called without a delay. -/
def OnSpeakFinish (s : Client) (Guild : String) : Client :=
  if s.m_Controller then
    let s1 := s.emit (Effect.post BusEvent.QUEUE_NEXT_SONG (BusValue.str Guild) 0)
    match Map.find s1.m_Guilds Guild with
    | some g => s1.emit (Effect.notify (Notification.OnEndSpeaking g.ID))
    | none => s1
  else s

/-! ## Voice and queue operations -/

/-- Modelled from the spec: `IMusicQueue::AddSong` of a first-in-first-out queue (the
queue classes are declared in headers that are not under src/). -/
def CMusicQueue.AddSong (q : CMusicQueue) (Info : String) : CMusicQueue :=
  { q with Songs := q.Songs ++ [Info] }

/-- Modelled from the spec: `IMusicQueue::HasNext`. -/
def CMusicQueue.HasNext (q : CMusicQueue) : Bool :=
  !q.Songs.isEmpty

/-- Modelled from the spec: `IMusicQueue::Next`: the first item leaves the queue and its
audio source is returned (an item is identified with its source). -/
def CMusicQueue.Next (q : CMusicQueue) : CMusicQueue × Option String :=
  match q.Songs with
  | a :: rest => ({ q with Songs := rest }, some a)
  | [] => (q, none)

/-- Modelled from the spec: `IMusicQueue::ClearQueue`. -/
def CMusicQueue.ClearQueue (q : CMusicQueue) : CMusicQueue :=
  { q with Songs := [] }

/-- Modelled from the spec: `CVoiceSocket::StartSpeaking` (the voice connection is a
black box that accepts a source to speak). -/
def CVoiceSocket.StartSpeaking (v : CVoiceSocket) (source : String) : CVoiceSocket :=
  { v with Source := some source, Paused := false }

/-- `CDiscordClient::ChangeVoiceState`; an empty `Channel` gives a null channel id. -/
def ChangeVoiceState (s : Client) (Guild : String) (Channel : String) : Client :=
  SendOP s (Frame.VOICE_STATE_UPDATE Guild (if Channel ≠ "" then some Channel else none))

/-- `CDiscordClient::Join`; `none` is a null channel pointer. -/
def Join (s : Client) (channel : Option CChannel) : Client :=
  match channel with
  | none => s
  | some ch =>
    if ch.GuildID = "" ∨ ch.ID = "" then s
    else ChangeVoiceState s ch.GuildID ch.ID

/-- `CDiscordClient::Leave`; `none` is a null guild pointer. -/
def Leave (s : Client) (guild : Option CGuild) : Client :=
  match guild with
  | none => s
  | some g => ChangeVoiceState s g.ID ""

/-- `CDiscordClient::AddToQueue`. -/
def AddToQueue (s : Client) (guild : Option CGuild) (Info : String) : Client :=
  match guild with
  | none => s
  | some g =>
    match Map.find s.m_MusicQueues g.ID with
    | some q => { s with m_MusicQueues := Map.assign s.m_MusicQueues g.ID (q.AddSong Info) }
    | none =>
      if s.m_QueueFactory then
        let Tmp : CMusicQueue := ({ GuildID := g.ID } : CMusicQueue).AddSong Info
        { s with m_MusicQueues := Map.insert s.m_MusicQueues g.ID Tmp }
      else s

/-- `CDiscordClient::StartSpeaking(Channel, AudioSource)`; `source = none` is a null
source. -/
def StartSpeakingSource (s : Client) (channel : Option CChannel) (source : Option String) :
    Client × Bool :=
  match channel with
  | none => (s, false)
  | some ch =>
    if ch.GuildID = "" then (s, false)
    else
      match source with
      | none => (s, true)
      | some src =>
        match Map.find s.m_VoiceSockets ch.GuildID with
        | some v =>
          ({ s with m_VoiceSockets :=
              Map.assign s.m_VoiceSockets ch.GuildID (v.StartSpeaking src) }, true)
        | none =>
          let s1 := Join s (some ch)
          ({ s1 with m_AudioSources := Map.insert s1.m_AudioSources ch.GuildID src }, true)

/-- `CDiscordClient::StartSpeaking(Channel)`: the source is taken from the queue of the
guild. -/
def StartSpeaking (s : Client) (channel : Option CChannel) : Client × Bool :=
  match channel with
  | none => (s, false)
  | some ch =>
    if ch.GuildID = "" then (s, false)
    else
      match Map.find s.m_MusicQueues ch.GuildID with
      | some q =>
        if q.HasNext then
          StartSpeakingSource
            { s with m_MusicQueues := Map.assign s.m_MusicQueues ch.GuildID q.Next.1 }
            (some ch) q.Next.2
        else
          StartSpeakingSource
            { s with m_MusicQueues := Map.assign s.m_MusicQueues ch.GuildID q.ClearQueue }
            (some ch) none
      | none => StartSpeakingSource s (some ch) none

/-- `CDiscordClient::Quit`.  The join of the heartbeat thread changes nothing and is left
out: `m_Terminate` is set before it, so the loop of a thread that is still running ends
at its next test of the loop condition. -/
def Quit (s : Client) : Client :=
  let s1 := s.m_Guilds.foldl (fun a e => Leave a (some e.2)) s
  let s2 : Client := { s1 with m_Terminate := true }
  let s3 := s2.emit Effect.socketStop
  let s4 : Client :=
    if s3.m_Controller then
      { ((s3.emit (Effect.notify Notification.OnDisconnect)).emit
          (Effect.notify Notification.OnQuit)) with m_Controller := false }
    else s3
  { s4 with m_Guilds := [], m_VoiceSockets := [], m_AudioSources := [], m_Users := [],
            m_MusicQueues := [], m_Quit := true }

/-- `CDiscordClient::OnMessageReceive`: the handler of the messages the client posted
on the event bus; `Value` is the value posted with the message. -/
def OnMessageReceive (s : Client) (Event : BusEvent) (Value : BusValue) : Client :=
  match Event with
  | BusEvent.QUEUE_NEXT_SONG =>
    let key : String :=
      match Value with
      | BusValue.str v => v
      | BusValue.int _ => ""
    match Map.find s.m_MusicQueues key with
    | none => s
    | some q =>
      if q.HasNext then
        let s1 : Client := { s with m_MusicQueues := Map.assign s.m_MusicQueues key q.Next.1 }
        match q.Next.2, Map.find s1.m_VoiceSockets key with
        | some src, some v =>
          { s1 with m_VoiceSockets := Map.assign s1.m_VoiceSockets key (v.StartSpeaking src) }
        | _, _ => s1
      else { s with m_MusicQueues := Map.assign s.m_MusicQueues key q.ClearQueue }
  | BusEvent.RESUME => s.emit Effect.socketStart
  | BusEvent.RECONNECT => ({ s with m_SessionID := "" } : Client).emit Effect.socketStart
  | BusEvent.QUIT => Quit s

/-! ## The op-code switch -/

/-- Modelled from the spec: the enumeration `OPCodes` (declared in a header that is not
under src/), with the op-codes the specification lists. -/
inductive OPCodes where
  | DISPATCH
  | HEARTBEAT
  | IDENTIFY
  | PRESENCE_UPDATE
  | VOICE_STATE_UPDATE
  | RESUME
  | RECONNECT
  | INVALID_SESSION
  | HELLO
  | HEARTBEAT_ACK
  deriving DecidableEq, Repr, Inhabited

/-- The data of a payload, as far as a branch of the switch reads it: the dispatch event
that `t` and `d` describe (`none` for an event name without a case), the heartbeat
interval of a HELLO body (`none` when the body does not parse), and the raw text.
`heartbeat_live` is the answer of the scheduler the HELLO branch consumes: whether the
heartbeat thread of an earlier HELLO is still in its loop when the payload is handled. -/
structure SPayload where
  OP : OPCodes := OPCodes.DISPATCH
  S : Int := 0
  D : String := ""
  event : Option DispatchEvent := none
  heartbeat_interval : Option Nat := none
  heartbeat_live : Bool := false
  deriving DecidableEq, Repr, Inhabited

/-- The `Message` branch of `CDiscordClient::OnWebsocketEvent` for a payload that
deserialises: the switch over the op-code.  It has the cases DISPATCH, HELLO,
HEARTBEAT_ACK and INVALID_SESSION; every other op-code leaves the switch at once. -/
def OnPayload (s : Client) (Pay : SPayload) : Outcome :=
  match Pay.OP with
  | OPCodes.DISPATCH =>
    match Pay.event with
    | some ev => OnDispatch s Pay.S ev
    | none => Outcome.done { s with m_LastSeqNum := Pay.S }
  | OPCodes.HELLO =>
    match Pay.heartbeat_interval with
    | some n => OnHello s n Pay.heartbeat_live
    | none => Outcome.done s
  | OPCodes.HEARTBEAT_ACK => Outcome.done { s with m_HeartACKReceived := true }
  | OPCodes.INVALID_SESSION => OnInvalidSession s Pay.D
  | _ => Outcome.done s

/-! ## The command configuration (`JSONCmdsConfig.cpp`) -/

/-- The type `CmdDatabase` of `m_CmdDatabase` (its declaration is in a header that is not
under src/): as the code uses it, a map from a guild id to a map from a command name to
a vector of role ids. -/
abbrev CmdDatabase := Map (Map (List String))

/-- The state of a `CJSONCmdsConfig`: the two databases, and the content last written to
the files `databs.json` and `databs_prefixes.json` (`none`: not written yet). -/
structure CJSONCmdsConfig where
  m_CmdDatabase : CmdDatabase := []
  m_PrefixDatabase : Map String := []
  databs : Option CmdDatabase := none
  databs_prefixes : Option (Map String) := none
  deriving DecidableEq, Repr, Inhabited

/-- A write through `m[key]`: the entry under `key` is created when there is none. -/
def Map.put {α : Type} (m : Map α) (key : String) (v : α) : Map α :=
  match Map.find m key with
  | some _ => Map.assign m key v
  | none => m ++ [(key, v)]

/-- `CJSONCmdsConfig::SaveCmdDB` (the file is taken to open). -/
def CJSONCmdsConfig.SaveCmdDB (c : CJSONCmdsConfig) : CJSONCmdsConfig :=
  { c with databs := some c.m_CmdDatabase }

/-- The loop of `CJSONCmdsConfig::AddRoles`: a role of `Roles` is pushed onto `DBRoles`
when `std::find` does not find it there. -/
def pushRoles (DBRoles : List String) (Roles : List String) : List String :=
  Roles.foldl (fun acc e => if e ∈ acc then acc else acc ++ [e]) DBRoles

/-- `CJSONCmdsConfig::AddRoles`; `m_CmdDatabase[Guild][Command]` creates the entries
that are missing. -/
def CJSONCmdsConfig.AddRoles (c : CJSONCmdsConfig) (Guild Command : String)
    (Roles : List String) : CJSONCmdsConfig :=
  let cmds : Map (List String) := (Map.find c.m_CmdDatabase Guild).getD []
  let DBRoles : List String := (Map.find cmds Command).getD []
  let c1 : CJSONCmdsConfig :=
    { c with m_CmdDatabase :=
               Map.put c.m_CmdDatabase Guild (Map.put cmds Command (pushRoles DBRoles Roles)) }
  c1.SaveCmdDB

/-- `CJSONCmdsConfig::GetRoles`. -/
def CJSONCmdsConfig.GetRoles (c : CJSONCmdsConfig) (Guild Command : String) : List String :=
  match Map.find c.m_CmdDatabase Guild with
  | some cmds =>
    match Map.find cmds Command with
    | some r => r
    | none => []
  | none => []

/-- `CJSONCmdsConfig::DeleteCommand`. -/
def CJSONCmdsConfig.DeleteCommand (c : CJSONCmdsConfig) (Guild Command : String) :
    CJSONCmdsConfig :=
  match Map.find c.m_CmdDatabase Guild with
  | some cmds =>
    match Map.find cmds Command with
    | some _ =>
      ({ c with m_CmdDatabase :=
                  Map.assign c.m_CmdDatabase Guild (Map.erase cmds Command) } :
        CJSONCmdsConfig).SaveCmdDB
    | none => c
  | none => c

/-- `CJSONCmdsConfig::RemoveRoles`: `std::remove_if` with `erase` keeps, in their order,
the roles that `std::find` does not find in `Roles`. -/
def CJSONCmdsConfig.RemoveRoles (c : CJSONCmdsConfig) (Guild Command : String)
    (Roles : List String) : CJSONCmdsConfig :=
  match Map.find c.m_CmdDatabase Guild with
  | some cmds =>
    match Map.find cmds Command with
    | some DBRoles =>
      let kept : List String := DBRoles.filter (fun Val => decide (Val ∉ Roles))
      let c1 : CJSONCmdsConfig :=
        { c with m_CmdDatabase :=
                   Map.assign c.m_CmdDatabase Guild (Map.assign cmds Command kept) }
      if kept.isEmpty then c1.DeleteCommand Guild Command else c1.SaveCmdDB
    | none => c
  | none => c

/-- The elements of a list, each once, in the order of their first occurrence. -/
def firstOccurrences : List String → List String
  | [] => []
  | e :: l => e :: (firstOccurrences l).filter (fun x => decide (x ≠ e))

/-- The role list the specification describes for `AddRoles`: the list stored before,
followed by the roles of `Roles` that were not already in it, each once, in the order
of their first occurrence in `Roles`. -/
def rolesAfterAdd (stored Roles : List String) : List String :=
  stored ++ (firstOccurrences Roles).filter (fun e => decide (e ∉ stored))

/-- A run of payloads through the op-code switch; the run ends where a handler does
not return. -/
def runPayloads : Client → List SPayload → Outcome
  | s, [] => Outcome.done s
  | s, p :: rest =>
    match OnPayload s p with
    | Outcome.done s1 => runPayloads s1 rest
    | o => o

/-- The sequence number of the last DISPATCH payload of the list (`none` when the list
has no DISPATCH payload). -/
def lastDispatchSeq (frames : List SPayload) : Option Int :=
  frames.foldl (fun acc p => if p.OP = OPCodes.DISPATCH then some p.S else acc) none

/-! ## Predicates and scenario data used by the statements -/

/-- The client `s'` differs from `s` at most in the user heap, the user cache and the
trace. -/
def FrameEq (s s' : Client) : Prop :=
  { s' with Users := s.Users, m_Users := s.m_Users, trace := s.trace } = s

/-- The guild `g'` extends `g`: same scalar fields, owner, roles and channels; every
entry of the member map is kept; every member object is kept up to its voice state. -/
def GuildExt (g g' : CGuild) : Prop :=
  g'.ID = g.ID ∧ g'.Name = g.Name ∧ g'.Icon = g.Icon ∧ g'.Owner = g.Owner ∧
  g'.Roles = g.Roles ∧ g'.Channels = g.Channels ∧
  (∀ k p, Map.find g.Members k = some p → Map.find g'.Members k = some p) ∧
  (∀ (p : Nat) (m : CGuildMember), g.Objs[p]? = some m →
    ∃ m' : CGuildMember, g'.Objs[p]? = some m' ∧ { m' with State := m.State } = m)

/-- A GUILD_CREATE or GUILD_DELETE event. -/
inductive GuildEvent where
  | create (d : GuildJson) (owner : Option MemberJson)
  | delete (id : String) (unavailable : Bool)
  deriving DecidableEq, Repr, Inhabited

/-- The dispatch event of a guild event. -/
def GuildEvent.toDispatch : GuildEvent → DispatchEvent
  | GuildEvent.create d owner => DispatchEvent.GUILD_CREATE d owner
  | GuildEvent.delete id unavailable => DispatchEvent.GUILD_DELETE id unavailable

/-- The guild cache and the unavailable list share no id. -/
def CacheDisjoint (s : Client) : Prop :=
  ∀ id : String, ¬ (id ∈ Map.keys s.m_Guilds ∧ id ∈ s.m_Unavailables)

/-- The invariant of the guild events: every cached guild is stored under its own id,
no cached id is listed as unavailable, and no id is listed twice. -/
def GuildInv (s : Client) : Prop :=
  (∀ e ∈ s.m_Guilds, e.2.ID = e.1) ∧ CacheDisjoint s ∧ s.m_Unavailables.Nodup

/-- Every entry of the user cache holds a user object whose id is the key of the entry. -/
def UsersWF (s : Client) : Prop :=
  ∀ (k : String) (up : Nat), Map.find s.m_Users k = some up →
    ∃ u : CUser, s.Users[up]? = some u ∧ u.ID = k

/-- The members of the cached guilds, as pairs of the guild id and the user id they are
stored under, whose member object references the user object at `up` (by its `UserRef`
or by the `UserRef` of its voice state). -/
def memberHolders (s : Client) (up : Nat) : List (String × String) :=
  s.m_Guilds.flatMap (fun e =>
    (e.2.Members.filter (fun kp => decide (0 < e.2.refs kp.2 up))).map (fun kp => (e.1, kp.1)))

/-- The ids of the cached guilds whose owner reference is a member object that
references the user object at `up`. -/
def ownerHolders (s : Client) (up : Nat) : List String :=
  s.m_Guilds.filterMap (fun e =>
    match e.2.Owner with
    | some q => if 0 < e.2.refs q up then some e.1 else none
    | none => none)

/-- The snapshot of the scenario: guild G1 with a text channel C1, a voice channel C2,
one role R1 and the member U1, who holds R1 and owns the guild. -/
def scenarioGuild : GuildJson :=
  { id := "G1", name := "guild",
    roles := [{ id := "R1", name := "role" }],
    channels := [{ id := "C1", type := ChannelTypes.GUILD_TEXT },
                 { id := "C2", type := ChannelTypes.GUILD_VOICE }],
    members := [{ user := some { id := "U1", username := "user" }, roles := ["R1"] }],
    owner_id := "U1" }

/-- The client after GUILD_CREATE of the scenario on a new client; `controller` tells
whether a controller is attached. -/
def scenarioClient (controller : Bool) : Client :=
  match OnGuildCreate { Client.create "token" 0 with m_Controller := controller }
      scenarioGuild none with
  | Outcome.done s => s
  | _ => Client.create "token" 0

/-- A snapshot of a guild whose only member is the user U1. -/
def guildOfU1 (id owner_id : String) : GuildJson :=
  { id := id, members := [{ user := some { id := "U1", username := "user" } }],
    owner_id := owner_id }

/-- The client a new client becomes by a run of dispatch events. -/
def clientAfter (evs : List (Int × DispatchEvent)) : Client :=
  match runDispatch (Client.create "token" 0) evs with
  | Outcome.done s => s
  | _ => Client.create "token" 0

/-- The snapshot of a guild G1 with the voice channel C2 in which the bot user B is a
member and holds a voice state in C2. -/
def botGuild : GuildJson :=
  { id := "G1", name := "guild",
    channels := [{ id := "C2", type := ChannelTypes.GUILD_VOICE }],
    members := [{ user := some { id := "B", username := "bot" } }],
    voice_states := [{ user_id := "B", channel_id := "C2", session_id := "VS" }],
    owner_id := "B" }

/-- The client after READY for the bot user B, GUILD_CREATE of `botGuild` and
VOICE_SERVER_UPDATE for G1, on a new client with a queue factory; `controller` tells
whether a controller is attached. -/
def voiceClient (controller : Bool) : Client :=
  match runDispatch
      { Client.create "token" 0 with m_Controller := controller, m_QueueFactory := true }
      [(1, DispatchEvent.READY { session_id := "S", user := { id := "B", username := "bot" } }),
       (2, DispatchEvent.GUILD_CREATE botGuild none),
       (3, DispatchEvent.VOICE_SERVER_UPDATE { guild_id := "G1" })] with
  | Outcome.done s => s
  | _ => Client.create "token" 0

/-- A dispatch event of the voice life cycle of a guild. -/
inductive VoiceEvent where
  | GUILD_CREATE (d : GuildJson) (owner : Option MemberJson)
  | GUILD_DELETE (id : String) (unavailable : Bool)
  | VOICE_STATE_UPDATE (d : VoiceStateJson)
  | VOICE_SERVER_UPDATE (d : VoiceServerJson)
  deriving DecidableEq, Repr, Inhabited

/-- The dispatch event of a voice event. -/
def VoiceEvent.toDispatch : VoiceEvent → DispatchEvent
  | VoiceEvent.GUILD_CREATE d owner => DispatchEvent.GUILD_CREATE d owner
  | VoiceEvent.GUILD_DELETE id unavailable => DispatchEvent.GUILD_DELETE id unavailable
  | VoiceEvent.VOICE_STATE_UPDATE d => DispatchEvent.VOICE_STATE_UPDATE d
  | VoiceEvent.VOICE_SERVER_UPDATE d => DispatchEvent.VOICE_SERVER_UPDATE d

/-- The voice state the bot's own member of the guild cached under `g` holds: `none`
when the guild is not cached, the bot user is not set, the bot user is no member of the
guild, or the member holds no voice state. -/
def botVoiceState (s : Client) (g : String) : Option CVoiceState :=
  (Map.find s.m_Guilds g).bind (fun G =>
    s.m_BotUser.bind (fun bp =>
      (Map.find G.Members (s.user bp).ID).bind (fun pm =>
        (G.Objs[pm]?).bind (fun m => m.State))))

/-- The member map of the guild holds addresses of member objects of the guild, and no
address twice. -/
def GuildWF (g : CGuild) : Prop :=
  (∀ (k : String) (p : Nat), Map.find g.Members k = some p → p < g.Objs.length) ∧
  (∀ (k1 k2 : String) (p : Nat), Map.find g.Members k1 = some p →
    Map.find g.Members k2 = some p → k1 = k2)

/-- The client `s'` keeps every entry of the user cache of `s` and every user object of
`s`. -/
def UsersExt (s s' : Client) : Prop :=
  (∀ (k : String) (up : Nat), Map.find s.m_Users k = some up →
    Map.find s'.m_Users k = some up) ∧
  (∀ (up : Nat) (u : CUser), s.Users[up]? = some u → s'.Users[up]? = some u)

/-- The snapshot of a guild G1 in which the bot user B is a member without a voice
state. -/
def quietGuild : GuildJson :=
  { id := "G1", name := "guild",
    channels := [{ id := "C2", type := ChannelTypes.GUILD_VOICE }],
    members := [{ user := some { id := "B", username := "bot" } }],
    owner_id := "B" }

/-- A step of the client: a payload that arrives on the gateway socket, one iteration of
the liveness monitor, a message of the event bus, the speaking-finished callback of a
voice connection, or a call of the orchestrator. -/
inductive ClientStep where
  | Payload (Pay : SPayload)
  | Heartbeat
  | Message (Event : BusEvent) (Value : BusValue)
  | SpeakFinish (Guild : String)
  | AddToQueue (guild : Option CGuild) (Info : String)
  | StartSpeaking (channel : Option CChannel)
  | StartSpeakingSource (channel : Option CChannel) (source : Option String)
  | Join (channel : Option CChannel)
  | Leave (guild : Option CGuild)
  deriving DecidableEq, Repr, Inhabited

/-- The client after one step. -/
def ClientStep.apply (s : Client) : ClientStep → Outcome
  | ClientStep.Payload Pay => OnPayload s Pay
  | ClientStep.Heartbeat => Outcome.done (HeartbeatIter s).1
  | ClientStep.Message Event Value => Outcome.done (OnMessageReceive s Event Value)
  | ClientStep.SpeakFinish Guild => Outcome.done (OnSpeakFinish s Guild)
  | ClientStep.AddToQueue guild Info => Outcome.done (DiscordBot.AddToQueue s guild Info)
  | ClientStep.StartSpeaking channel => Outcome.done (DiscordBot.StartSpeaking s channel).1
  | ClientStep.StartSpeakingSource channel source =>
    Outcome.done (DiscordBot.StartSpeakingSource s channel source).1
  | ClientStep.Join channel => Outcome.done (DiscordBot.Join s channel)
  | ClientStep.Leave guild => Outcome.done (DiscordBot.Leave s guild)

/-- A run of steps; the run ends where a handler does not return. -/
def runSteps : Client → List ClientStep → Outcome
  | s, [] => Outcome.done s
  | s, e :: rest =>
    match e.apply s with
    | Outcome.done s1 => runSteps s1 rest
    | o => o

/-- The step in which the DISPATCH payload with the sequence number `S` and the event
`ev` arrives. -/
def ClientStep.Dispatch (S : Int) (ev : DispatchEvent) : ClientStep :=
  ClientStep.Payload { OP := OPCodes.DISPATCH, S := S, event := some ev }

/-- Whether the dispatch event leaves the user `B` in place as the bot user and as a
member of the guilds: a READY event names `B`, a GUILD_MEMBER_REMOVE or GUILD_BAN_ADD
event names another user; every other event does. -/
def DispatchEvent.keepsBot (B : String) : DispatchEvent → Bool
  | DispatchEvent.READY d => decide (d.user.id = B)
  | DispatchEvent.GUILD_MEMBER_REMOVE _ u _ => decide (u ≠ B)
  | DispatchEvent.GUILD_BAN_ADD _ u _ => decide (u ≠ B)
  | _ => true

/-- Whether the step leaves the bot user `B` and the controller in place: a DISPATCH
payload carries no event that fails `keepsBot`, and a message of the event bus is not
QUIT (which detaches the controller); every other step does. -/
def ClientStep.keepsBot (B : String) : ClientStep → Bool
  | ClientStep.Payload Pay =>
    if Pay.OP = OPCodes.DISPATCH then
      match Pay.event with
      | some ev => ev.keepsBot B
      | none => true
    else true
  | ClientStep.Message Event _ => decide (Event ≠ BusEvent.QUIT)
  | _ => true

/-- The voice state the member stored under the user id `B` in the guild holds. -/
def botStateIn (B : String) (G : CGuild) : Option CVoiceState :=
  (Map.find G.Members B).bind (fun pm => (G.Objs[pm]?).bind (fun m => m.State))

/-- The guild `G1` has the id of `G`, is well formed when `G` is, and the member of `B`
holds a voice state in `G1` when it does in `G`. -/
def GuildKeeps (B : String) (G G1 : CGuild) : Prop :=
  G1.ID = G.ID ∧ (GuildWF G → GuildWF G1) ∧
  ((botStateIn B G).isSome = true → (botStateIn B G1).isSome = true)

/-- The invariant of the voice life cycle for the bot user id `B`: a controller is
attached, every cached guild is stored under its own id and is well formed, the user
cache is well formed, the bot user, once set, is the user cached under `B`, and every
guild that has a voice connection is cached, with the bot user set and the member of `B`
holding a voice state. -/
def VoiceInv (B : String) (s : Client) : Prop :=
  s.m_Controller = true ∧
  (∀ (k : String) (G : CGuild), Map.find s.m_Guilds k = some G → G.ID = k ∧ GuildWF G) ∧
  UsersWF s ∧
  (∀ bp : Nat, s.m_BotUser = some bp → Map.find s.m_Users B = some bp) ∧
  (∀ g : String, Map.find s.m_VoiceSockets g ≠ none →
    s.m_BotUser ≠ none ∧
    ∃ G : CGuild, Map.find s.m_Guilds g = some G ∧ (botStateIn B G).isSome = true)

/-- The event names that label a case of the switch over `Adler32(Pay.T)` in the
DISPATCH branch of `CDiscordClient::OnWebsocketEvent`, in the order of the source. -/
def dispatchEventNames : List String :=
  ["READY", "GUILD_CREATE", "GUILD_DELETE", "CHANNEL_CREATE", "CHANNEL_UPDATE",
   "CHANNEL_DELETE", "GUILD_MEMBER_ADD", "GUILD_MEMBER_UPDATE", "GUILD_BAN_ADD",
   "GUILD_MEMBER_REMOVE", "PRESENCE_UPDATE", "VOICE_STATE_UPDATE", "VOICE_SERVER_UPDATE",
   "MESSAGE_CREATE", "MESSAGE_UPDATE", "MESSAGE_DELETE", "RESUMED"]

/-- The snapshot of a guild G1 with the text channel C1 and the two members U1 and U2;
U1 owns the guild. -/
def pairGuild : GuildJson :=
  { id := "G1", name := "guild",
    channels := [{ id := "C1", type := ChannelTypes.GUILD_TEXT }],
    members := [{ user := some { id := "U1", username := "one" } },
                { user := some { id := "U2", username := "two" } }],
    owner_id := "U1" }

/-- The client after GUILD_CREATE of `pairGuild` on a new client with a controller
attached. -/
def pairClient : Client :=
  match OnGuildCreate { Client.create "token" 0 with m_Controller := true } pairGuild none with
  | Outcome.done s => s
  | _ => Client.create "token" 0

/-- Every member object of the guild that holds a voice state has a channel reference
in it. -/
def GuildStatesOK (g : CGuild) : Prop :=
  ∀ m ∈ g.Objs, ∀ v : CVoiceState, m.State = some v → v.ChannelRef ≠ none

/-- Every member object of every cached guild that holds a voice state has a channel
reference in it. -/
def VoiceStatesOK (s : Client) : Prop :=
  ∀ (k : String) (G : CGuild), Map.find s.m_Guilds k = some G → GuildStatesOK G

/-- The client after a HELLO payload and a DISPATCH payload READY with the sequence
number 5, on a new client. -/
def beatClient : Client :=
  match runPayloads (Client.create "token" 0)
      [{ OP := OPCodes.HELLO, heartbeat_interval := some 41250 },
       { OP := OPCodes.DISPATCH, S := 5,
         event := some (DispatchEvent.READY
           { session_id := "S", user := { id := "B", username := "bot" } }) }] with
  | Outcome.done s => s
  | _ => Client.create "token" 0

/-! # Theorems -/

/-! ## Facts about the containers -/

theorem map_find_eq_some_mem {α : Type} (m : Map α) (k : String) (v : α)
    (h : Map.find m k = some v) : (k, v) ∈ m := by
  induction m with
  | nil => simp [Map.find] at h
  | cons e m ih =>
    obtain ⟨k1, v1⟩ := e
    by_cases hk : k1 = k
    · simp [Map.find, hk] at h
      simp [hk, h]
    · simp [Map.find, hk] at h
      exact List.mem_cons_of_mem _ (ih h)

theorem map_find_eq_none_iff {α : Type} (m : Map α) (k : String) :
    Map.find m k = none ↔ k ∉ Map.keys m := by
  induction m with
  | nil => simp [Map.find, Map.keys]
  | cons e m ih =>
    obtain ⟨k1, v1⟩ := e
    by_cases hk : k1 = k
    · simp [Map.find, Map.keys, hk]
    · have hk2 : ¬ k = k1 := fun h => hk h.symm
      have ih2 : Map.find m k = none ↔ ∀ (x : α), (k, x) ∉ m := by
        simpa [Map.keys] using ih
      simpa [Map.find, Map.keys, hk, hk2] using ih2

theorem map_find_isSome_iff {α : Type} (m : Map α) (k : String) :
    (∃ v, Map.find m k = some v) ↔ k ∈ Map.keys m := by
  have h := map_find_eq_none_iff m k
  cases hf : Map.find m k with
  | none => simp [hf] at h; simp [h]
  | some v => simp [hf] at h; simp [h]

theorem map_keys_insert {α : Type} (m : Map α) (k : String) (v : α) (id : String) :
    id ∈ Map.keys (Map.insert m k v) ↔ id ∈ Map.keys m ∨ id = k := by
  unfold Map.insert
  cases hf : Map.find m k with
  | none => simp [Map.keys]
  | some w =>
    have hk : k ∈ Map.keys m := (map_find_isSome_iff m k).1 ⟨w, hf⟩
    constructor
    · intro h; exact Or.inl h
    · rintro (h | h)
      · exact h
      · simpa [h] using hk

theorem map_mem_insert {α : Type} (m : Map α) (k : String) (v : α) (e : String × α)
    (h : e ∈ Map.insert m k v) : e ∈ m ∨ e = (k, v) := by
  unfold Map.insert at h
  cases hf : Map.find m k with
  | none => simp [hf] at h; exact h
  | some w => simp [hf] at h; exact Or.inl h

theorem map_keys_erase {α : Type} (m : Map α) (k : String) (id : String) :
    id ∈ Map.keys (Map.erase m k) ↔ id ∈ Map.keys m ∧ id ≠ k := by
  simp only [Map.keys, Map.erase, List.mem_map, List.mem_filter]
  constructor
  · rintro ⟨e, ⟨he, hne⟩, rfl⟩
    exact ⟨⟨e, he, rfl⟩, by simpa using hne⟩
  · rintro ⟨⟨e, he, rfl⟩, hne⟩
    exact ⟨e, ⟨he, by simpa using hne⟩, rfl⟩

theorem map_mem_erase {α : Type} (m : Map α) (k : String) (e : String × α)
    (h : e ∈ Map.erase m k) : e ∈ m := by
  simp only [Map.erase, List.mem_filter] at h
  exact h.1

/-! ## What the object constructors leave unchanged -/

theorem frameEq_refl (s : Client) : FrameEq s s := by
  cases s; rfl

theorem frameEq_trans {s s1 s2 : Client} (h1 : FrameEq s s1) (h2 : FrameEq s1 s2) :
    FrameEq s s2 := by
  cases s; cases s1; cases s2
  simp only [FrameEq, Client.mk.injEq] at *
  simp_all

theorem frameEq_guilds {s s1 : Client} (h : FrameEq s s1) : s1.m_Guilds = s.m_Guilds := by
  unfold FrameEq at h
  have h1 := congrArg Client.m_Guilds h
  exact h1

theorem frameEq_unavailables {s s1 : Client} (h : FrameEq s s1) :
    s1.m_Unavailables = s.m_Unavailables := by
  unfold FrameEq at h
  have h1 := congrArg Client.m_Unavailables h
  exact h1

theorem frameEq_controller {s s1 : Client} (h : FrameEq s s1) :
    s1.m_Controller = s.m_Controller := by
  unfold FrameEq at h
  have h1 := congrArg Client.m_Controller h
  exact h1

theorem frameEq_emit (s : Client) (e : Effect) : FrameEq s (s.emit e) := by
  cases s; rfl

theorem frameEq_resolveUser (s : Client) (json : UserJson) :
    FrameEq s (resolveUser s json).1 := by
  unfold resolveUser
  cases Map.find s.m_Users json.id with
  | none => cases s; rfl
  | some up => exact frameEq_refl s

theorem frameEq_CreateMember (s : Client) (json : MemberJson) (guild : CGuild) :
    FrameEq s (CreateMember s json guild).1 := by
  unfold CreateMember
  cases json.user with
  | none => exact frameEq_refl s
  | some u => exact frameEq_resolveUser s u

theorem frameEq_GetMember (s : Client) (guild : CGuild) (UserID : String)
    (rest : Option MemberJson) : FrameEq s (GetMember s guild UserID rest).1 := by
  unfold GetMember
  cases Map.find guild.Members UserID with
  | some p => exact frameEq_refl s
  | none =>
    cases rest with
    | none => exact frameEq_emit s _
    | some j => exact frameEq_trans (frameEq_emit s _) (frameEq_CreateMember _ j guild)

theorem frameEq_CreateVoiceStateIn (s : Client) (json : VoiceStateJson) (guild : CGuild) :
    FrameEq s (CreateVoiceStateIn s json guild).1 := by
  unfold CreateVoiceStateIn
  cases Map.find guild.Members json.user_id with
  | some p =>
    cases Map.find guild.Channels json.channel_id <;> exact frameEq_refl s
  | none =>
    cases json.member with
    | none => exact frameEq_refl s
    | some j =>
      cases Map.find guild.Channels json.channel_id <;> exact frameEq_CreateMember s j guild

theorem map_find_append {α : Type} (m n : Map α) (k : String) :
    Map.find (m ++ n) k = (Map.find m k).orElse (fun _ => Map.find n k) := by
  induction m with
  | nil => simp [Map.find]
  | cons e m ih =>
    obtain ⟨k1, v1⟩ := e
    by_cases hk : k1 = k
    · simp [Map.find, hk]
    · simpa [Map.find, hk] using ih

theorem map_find_insert {α : Type} (m : Map α) (k : String) (v : α) (k' : String) :
    Map.find (Map.insert m k v) k' =
      match Map.find m k' with
      | some x => some x
      | none => if k = k' then some v else none := by
  unfold Map.insert
  cases hf : Map.find m k with
  | some w =>
    cases hf' : Map.find m k' with
    | some x => simp [hf']
    | none =>
      have : k ≠ k' := by
        intro h; rw [h] at hf; rw [hf] at hf'; cases hf'
      simp [hf', this]
  | none =>
    simp only [map_find_append]
    cases hf' : Map.find m k' with
    | some x => simp
    | none => simp [Map.find]

theorem map_find_insert_of_some {α : Type} (m : Map α) (k : String) (v : α) (k' : String)
    (x : α) (h : Map.find m k' = some x) : Map.find (Map.insert m k v) k' = some x := by
  rw [map_find_insert, h]

theorem map_find_insert_self {α : Type} (m : Map α) (k : String) (v : α)
    (h : Map.find m k = none) : Map.find (Map.insert m k v) k = some v := by
  rw [map_find_insert, h]; simp

theorem guildExt_refl (g : CGuild) : GuildExt g g := by
  refine ⟨rfl, rfl, rfl, rfl, rfl, rfl, fun _ _ h => h, fun p m h => ⟨m, h, rfl⟩⟩

theorem guildExt_trans {g g1 g2 : CGuild} (h1 : GuildExt g g1) (h2 : GuildExt g1 g2) :
    GuildExt g g2 := by
  obtain ⟨a1, a2, a3, a4, a5, a6, a7, a8⟩ := h1
  obtain ⟨b1, b2, b3, b4, b5, b6, b7, b8⟩ := h2
  refine ⟨b1.trans a1, b2.trans a2, b3.trans a3, b4.trans a4, b5.trans a5, b6.trans a6,
    fun k p h => b7 k p (a7 k p h), ?_⟩
  intro p m h
  obtain ⟨m1, hm1, e1⟩ := a8 p m h
  obtain ⟨m2, hm2, e2⟩ := b8 p m1 hm1
  refine ⟨m2, hm2, ?_⟩
  cases m; cases m1; cases m2
  simp only [CGuildMember.mk.injEq] at *
  simp_all

theorem guildExt_setMember_state (g : CGuild) (p : Nat) (v : Option CVoiceState) :
    GuildExt g (g.setMember p (fun m => { m with State := v })) := by
  unfold CGuild.setMember
  cases hp : g.Objs[p]? with
  | none => exact guildExt_refl g
  | some m0 =>
    refine ⟨rfl, rfl, rfl, rfl, rfl, rfl, fun _ _ h => h, ?_⟩
    intro q m hq
    by_cases hpq : p = q
    · subst hpq
      rw [hp] at hq
      cases hq
      have hlt : p < g.Objs.length := by
        rcases List.getElem?_eq_some.1 hp with ⟨h, _⟩
        exact h
      exact ⟨{ m0 with State := v }, by simp [List.getElem?_set, hlt], rfl⟩
    · exact ⟨m, by simp [List.getElem?_set, hpq, hq], rfl⟩

theorem guildExt_CreateMember (s : Client) (json : MemberJson) (guild : CGuild) :
    GuildExt guild (CreateMember s json guild).2.1 := by
  have happ : ∀ (p : Nat) (m : CGuildMember) (x : CGuildMember), guild.Objs[p]? = some m →
      (guild.Objs ++ [x])[p]? = some m := by
    intro p m x h
    rcases List.getElem?_eq_some.1 h with ⟨hlt, _⟩
    rw [List.getElem?_append_left hlt]; exact h
  unfold CreateMember
  cases json.user with
  | none =>
    exact ⟨rfl, rfl, rfl, rfl, rfl, rfl, fun _ _ h => h, fun p m h => ⟨m, happ p m _ h, rfl⟩⟩
  | some u =>
    exact ⟨rfl, rfl, rfl, rfl, rfl, rfl, fun k p h => map_find_insert_of_some _ _ _ _ _ h,
      fun p m h => ⟨m, happ p m _ h, rfl⟩⟩

theorem guildExt_GetMember (s : Client) (guild : CGuild) (UserID : String)
    (rest : Option MemberJson) : GuildExt guild (GetMember s guild UserID rest).2.1 := by
  unfold GetMember
  cases Map.find guild.Members UserID with
  | some p => exact guildExt_refl guild
  | none =>
    cases rest with
    | none => exact guildExt_refl guild
    | some j => exact guildExt_CreateMember _ j guild

theorem guildExt_CreateVoiceStateIn (s : Client) (json : VoiceStateJson) (guild : CGuild) :
    GuildExt guild (CreateVoiceStateIn s json guild).2.1 := by
  unfold CreateVoiceStateIn
  cases Map.find guild.Members json.user_id with
  | some p =>
    cases Map.find guild.Channels json.channel_id <;> exact guildExt_setMember_state _ _ _
  | none =>
    cases json.member with
    | none => exact guildExt_refl guild
    | some j =>
      cases Map.find guild.Channels json.channel_id <;>
        exact guildExt_trans (guildExt_CreateMember s j guild) (guildExt_setMember_state _ _ _)

/-! ## The guild built by GUILD_CREATE -/

theorem addRoles_ID (l : List RoleJson) (g : CGuild) : (addRoles l g).ID = g.ID := by
  unfold addRoles
  induction l generalizing g with
  | nil => rfl
  | cons e l ih => simp only [List.foldl_cons]; rw [ih]

theorem addChannels_ID (l : List ChannelJson) (g : CGuild) : (addChannels l g).ID = g.ID := by
  unfold addChannels
  induction l generalizing g with
  | nil => rfl
  | cons e l ih => simp only [List.foldl_cons]; rw [ih]

theorem addMembers_ext (l : List MemberJson) (a : Client × CGuild) :
    FrameEq a.1 (addMembers l a).1 ∧ GuildExt a.2 (addMembers l a).2 := by
  unfold addMembers
  induction l generalizing a with
  | nil => exact ⟨frameEq_refl _, guildExt_refl _⟩
  | cons e l ih =>
    simp only [List.foldl_cons]
    have h := ih ((CreateMember a.1 e a.2).1, (CreateMember a.1 e a.2).2.1)
    exact ⟨frameEq_trans (frameEq_CreateMember _ _ _) h.1,
      guildExt_trans (guildExt_CreateMember _ _ _) h.2⟩

theorem addVoiceStates_ext (l : List VoiceStateJson) (a : Client × CGuild) :
    FrameEq a.1 (addVoiceStates l a).1 ∧ GuildExt a.2 (addVoiceStates l a).2 := by
  unfold addVoiceStates
  induction l generalizing a with
  | nil => exact ⟨frameEq_refl _, guildExt_refl _⟩
  | cons e l ih =>
    simp only [List.foldl_cons]
    have h := ih ((CreateVoiceStateIn a.1 e a.2).1, (CreateVoiceStateIn a.1 e a.2).2.1)
    exact ⟨frameEq_trans (frameEq_CreateVoiceStateIn _ _ _) h.1,
      guildExt_trans (guildExt_CreateVoiceStateIn _ _ _) h.2⟩

theorem frameEq_buildGuild (s : Client) (json : GuildJson) (owner : Option MemberJson) :
    FrameEq s (buildGuild s json owner).1 := by
  unfold buildGuild
  exact frameEq_trans (frameEq_trans (addMembers_ext _ _).1 (addVoiceStates_ext _ _).1)
    (frameEq_GetMember _ _ _ _)

theorem buildGuild_ID (s : Client) (json : GuildJson) (owner : Option MemberJson) :
    (buildGuild s json owner).2.ID = json.id := by
  unfold buildGuild
  have h1 := (guildExt_GetMember
    (addVoiceStates json.voice_states (addMembers json.members
      (s, addChannels json.channels (addRoles json.roles
        { ID := json.id, Name := json.name, Icon := json.icon })))).1
    (addVoiceStates json.voice_states (addMembers json.members
      (s, addChannels json.channels (addRoles json.roles
        { ID := json.id, Name := json.name, Icon := json.icon })))).2
    json.owner_id owner).1
  have h2 := (addVoiceStates_ext json.voice_states (addMembers json.members
      (s, addChannels json.channels (addRoles json.roles
        { ID := json.id, Name := json.name, Icon := json.icon })))).2.1
  have h3 := (addMembers_ext json.members
      (s, addChannels json.channels (addRoles json.roles
        { ID := json.id, Name := json.name, Icon := json.icon }))).2.1
  simp only at h1 h2 h3 ⊢
  rw [h1, h2, h3, addChannels_ID, addRoles_ID]

/-! ## Guild cache and unavailable list under guild events -/

theorem guildInv_OnGuildCreate (s : Client) (json : GuildJson) (owner : Option MemberJson)
    (h : GuildInv s) : ∃ s1, OnGuildCreate s json owner = Outcome.done s1 ∧ GuildInv s1 := by
  obtain ⟨hk, hd, hn⟩ := h
  have hf := frameEq_buildGuild s json owner
  have hG : (buildGuild s json owner).1.m_Guilds = s.m_Guilds := frameEq_guilds hf
  have hU : (buildGuild s json owner).1.m_Unavailables = s.m_Unavailables := frameEq_unavailables hf
  have hID := buildGuild_ID s json owner
  have hkeys : ∀ e ∈ Map.insert s.m_Guilds json.id (buildGuild s json owner).2, e.2.ID = e.1 := by
    intro e he
    rcases map_mem_insert _ _ _ _ he with h1 | h1
    · exact hk e h1
    · rw [h1]; exact hID
  unfold OnGuildCreate
  simp only [hID, hG, hU]
  by_cases hmem : json.id ∈ s.m_Unavailables
  · rw [if_pos hmem]
    refine ⟨_, rfl, ?_⟩
    unfold Client.notifyIf Client.emit
    refine ⟨?_, ?_, ?_⟩
    · split <;> exact hkeys
    · intro id hboth
      have h1 : id ∈ Map.keys (Map.insert s.m_Guilds json.id (buildGuild s json owner).2) := by
        split at hboth <;> exact hboth.1
      have h2 : id ∈ s.m_Unavailables.erase json.id := by
        split at hboth <;> exact hboth.2
      rw [hn.mem_erase_iff] at h2
      rcases (map_keys_insert _ _ _ _).1 h1 with h3 | h3
      · exact hd id ⟨h3, h2.2⟩
      · exact h2.1 h3
    · split <;> exact hn.erase _
  · rw [if_neg hmem]
    refine ⟨_, rfl, ?_⟩
    unfold Client.notifyIf Client.emit
    refine ⟨?_, ?_, ?_⟩
    · split <;> exact hkeys
    · intro id hboth
      have h1 : id ∈ Map.keys (Map.insert s.m_Guilds json.id (buildGuild s json owner).2) := by
        split at hboth <;> exact hboth.1
      have h2 : id ∈ s.m_Unavailables := by
        split at hboth <;> exact hboth.2
      rcases (map_keys_insert _ _ _ _).1 h1 with h3 | h3
      · exact hd id ⟨h3, h2⟩
      · exact hmem (h3 ▸ h2)
    · split <;> exact hn

theorem guildInv_OnGuildDelete (s : Client) (id : String) (Unavailable : Bool)
    (h : GuildInv s) : ∃ s1, OnGuildDelete s id Unavailable = Outcome.done s1 ∧ GuildInv s1 := by
  obtain ⟨hk, hd, hn⟩ := h
  unfold OnGuildDelete
  cases hf : Map.find s.m_Guilds id with
  | none => exact ⟨s, rfl, hk, hd, hn⟩
  | some guild =>
    have hmem := map_find_eq_some_mem _ _ _ hf
    have hID : guild.ID = id := hk _ hmem
    have hcached : id ∈ Map.keys s.m_Guilds := (map_find_isSome_iff _ _).1 ⟨guild, hf⟩
    have hnot : id ∉ s.m_Unavailables := fun hx => hd id ⟨hcached, hx⟩
    refine ⟨_, rfl, ?_⟩
    simp only [hID]
    have hkeys : ∀ e ∈ Map.erase s.m_Guilds id, e.2.ID = e.1 :=
      fun e he => hk e (map_mem_erase _ _ _ he)
    by_cases c1 : (Unavailable = true ∧ s.m_Controller = true ∧ id ∈ s.m_Unavailables)
    · exact absurd c1.2.2 hnot
    · rw [if_neg c1]
      by_cases c2 : (¬ Unavailable = true ∧ s.m_Controller = true)
      · rw [if_pos c2]
        refine ⟨hkeys, ?_, hn⟩
        intro x hx
        exact hd x ⟨((map_keys_erase _ _ _).1 hx.1).1, hx.2⟩
      · rw [if_neg c2]
        refine ⟨hkeys, ?_, ?_⟩
        · intro x hx
          have h1 := (map_keys_erase _ _ _).1 hx.1
          have h2 : x ∈ s.m_Unavailables ++ [id] := hx.2
          rcases List.mem_append.1 h2 with h3 | h3
          · exact hd x ⟨h1.1, h3⟩
          · exact h1.2 (by simpa using h3)
        · show (s.m_Unavailables ++ [id]).Nodup
          rw [List.nodup_append]
          refine ⟨hn, List.nodup_singleton _, ?_⟩
          intro a ha hb
          have : a = id := by simpa using hb
          exact hnot (this ▸ ha)

theorem guildInv_runDispatch (evs : List (Int × GuildEvent)) (s : Client) (h : GuildInv s) :
    ∃ s1, runDispatch s (evs.map (fun e => (e.1, e.2.toDispatch))) = Outcome.done s1 ∧
      GuildInv s1 := by
  induction evs generalizing s with
  | nil => exact ⟨s, rfl, h⟩
  | cons e evs ih =>
    have h0 : GuildInv { s with m_LastSeqNum := e.1 } := h
    obtain ⟨S, ev⟩ := e
    cases ev with
    | create d owner =>
      obtain ⟨s1, e1, i1⟩ := guildInv_OnGuildCreate _ d owner h0
      obtain ⟨s2, e2, i2⟩ := ih s1 i1
      refine ⟨s2, ?_, i2⟩
      simp only [List.map_cons, runDispatch, OnDispatch, GuildEvent.toDispatch, e1]
      exact e2
    | delete id unavailable =>
      obtain ⟨s1, e1, i1⟩ := guildInv_OnGuildDelete _ id unavailable h0
      obtain ⟨s2, e2, i2⟩ := ih s1 i1
      refine ⟨s2, ?_, i2⟩
      simp only [List.map_cons, runDispatch, OnDispatch, GuildEvent.toDispatch, e1]
      exact e2

/-- C1: starting from a freshly constructed client, with a controller attached or not,
every finite sequence of GUILD_CREATE and GUILD_DELETE dispatch events is handled to
its end, and afterwards no guild id is both a key of the guild cache and an element of
the unavailable list. -/
theorem guild_events_keep_cache_and_unavailables_apart (Token : String) (Intents : Nat)
    (controller : Bool) (evs : List (Int × GuildEvent)) :
    ∃ s1, runDispatch { Client.create Token Intents with m_Controller := controller }
        (evs.map (fun e => (e.1, e.2.toDispatch))) = Outcome.done s1 ∧
      ∀ id : String, ¬ (id ∈ Map.keys s1.m_Guilds ∧ id ∈ s1.m_Unavailables) := by
  have h : GuildInv { Client.create Token Intents with m_Controller := controller } := by
    refine ⟨?_, ?_, ?_⟩
    · intro e he; simp [Client.create] at he
    · intro id hid; simp [Client.create, Map.keys] at hid
    · simp [Client.create]
  obtain ⟨s1, e1, i1⟩ := guildInv_runDispatch evs _ h
  exact ⟨s1, e1, i1.2.1⟩

/-! ## READY and GUILD_DELETE -/

theorem map_find_erase {α : Type} (m : Map α) (k k' : String) :
    Map.find (Map.erase m k) k' = if k = k' then none else Map.find m k' := by
  induction m with
  | nil => simp [Map.erase, Map.find]
  | cons e m ih =>
    obtain ⟨k1, v1⟩ := e
    have ih2 : Map.find (List.filter (fun p => decide (p.1 ≠ k)) m) k' =
        if k = k' then none else Map.find m k' := ih
    by_cases h1 : k1 = k
    · subst h1
      by_cases h2 : k1 = k'
      · simp [Map.erase, Map.find, h2] at ih2 ⊢
        exact ih2
      · simp [Map.erase, Map.find, h2] at ih2 ⊢
        exact ih2
    · by_cases h2 : k1 = k'
      · subst h2
        simp [Map.erase, Map.find, h1]
        intro h3; exact absurd h3.symm h1
      · simp [Map.erase, Map.find, h1, h2] at ih2 ⊢
        exact ih2

/-- C2 (failing input): on a new client, a READY that lists G1, the GUILD_CREATE for G1
and a second READY that lists G1 again (the READY that follows a re-identify) are
handled to their end, and afterwards G1 is both a key of the guild cache and an element
of the unavailable list. -/
theorem ready_lists_a_cached_guild :
    ∃ s1, runDispatch (Client.create "token" 0)
        [(1, DispatchEvent.READY { session_id := "S1", user := { id := "B" }, guilds := ["G1"] }),
         (2, DispatchEvent.GUILD_CREATE scenarioGuild none),
         (1, DispatchEvent.READY { session_id := "S2", user := { id := "B" }, guilds := ["G1"] })]
        = Outcome.done s1 ∧
      "G1" ∈ Map.keys s1.m_Guilds ∧ "G1" ∈ s1.m_Unavailables :=
  ⟨_, rfl, by decide, by decide⟩

/-- C3 (failing input): with a controller attached and G1 cached and not listed as
unavailable, GUILD_DELETE for G1 with unavailable = true puts G1 on the unavailable
list and emits no notification at all. -/
theorem unavailable_delete_emits_no_notification :
    Map.keys (scenarioClient true).m_Guilds = ["G1"] ∧
    (scenarioClient true).m_Controller = true ∧
    (scenarioClient true).m_Unavailables = [] ∧
    ∃ s1, OnGuildDelete (scenarioClient true) "G1" true = Outcome.done s1 ∧
      s1.m_Unavailables = ["G1"] ∧ s1.trace = (scenarioClient true).trace :=
  ⟨by decide, by decide, by decide, _, rfl, by decide, by decide⟩

/-- C4 (counterexample): G1 is cached with two channels, one member and one role, and
after GUILD_DELETE for G1 with unavailable = true it is not a key of the guild cache. -/
theorem unavailable_delete_drops_cached_guild :
    (∃ g, Map.find (scenarioClient false).m_Guilds "G1" = some g ∧
      Map.keys g.Channels = ["C1", "C2"] ∧ Map.keys g.Members = ["U1"] ∧
      Map.keys g.Roles = ["R1"]) ∧
    ∃ s1, OnGuildDelete (scenarioClient false) "G1" true = Outcome.done s1 ∧
      Map.find s1.m_Guilds "G1" = none :=
  ⟨⟨_, rfl, by decide, by decide, by decide⟩, _, rfl, by decide⟩

/-- C4 (amended): for every client state and every guild g cached under the id of the
event, GUILD_DELETE with unavailable = true returns and removes g from the guild cache
(its channels, members and roles go with it); the entry of every other id is
unchanged. -/
theorem unavailable_delete_removes_guild (s : Client) (id : String) (g : CGuild)
    (hg : Map.find s.m_Guilds id = some g) :
    ∃ s1, OnGuildDelete s id true = Outcome.done s1 ∧
      Map.find s1.m_Guilds id = none ∧
      ∀ k : String, k ≠ id → Map.find s1.m_Guilds k = Map.find s.m_Guilds k := by
  unfold OnGuildDelete
  rw [hg]
  refine ⟨_, rfl, ?_, ?_⟩
  · simp only [Client.emit]
    split_ifs <;> simp [map_find_erase]
  · intro k hk
    have hk2 : ¬ id = k := fun h => hk h.symm
    simp only [Client.emit]
    split_ifs <;> simp [map_find_erase, hk2]

/-- C4 (witness): the amended statement at the scenario client. -/
theorem unavailable_delete_removes_guild_witness :
    ∃ s1, OnGuildDelete (scenarioClient false) "G1" true = Outcome.done s1 ∧
      Map.find s1.m_Guilds "G1" = none ∧
      ∀ k : String, k ≠ "G1" →
        Map.find s1.m_Guilds k = Map.find (scenarioClient false).m_Guilds k :=
  unavailable_delete_removes_guild (scenarioClient false) "G1"
    (((scenarioClient false).m_Guilds.head?.map Prod.snd).getD {}) (by decide)

/-- C5: with a controller attached and g cached under the id of the event, GUILD_DELETE
with unavailable = false returns; g is no longer in the guild cache, the
voice-connection table and the playback-queue table have no entry for g; the only
effect is the guild-left notification for g; the unavailable list and the entries of
every other guild in the three tables are unchanged. -/
theorem leave_delete_purges_guild (s : Client) (id : String) (g : CGuild)
    (hc : s.m_Controller = true) (hg : Map.find s.m_Guilds id = some g) :
    ∃ s1, OnGuildDelete s id false = Outcome.done s1 ∧
      Map.find s1.m_Guilds id = none ∧
      Map.find s1.m_VoiceSockets g.ID = none ∧
      Map.find s1.m_MusicQueues g.ID = none ∧
      s1.trace = s.trace ++ [Effect.notify (Notification.OnGuildLeave g.ID)] ∧
      s1.m_Unavailables = s.m_Unavailables ∧
      (∀ k : String, k ≠ id → Map.find s1.m_Guilds k = Map.find s.m_Guilds k) ∧
      (∀ k : String, k ≠ g.ID →
        Map.find s1.m_VoiceSockets k = Map.find s.m_VoiceSockets k ∧
        Map.find s1.m_MusicQueues k = Map.find s.m_MusicQueues k) := by
  unfold OnGuildDelete
  rw [hg]
  refine ⟨_, rfl, ?_⟩
  simp only [hc, Client.emit]
  simp [map_find_erase]
  refine ⟨?_, ?_⟩
  · intro k hk h; exact absurd h.symm hk
  · intro k hk
    have hk2 : ¬ g.ID = k := fun h => hk h.symm
    simp [hk2]

/-- C5 (witness): the statement at the scenario client with a controller attached. -/
theorem leave_delete_purges_guild_witness :
    ∃ s1, OnGuildDelete (scenarioClient true) "G1" false = Outcome.done s1 ∧
      Map.find s1.m_Guilds "G1" = none ∧
      s1.trace = (scenarioClient true).trace ++
        [Effect.notify (Notification.OnGuildLeave "G1")] := by
  obtain ⟨s1, h1, h2, _, _, h5, _⟩ := leave_delete_purges_guild (scenarioClient true) "G1"
    (((scenarioClient true).m_Guilds.head?.map Prod.snd).getD {}) (by decide) (by decide)
  exact ⟨s1, h1, h2, h5⟩

/-! ## GUILD_MEMBER_UPDATE -/

theorem map_find_assign_self {α : Type} (m : Map α) (k : String) (v w : α)
    (h : Map.find m k = some w) : Map.find (Map.assign m k v) k = some v := by
  induction m with
  | nil => simp [Map.find] at h
  | cons e m ih =>
    obtain ⟨k1, v1⟩ := e
    unfold Map.assign
    rw [List.map_cons]
    by_cases hk : k1 = k
    · rw [if_pos (show (k1, v1).1 = k from hk)]
      simp [Map.find, hk]
    · rw [if_neg (show ¬ (k1, v1).1 = k from hk)]
      simp only [Map.find, hk, if_false] at h ⊢
      exact ih h

theorem map_assign_assign {α : Type} (m : Map α) (k : String) (v : α) :
    Map.assign (Map.assign m k v) k v = Map.assign m k v := by
  unfold Map.assign
  rw [List.map_map]
  apply List.map_congr_left
  intro e _
  by_cases hk : e.1 = k
  · simp [Function.comp, hk]
  · simp [Function.comp, hk]

theorem setMember_objs (g : CGuild) (p : Nat) (f : CGuildMember → CGuildMember)
    (m : CGuildMember) (h : g.Objs[p]? = some m) :
    g.setMember p f = { g with Objs := g.Objs.set p (f m) } := by
  unfold CGuild.setMember; rw [h]

theorem setMember_idem (g : CGuild) (p : Nat) (f : CGuildMember → CGuildMember)
    (hf : ∀ m, f (f m) = f m) : (g.setMember p f).setMember p f = g.setMember p f := by
  cases hp : g.Objs[p]? with
  | none => simp [CGuild.setMember, hp]
  | some m =>
    have hlt : p < g.Objs.length := by
      rcases List.getElem?_eq_some.1 hp with ⟨h, _⟩
      exact h
    rw [setMember_objs g p f m hp]
    have h2 : ({ g with Objs := g.Objs.set p (f m) } : CGuild).Objs[p]? = some (f m) := by
      simp [List.getElem?_set, hlt]
    rw [setMember_objs _ p f (f m) h2]
    simp [hf]

theorem setMember_fields (g : CGuild) (p : Nat) (f : CGuildMember → CGuildMember) :
    (g.setMember p f).Roles = g.Roles ∧ (g.setMember p f).Members = g.Members ∧
    (g.setMember p f).ID = g.ID := by
  unfold CGuild.setMember
  cases g.Objs[p]? <;> exact ⟨rfl, rfl, rfl⟩

theorem member_update_eval (s : Client) (json : MemberUpdateJson) (guild : CGuild) (p : Nat)
    (hg : Map.find s.m_Guilds json.guild_id = some guild)
    (hm : Map.find guild.Members json.user_id = some p) :
    OnGuildMemberUpdate s json =
      if (pushRolesAt guild.Roles json.roles []).2 then
        Outcome.done ((s.setGuild json.guild_id (guild.setMember p
          (writeUpdate json (pushRolesAt guild.Roles json.roles []).1))).notifyIf
          (Notification.OnMemberUpdate guild.ID json.user_id))
      else
        Outcome.thrown (s.setGuild json.guild_id (guild.setMember p
          (writeRoles (pushRolesAt guild.Roles json.roles []).1))) := by
  simp only [OnGuildMemberUpdate, hg, hm]

theorem setGuild_find (s : Client) (id : String) (g g0 : CGuild)
    (h : Map.find s.m_Guilds id = some g0) : Map.find (s.setGuild id g).m_Guilds id = some g :=
  map_find_assign_self s.m_Guilds id g g0 h

theorem setGuild_setGuild (s : Client) (id : String) (g : CGuild) :
    (s.setGuild id g).setGuild id g = s.setGuild id g := by
  unfold Client.setGuild
  simp only [map_assign_assign]

theorem notifyIf_setGuild (s : Client) (n : Notification) (id : String) (g : CGuild)
    (t : List Effect) :
    ({ ((s.notifyIf n).setGuild id g) with trace := t } : Client) =
      { (s.setGuild id g) with trace := t } := by
  unfold Client.notifyIf Client.emit Client.setGuild
  split <;> rfl

theorem notifyIf_guilds (s : Client) (n : Notification) :
    (s.notifyIf n).m_Guilds = s.m_Guilds := by
  unfold Client.notifyIf Client.emit
  split <;> rfl

theorem notifyIf_same_but_trace (s : Client) (n : Notification) (t : List Effect) :
    ({ (s.notifyIf n) with trace := t } : Client) = { s with trace := t } := by
  unfold Client.notifyIf Client.emit
  split <;> rfl

/-- C7: GUILD_MEMBER_UPDATE is idempotent. The handler ends the same way both times (it
returns, or `at` raises on a role id the guild does not have), and the second
application leaves every part of the client state, the addressed member with its role
list, nickname and premium-since field included, as the first one left it; only the
trace of emitted callbacks grows. -/
theorem member_update_twice_is_once (s : Client) (json : MemberUpdateJson) :
    (∃ s1 s2, OnGuildMemberUpdate s json = Outcome.done s1 ∧
        OnGuildMemberUpdate s1 json = Outcome.done s2 ∧
        { s2 with trace := s1.trace } = s1) ∨
    (∃ s1 s2, OnGuildMemberUpdate s json = Outcome.thrown s1 ∧
        OnGuildMemberUpdate s1 json = Outcome.thrown s2 ∧
        { s2 with trace := s1.trace } = s1) := by
  cases hg : Map.find s.m_Guilds json.guild_id with
  | none =>
    left
    refine ⟨s, s, ?_, ?_, rfl⟩ <;> simp [OnGuildMemberUpdate, hg]
  | some guild =>
    cases hm : Map.find guild.Members json.user_id with
    | none =>
      left
      refine ⟨s, s, ?_, ?_, rfl⟩ <;> simp [OnGuildMemberUpdate, hg, hm]
    | some p =>
      have e1 := member_update_eval s json guild p hg hm
      cases hr : (pushRolesAt guild.Roles json.roles []).2 with
      | true =>
        left
        rw [hr, if_pos rfl] at e1
        obtain ⟨hR, hM, hI⟩ := setMember_fields guild p
          (writeUpdate json (pushRolesAt guild.Roles json.roles []).1)
        have hg1 := setGuild_find s json.guild_id (guild.setMember p
          (writeUpdate json (pushRolesAt guild.Roles json.roles []).1)) guild hg
        have hg2 := (congrArg (fun m => Map.find m json.guild_id) (notifyIf_guilds
          (s.setGuild json.guild_id (guild.setMember p
            (writeUpdate json (pushRolesAt guild.Roles json.roles []).1)))
          (Notification.OnMemberUpdate guild.ID json.user_id))).trans hg1
        have e2 := member_update_eval _ json _ p hg2 (hM ▸ hm)
        rw [hR, hr, if_pos rfl] at e2
        refine ⟨_, _, e1, e2, ?_⟩
        have hi := setMember_idem guild p
          (writeUpdate json (pushRolesAt guild.Roles json.roles []).1) (fun m => rfl)
        simp only [notifyIf_same_but_trace, notifyIf_setGuild, hi, setGuild_setGuild]
        unfold Client.notifyIf Client.emit
        split <;> rfl
      | false =>
        right
        rw [hr] at e1
        simp only [Bool.false_eq_true, if_false] at e1
        obtain ⟨hR, hM, hI⟩ := setMember_fields guild p
          (writeRoles (pushRolesAt guild.Roles json.roles []).1)
        have hg1 := setGuild_find s json.guild_id (guild.setMember p
          (writeRoles (pushRolesAt guild.Roles json.roles []).1)) guild hg
        have e2 := member_update_eval _ json _ p hg1 (hM ▸ hm)
        rw [hR, hr] at e2
        simp only [Bool.false_eq_true, if_false] at e2
        refine ⟨_, _, e1, e2, ?_⟩
        have hi := setMember_idem guild p
          (writeRoles (pushRolesAt guild.Roles json.roles []).1) (fun m => rfl)
        simp only [hi, setGuild_setGuild]

/-! ## HELLO and the liveness monitor -/

theorem heartbeatIter_lastSeq (s : Client) :
    (HeartbeatIter s).1.m_LastSeqNum = s.m_LastSeqNum := by
  unfold HeartbeatIter Client.notifyIf Client.emit SendOP
  split
  · rfl
  · split
    · dsimp only
      split <;> rfl
    · rfl

theorem heartbeatLoop_ends (s : Client) :
    (HeartbeatLoop 2 s).2 = true ∧ ∀ n : Nat, HeartbeatLoop (n + 2) s = HeartbeatLoop 2 s := by
  have hnext : (HeartbeatIter s).2 = true → (HeartbeatIter (HeartbeatIter s).1).2 = false := by
    intro h
    cases ht : s.m_Terminate <;> cases ha : s.m_HeartACKReceived <;>
      simp [HeartbeatIter, ht, ha, SendOP, Client.emit] at h ⊢
  constructor
  · unfold HeartbeatLoop
    dsimp only
    split
    · rename_i h
      unfold HeartbeatLoop
      dsimp only
      rw [if_neg (by rw [hnext h]; decide)]
    · rfl
  · intro n
    show (if (HeartbeatIter s).2 = true then HeartbeatLoop (n + 1) (HeartbeatIter s).1
      else ((HeartbeatIter s).1, true)) =
      (if (HeartbeatIter s).2 = true then HeartbeatLoop 1 (HeartbeatIter s).1
      else ((HeartbeatIter s).1, true))
    split
    · rename_i h
      show (if (HeartbeatIter (HeartbeatIter s).1).2 = true then
          HeartbeatLoop n (HeartbeatIter (HeartbeatIter s).1).1
        else ((HeartbeatIter (HeartbeatIter s).1).1, true)) =
        (if (HeartbeatIter (HeartbeatIter s).1).2 = true then
          HeartbeatLoop 0 (HeartbeatIter (HeartbeatIter s).1).1
        else ((HeartbeatIter (HeartbeatIter s).1).1, true))
      rw [if_neg (by rw [hnext h]; decide), if_neg (by rw [hnext h]; decide)]
    · rfl

theorem joinHeartbeat_of_terminate (s : Client) (live : Bool) (h : s.m_Terminate = true) :
    joinHeartbeat s live = s := by
  unfold joinHeartbeat
  cases live with
  | false => rfl
  | true => simp [HeartbeatLoop, HeartbeatIter, h]

theorem joinHeartbeat_lastSeq (s : Client) (live : Bool) :
    (joinHeartbeat s live).m_LastSeqNum = s.m_LastSeqNum := by
  unfold joinHeartbeat
  cases live with
  | false => rfl
  | true =>
    simp only [if_true]
    unfold HeartbeatLoop
    dsimp only
    split
    · unfold HeartbeatLoop
      dsimp only
      split
      · unfold HeartbeatLoop
        rw [heartbeatIter_lastSeq, heartbeatIter_lastSeq]
      · dsimp only
        rw [heartbeatIter_lastSeq, heartbeatIter_lastSeq]
    · dsimp only
      rw [heartbeatIter_lastSeq]

/-- The HELLO branch in every state: a HELLO frame whose heartbeat interval is a 32-bit
number is handled to its end.  The handler hands one frame to the socket: an IDENTIFY
frame (with the token and the intents) when the held session id is empty, and
otherwise a RESUME frame carrying the token, the held session id and the last recorded
sequence number; the session id and the sequence number are as before.  When no
heartbeat thread of an earlier HELLO is still in its loop, that frame and the start of
the heartbeat thread are the only effects, and afterwards the acknowledgement flag is
true and the terminate flag is false.  When such a thread is still in its loop, the
handler waits until the loop has ended: the thread sends one HEARTBEAT frame, stops the
socket, notifies the controller of the disconnect and posts a RESUME message, and
afterwards the acknowledgement flag is false and the terminate flag is true. -/
theorem hello_in_every_state (s : Client) (heartbeat_interval : Nat)
    (live : Bool) (hn : heartbeat_interval < 4294967296) :
    ∃ s1, OnHello s heartbeat_interval live = Outcome.done s1 ∧
      s1.trace = s.trace ++
        [Effect.send (if s.m_SessionID = "" then
            Frame.IDENTIFY s.m_Token s.m_Intents (CreateUserInfoJSON s)
          else Frame.RESUME s.m_Token s.m_SessionID s.m_LastSeqNum)] ++
        (if live then
          [Effect.send (Frame.HEARTBEAT
              (if s.m_LastSeqNum ≠ -1 then toString s.m_LastSeqNum else "")),
            Effect.socketStop] ++
          (if s.m_Controller then [Effect.notify Notification.OnDisconnect] else []) ++
          [Effect.post BusEvent.RESUME (BusValue.int 0) 100]
        else []) ++
        [Effect.heartbeatThread] ∧
      (live = false → s1.m_HeartACKReceived = true ∧ s1.m_Terminate = false) ∧
      (live = true → s1.m_HeartACKReceived = false ∧ s1.m_Terminate = true) ∧
      s1.m_HeartbeatInterval = heartbeat_interval ∧
      s1.m_SessionID = s.m_SessionID ∧ s1.m_LastSeqNum = s.m_LastSeqNum := by
  have hmod : heartbeat_interval % 4294967296 = heartbeat_interval := Nat.mod_eq_of_lt hn
  refine ⟨_, rfl, ?_⟩
  cases live with
  | false =>
    by_cases h : s.m_SessionID = ""
    · simp [h, hmod, joinHeartbeat, SendIdentity, SendOP, Client.emit, CreateUserInfoJSON]
    · simp [h, hmod, joinHeartbeat, SendResume, SendOP, Client.emit]
  | true =>
    cases hc : s.m_Controller <;> by_cases h : s.m_SessionID = "" <;>
      simp [h, hc, hmod, joinHeartbeat, HeartbeatLoop, HeartbeatIter, SendIdentity, SendResume,
        SendOP, Client.emit, Client.notifyIf, CreateUserInfoJSON]

/-- C9: an iteration of the liveness monitor that starts with the terminate flag false
and the acknowledgement flag false ends the loop. It hands no frame to the socket: its
effects are the stop of the socket, one disconnect notification when a controller is
attached, and one RESUME message (delay 100) on the event bus. Afterwards the
voice-connection table is empty and the terminate flag is set; the session id, the last
sequence number, the guild cache and the user cache are unchanged. -/
theorem missed_ack_forces_resume (s : Client) (ht : s.m_Terminate = false)
    (ha : s.m_HeartACKReceived = false) :
    (HeartbeatIter s).2 = false ∧
    (HeartbeatIter s).1.trace = s.trace ++ [Effect.socketStop] ++
      (if s.m_Controller then [Effect.notify Notification.OnDisconnect] else []) ++
      [Effect.post BusEvent.RESUME (BusValue.int 0) 100] ∧
    (HeartbeatIter s).1.m_VoiceSockets = [] ∧
    (HeartbeatIter s).1.m_Terminate = true ∧
    (HeartbeatIter s).1.m_SessionID = s.m_SessionID ∧
    (HeartbeatIter s).1.m_LastSeqNum = s.m_LastSeqNum ∧
    (HeartbeatIter s).1.m_Guilds = s.m_Guilds ∧
    (HeartbeatIter s).1.m_Users = s.m_Users ∧
    (HeartbeatIter s).1.Users = s.Users := by
  cases hc : s.m_Controller <;>
    simp [HeartbeatIter, ht, ha, hc, Client.notifyIf, Client.emit]

/-- C9 (witness): the statement at a client with a controller, one voice connection and
a held session, whose acknowledgement flag is false. -/
theorem missed_ack_forces_resume_witness :
    (HeartbeatIter { Client.create "token" 0 with
        m_Controller := true, m_SessionID := "S", m_LastSeqNum := 7,
        m_VoiceSockets := [("G1", {})] }).1.trace =
      [Effect.socketStop, Effect.notify Notification.OnDisconnect,
       Effect.post BusEvent.RESUME (BusValue.int 0) 100] ∧
    (HeartbeatIter { Client.create "token" 0 with
        m_Controller := true, m_SessionID := "S", m_LastSeqNum := 7,
        m_VoiceSockets := [("G1", {})] }).1.m_VoiceSockets = [] := by
  have h := missed_ack_forces_resume { Client.create "token" 0 with
        m_Controller := true, m_SessionID := "S", m_LastSeqNum := 7,
        m_VoiceSockets := [("G1", {})] } rfl rfl
  exact ⟨h.2.1, h.2.2.1⟩

/-! ## GUILD_MEMBER_REMOVE and the user cache -/

theorem nat_le_sum_of_mem (l : List Nat) (x : Nat) (h : x ∈ l) : x ≤ l.sum := by
  induction l with
  | nil => cases h
  | cons a l ih =>
    rcases List.mem_cons.1 h with h1 | h1
    · subst h1; simp
    · have := ih h1
      simp only [List.sum_cons]
      omega

theorem mem_memberHolders (s : Client) (up : Nat) (e : String × CGuild) (kp : String × Nat)
    (he : e ∈ s.m_Guilds) (hk : kp ∈ e.2.Members) (hr : 0 < e.2.refs kp.2 up) :
    (e.1, kp.1) ∈ memberHolders s up := by
  unfold memberHolders
  rw [List.mem_flatMap]
  refine ⟨e, he, ?_⟩
  rw [List.mem_map]
  refine ⟨kp, ?_, rfl⟩
  rw [List.mem_filter]
  exact ⟨hk, by simpa using hr⟩

theorem mem_ownerHolders (s : Client) (up : Nat) (e : String × CGuild) (q : Nat)
    (he : e ∈ s.m_Guilds) (ho : e.2.Owner = some q) (hr : 0 < e.2.refs q up) :
    e.1 ∈ ownerHolders s up := by
  unfold ownerHolders
  rw [List.mem_filterMap]
  exact ⟨e, he, by simp [ho, hr]⟩

/-- No live member object of `g1` references the user when `g1` keeps the objects and
the owner of a cached guild `g0`, its member map is part of that of `g0`, and the only
holders among the members are accounted for. -/
theorem holds_eq_zero (s : Client) (up : Nat) (GuildID UserID : String)
    (hmh : memberHolders s up = [(GuildID, UserID)]) (hoh : ownerHolders s up = [])
    (gid : String) (g0 g1 : CGuild) (he : (gid, g0) ∈ s.m_Guilds)
    (hobjs : g1.Objs = g0.Objs) (hown : g1.Owner = g0.Owner)
    (hsub : ∀ kp ∈ g1.Members, kp ∈ g0.Members)
    (hne : gid ≠ GuildID ∨ ∀ kp ∈ g1.Members, kp.1 ≠ UserID) :
    g1.holds up = 0 := by
  unfold CGuild.holds
  apply List.sum_eq_zero
  intro x hx
  rw [List.mem_map] at hx
  obtain ⟨q, hq, rfl⟩ := hx
  have hrefs : g1.refs q up = g0.refs q up := by
    unfold CGuild.refs; rw [hobjs]
  by_contra hpos
  have hpos0 : 0 < g0.refs q up := by
    rw [← hrefs]; exact Nat.pos_of_ne_zero hpos
  unfold CGuild.live at hq
  rw [List.mem_dedup, List.mem_append] at hq
  rcases hq with hq | hq
  · rw [List.mem_map] at hq
    obtain ⟨kp, hkp, rfl⟩ := hq
    have hin := mem_memberHolders s up (gid, g0) kp he (hsub kp hkp) hpos0
    rw [hmh] at hin
    simp only [List.mem_singleton, Prod.mk.injEq] at hin
    rcases hne with h1 | h1
    · exact h1 hin.1
    · exact h1 kp hkp hin.2
  · have ho : g0.Owner = some q := by
      rw [← hown]
      cases hO : g1.Owner with
      | none => simp [hO] at hq
      | some q1 => simp [hO] at hq; rw [hq]
    have hin := mem_ownerHolders s up (gid, g0) q he ho hpos0
    rw [hoh] at hin
    cases hin

theorem notifyIf_fields (s : Client) (n : Notification) :
    (s.notifyIf n).m_Users = s.m_Users ∧ (s.notifyIf n).m_BotUser = s.m_BotUser ∧
    (s.notifyIf n).m_Guilds = s.m_Guilds := by
  unfold Client.notifyIf Client.emit
  split <;> exact ⟨rfl, rfl, rfl⟩

theorem member_remove_eval (s : Client) (GuildID UserID : String) (outside : Nat)
    (guild : CGuild) (p up : Nat)
    (hg : Map.find s.m_Guilds GuildID = some guild)
    (hm : Map.find guild.Members UserID = some p)
    (hu : Map.find s.m_Users UserID = some up) :
    OnGuildMemberRemove s GuildID UserID outside =
      if ((s.setGuild GuildID { guild with Members := Map.erase guild.Members UserID }).notifyIf
          (Notification.OnMemberRemove guild.ID UserID)).use_count up outside = 1 then
        Outcome.done
          { ((s.setGuild GuildID { guild with Members := Map.erase guild.Members UserID }).notifyIf
              (Notification.OnMemberRemove guild.ID UserID)) with
            m_Users := Map.erase s.m_Users UserID }
      else
        Outcome.done
          ((s.setGuild GuildID { guild with Members := Map.erase guild.Members UserID }).notifyIf
            (Notification.OnMemberRemove guild.ID UserID)) := by
  have hf := notifyIf_fields
    (s.setGuild GuildID { guild with Members := Map.erase guild.Members UserID })
    (Notification.OnMemberRemove guild.ID UserID)
  have hu1 : Map.find ((s.setGuild GuildID
      { guild with Members := Map.erase guild.Members UserID }).notifyIf
      (Notification.OnMemberRemove guild.ID UserID)).m_Users UserID = some up := by
    rw [hf.1]; exact hu
  have hmu : ((s.setGuild GuildID
      { guild with Members := Map.erase guild.Members UserID }).notifyIf
      (Notification.OnMemberRemove guild.ID UserID)).m_Users = s.m_Users := hf.1
  simp only [OnGuildMemberRemove, hg, hm, hmu, hu]

theorem use_count_after_erase_eq_one (s : Client) (GuildID UserID : String) (guild : CGuild)
    (up : Nat) (n : Notification)
    (hg : Map.find s.m_Guilds GuildID = some guild)
    (hmh : memberHolders s up = [(GuildID, UserID)]) (hoh : ownerHolders s up = [])
    (hbot : s.m_BotUser ≠ some up) :
    ((s.setGuild GuildID { guild with Members := Map.erase guild.Members UserID }).notifyIf
      n).use_count up 0 = 1 := by
  have hf := notifyIf_fields
    (s.setGuild GuildID { guild with Members := Map.erase guild.Members UserID }) n
  unfold Client.use_count
  rw [hf.2.1, hf.2.2]
  have hb : (s.setGuild GuildID
      { guild with Members := Map.erase guild.Members UserID }).m_BotUser = s.m_BotUser := rfl
  rw [hb, if_neg hbot]
  have hz : (List.map (fun e => e.2.holds up) (s.setGuild GuildID
      { guild with Members := Map.erase guild.Members UserID }).m_Guilds).sum = 0 := by
    apply List.sum_eq_zero
    intro x hx
    rw [List.mem_map] at hx
    obtain ⟨e, he, rfl⟩ := hx
    have he2 : e ∈ Map.assign s.m_Guilds GuildID
        { guild with Members := Map.erase guild.Members UserID } := he
    unfold Map.assign at he2
    rw [List.mem_map] at he2
    obtain ⟨e0, he0, rfl⟩ := he2
    by_cases hk : e0.1 = GuildID
    · rw [if_pos hk]
      refine holds_eq_zero s up GuildID UserID hmh hoh GuildID guild _
        (map_find_eq_some_mem _ _ _ hg) rfl rfl ?_ (Or.inr ?_)
      · intro kp hkp; exact map_mem_erase _ _ _ hkp
      · intro kp hkp
        have h1 : kp ∈ List.filter (fun p => decide (p.1 ≠ UserID)) guild.Members := hkp
        rw [List.mem_filter] at h1
        simpa using h1.2
    · rw [if_neg hk]
      exact holds_eq_zero s up GuildID UserID hmh hoh e0.1 e0.2 e0.2 he0 rfl rfl
        (fun kp hkp => hkp) (Or.inl hk)
  rw [hz]

theorem use_count_with_other_guild (s : Client) (GuildID UserID : String) (guild : CGuild)
    (up outside : Nat) (n : Notification) (e : String × CGuild) (kp : String × Nat)
    (m : CGuildMember) (he : e ∈ s.m_Guilds) (hne : e.1 ≠ GuildID) (hkp : kp ∈ e.2.Members)
    (hobj : e.2.Objs[kp.2]? = some m) (href : m.UserRef = some up) :
    2 ≤ ((s.setGuild GuildID { guild with Members := Map.erase guild.Members UserID }).notifyIf
      n).use_count up outside := by
  have hf := notifyIf_fields
    (s.setGuild GuildID { guild with Members := Map.erase guild.Members UserID }) n
  unfold Client.use_count
  rw [hf.2.2]
  have hmem : e ∈ (s.setGuild GuildID
      { guild with Members := Map.erase guild.Members UserID }).m_Guilds := by
    show e ∈ Map.assign s.m_Guilds GuildID _
    unfold Map.assign
    rw [List.mem_map]
    exact ⟨e, he, by rw [if_neg hne]⟩
  have h1 : e.2.holds up ∈ List.map (fun e => e.2.holds up) (s.setGuild GuildID
      { guild with Members := Map.erase guild.Members UserID }).m_Guilds :=
    List.mem_map.2 ⟨e, hmem, rfl⟩
  have h2 := nat_le_sum_of_mem _ _ h1
  have h3 : e.2.refs kp.2 up ≤ e.2.holds up := by
    unfold CGuild.holds
    apply nat_le_sum_of_mem
    rw [List.mem_map]
    refine ⟨kp.2, ?_, rfl⟩
    unfold CGuild.live
    rw [List.mem_dedup, List.mem_append]
    exact Or.inl (List.mem_map.2 ⟨kp, hkp, rfl⟩)
  have h4 : 1 ≤ e.2.refs kp.2 up := by
    unfold CGuild.refs
    rw [hobj]
    show 1 ≤ m.holds up
    unfold CGuildMember.holds
    rw [if_pos href]
    omega
  omega

/-- C6 (counterexample): in the scenario client U1 is cached, U1 is a member of G1, no
other member of a cached guild references that user, and after GUILD_MEMBER_REMOVE for
U1 in G1 (nothing outside the client holding the user) U1 is still in the user cache:
the owner reference of G1 keeps the member object, and with it the user, alive. -/
theorem removed_owner_keeps_user_cached :
    (∃ g, Map.find (scenarioClient false).m_Guilds "G1" = some g ∧
      Map.find g.Members "U1" = some 0 ∧ g.Owner = some 0) ∧
    Map.find (scenarioClient false).m_Users "U1" = some 0 ∧
    memberHolders (scenarioClient false) 0 = [("G1", "U1")] ∧
    ∃ s1, OnGuildMemberRemove (scenarioClient false) "G1" "U1" 0 = Outcome.done s1 ∧
      Map.find s1.m_Users "U1" = some 0 :=
  ⟨⟨_, rfl, by decide, by decide⟩, by decide, by decide, _, rfl, by decide⟩

/-- C6 (amended): for a GUILD_MEMBER_REMOVE (or GUILD_BAN_ADD) event that names a member
of a cached guild whose user id is cached, the handler returns, and
(1) if that member is the only member of a cached guild whose object references the
user, no owner reference of a cached guild references the user, the user is not the bot
user, and nothing outside the client holds the user, then the user id is not in the
user cache afterwards;
(2) if a member of a cached guild stored under a different id references the user, then
the user is still in the user cache afterwards. -/
theorem member_remove_evicts_unreferenced_user (s : Client) (GuildID UserID : String)
    (outside : Nat) (guild : CGuild) (p up : Nat)
    (hg : Map.find s.m_Guilds GuildID = some guild)
    (hm : Map.find guild.Members UserID = some p)
    (hu : Map.find s.m_Users UserID = some up) :
    ∃ s1, OnGuildMemberRemove s GuildID UserID outside = Outcome.done s1 ∧
      ((memberHolders s up = [(GuildID, UserID)] ∧ ownerHolders s up = [] ∧
          s.m_BotUser ≠ some up ∧ outside = 0) →
        Map.find s1.m_Users UserID = none) ∧
      ((∃ e ∈ s.m_Guilds, e.1 ≠ GuildID ∧ ∃ kp ∈ e.2.Members, ∃ m : CGuildMember,
          e.2.Objs[kp.2]? = some m ∧ m.UserRef = some up) →
        Map.find s1.m_Users UserID = some up) := by
  rw [member_remove_eval s GuildID UserID outside guild p up hg hm hu]
  by_cases hc : ((s.setGuild GuildID
      { guild with Members := Map.erase guild.Members UserID }).notifyIf
      (Notification.OnMemberRemove guild.ID UserID)).use_count up outside = 1
  · rw [if_pos hc]
    refine ⟨_, rfl, ?_, ?_⟩
    · intro _
      show Map.find (Map.erase s.m_Users UserID) UserID = none
      rw [map_find_erase, if_pos rfl]
    · rintro ⟨e, he, hne, kp, hkp, m, hobj, href⟩
      have := use_count_with_other_guild s GuildID UserID guild up outside
        (Notification.OnMemberRemove guild.ID UserID) e kp m he hne hkp hobj href
      omega
  · rw [if_neg hc]
    refine ⟨_, rfl, ?_, ?_⟩
    · rintro ⟨hmh, hoh, hbot, hout⟩
      subst hout
      exact absurd (use_count_after_erase_eq_one s GuildID UserID guild up _ hg hmh hoh hbot) hc
    · intro _
      rw [(notifyIf_fields _ _).1]
      exact hu

/-- C6 (witness): U1 is evicted when its only holder is the removed member of G1 (the
owner of G1 is not cached), and stays cached when it is also a member of G2. -/
theorem member_remove_evicts_unreferenced_user_witness :
    (∃ s1, OnGuildMemberRemove
        (clientAfter [(1, DispatchEvent.GUILD_CREATE (guildOfU1 "G1" "U2") none)])
        "G1" "U1" 0 = Outcome.done s1 ∧ Map.find s1.m_Users "U1" = none) ∧
    (∃ s1, OnGuildMemberRemove
        (clientAfter [(1, DispatchEvent.GUILD_CREATE (guildOfU1 "G1" "U1") none),
                      (2, DispatchEvent.GUILD_CREATE (guildOfU1 "G2" "U1") none)])
        "G1" "U1" 0 = Outcome.done s1 ∧ Map.find s1.m_Users "U1" = some 0) := by
  constructor
  · obtain ⟨s1, h1, h2, _⟩ := member_remove_evicts_unreferenced_user
      (clientAfter [(1, DispatchEvent.GUILD_CREATE (guildOfU1 "G1" "U2") none)])
      "G1" "U1" 0
      ((clientAfter [(1, DispatchEvent.GUILD_CREATE (guildOfU1 "G1" "U2") none)]).guildAt "G1")
      0 0 (by decide) (by decide) (by decide)
    exact ⟨s1, h1, h2 ⟨by decide, by decide, by decide, rfl⟩⟩
  · obtain ⟨s1, h1, _, h3⟩ := member_remove_evicts_unreferenced_user
      (clientAfter [(1, DispatchEvent.GUILD_CREATE (guildOfU1 "G1" "U1") none),
                    (2, DispatchEvent.GUILD_CREATE (guildOfU1 "G2" "U1") none)])
      "G1" "U1" 0
      ((clientAfter [(1, DispatchEvent.GUILD_CREATE (guildOfU1 "G1" "U1") none),
                     (2, DispatchEvent.GUILD_CREATE (guildOfU1 "G2" "U1") none)]).guildAt "G1")
      0 0 (by decide) (by decide) (by decide)
    refine ⟨s1, h1, h3 ⟨("G2", (clientAfter
      [(1, DispatchEvent.GUILD_CREATE (guildOfU1 "G1" "U1") none),
       (2, DispatchEvent.GUILD_CREATE (guildOfU1 "G2" "U1") none)]).guildAt "G2"),
      by decide, by decide, ("U1", 0), by decide, { GuildID := "G2", UserRef := some 0 },
      by decide, rfl⟩⟩

/-! ## The contents of a guild after GUILD_CREATE -/

theorem resolveUser_spec (s : Client) (json : UserJson) (h : UsersWF s) :
    UsersWF (resolveUser s json).1 ∧
    ((resolveUser s json).1.user (resolveUser s json).2).ID = json.id := by
  unfold resolveUser
  cases hf : Map.find s.m_Users json.id with
  | some up =>
    obtain ⟨u, hu, hid⟩ := h json.id up hf
    refine ⟨h, ?_⟩
    show (s.Users.getD up default).ID = json.id
    rw [List.getD_eq_getElem?_getD, hu]
    exact hid
  | none =>
    refine ⟨?_, ?_⟩
    · intro k up hk
      have hk2 : Map.find (Map.insert s.m_Users json.id s.Users.length) k = some up := hk
      rw [map_find_insert] at hk2
      show ∃ u : CUser, (s.Users ++ [{ ID := json.id, Username := json.username }])[up]? = some u ∧
        u.ID = k
      cases hold : Map.find s.m_Users k with
      | some up0 =>
        rw [hold] at hk2
        have hup : up0 = up := by simpa using hk2
        subst hup
        obtain ⟨u, hu, hid⟩ := h k up0 hold
        have hlt : up0 < s.Users.length := by
          rcases List.getElem?_eq_some.1 hu with ⟨hl, _⟩
          exact hl
        exact ⟨u, by rw [List.getElem?_append_left hlt]; exact hu, hid⟩
      | none =>
        rw [hold] at hk2
        by_cases hkk : json.id = k
        · simp only [hkk, if_true] at hk2
          have hup : s.Users.length = up := by simpa using hk2
          subst hup
          exact ⟨({ ID := json.id, Username := json.username } : CUser), by simp, hkk⟩
        · simp [hkk] at hk2
    · show ((s.Users ++ [({ ID := json.id, Username := json.username } : CUser)]).getD
        s.Users.length default).ID = json.id
      simp [List.getD_eq_getElem?_getD]

theorem usersWF_CreateMember (s : Client) (json : MemberJson) (guild : CGuild)
    (h : UsersWF s) : UsersWF (CreateMember s json guild).1 := by
  unfold CreateMember
  cases json.user with
  | none => exact h
  | some u => exact (resolveUser_spec s u h).1

theorem CreateMember_without_user (s : Client) (json : MemberJson) (guild : CGuild)
    (hu : json.user = none) :
    (CreateMember s json guild).2.1.Members = guild.Members := by
  unfold CreateMember
  rw [hu]

theorem CreateMember_with_user (s : Client) (json : MemberJson) (guild : CGuild)
    (u : UserJson) (h : UsersWF s) (hu : json.user = some u)
    (hnew : Map.find guild.Members u.id = none) :
    Map.find (CreateMember s json guild).2.1.Members u.id = some guild.Objs.length ∧
    (∃ mem : CGuildMember, (CreateMember s json guild).2.1.Objs[guild.Objs.length]? = some mem ∧
      mem.Roles = json.roles.filterMap (fun e => Map.find guild.Roles e) ∧
      mem.GuildID = guild.ID) ∧
    (∀ k : String, k ≠ u.id →
      Map.find (CreateMember s json guild).2.1.Members k = Map.find guild.Members k) := by
  have hid := (resolveUser_spec s u h).2
  unfold CreateMember
  rw [hu]
  simp only [hid]
  refine ⟨?_, ?_, ?_⟩
  · exact map_find_insert_self _ _ _ hnew
  · exact ⟨{ GuildID := guild.ID, UserRef := some (resolveUser s u).2, Nick := json.nick,
             JoinedAt := json.joined_at, PremiumSince := json.premium_since,
             Deaf := json.deaf, Mute := json.mute,
             Roles := json.roles.filterMap (fun e => Map.find guild.Roles e),
             State := none }, by simp, rfl, rfl⟩
  · intro k hk
    rw [map_find_insert]
    have hk2 : ¬ u.id = k := fun h => hk h.symm
    cases Map.find guild.Members k <;> simp [hk2]

theorem addMembers_cons (e : MemberJson) (l : List MemberJson) (a : Client × CGuild) :
    addMembers (e :: l) a =
      addMembers l ((CreateMember a.1 e a.2).1, (CreateMember a.1 e a.2).2.1) := by
  unfold addMembers
  rfl

theorem addMembers_spec (l : List MemberJson) (a : Client × CGuild) (hwf : UsersWF a.1)
    (hnd : (l.filterMap (fun m => m.user.map UserJson.id)).Nodup)
    (hnew : ∀ m ∈ l, ∀ u, m.user = some u → Map.find a.2.Members u.id = none) :
    ∀ m ∈ l, ∀ u, m.user = some u →
      ∃ (p : Nat) (mem : CGuildMember), Map.find (addMembers l a).2.Members u.id = some p ∧
        (addMembers l a).2.Objs[p]? = some mem ∧
        mem.Roles = m.roles.filterMap (fun e => Map.find a.2.Roles e) ∧
        mem.GuildID = a.2.ID := by
  induction l generalizing a with
  | nil => intro m hm; cases hm
  | cons e l ih =>
    have hwf1 := usersWF_CreateMember a.1 e a.2 hwf
    have hext1 := guildExt_CreateMember a.1 e a.2
    have hextl := (addMembers_ext l ((CreateMember a.1 e a.2).1, (CreateMember a.1 e a.2).2.1)).2
    -- the members of the tail are still absent after the head was created
    have hnew1 : ∀ m ∈ l, ∀ u, m.user = some u →
        Map.find (CreateMember a.1 e a.2).2.1.Members u.id = none := by
      intro m hm u hu
      have hold := hnew m (List.mem_cons_of_mem _ hm) u hu
      cases he : e.user with
      | none => rw [CreateMember_without_user a.1 e a.2 he]; exact hold
      | some ue =>
        have hne : u.id ≠ ue.id := by
          intro heq
          have hmem : u.id ∈ l.filterMap (fun m => m.user.map UserJson.id) :=
            List.mem_filterMap.2 ⟨m, hm, by simp [hu]⟩
          simp only [List.filterMap_cons, he, Option.map_some'] at hnd
          rw [List.nodup_cons] at hnd
          exact hnd.1 (heq ▸ hmem)
        rw [(CreateMember_with_user a.1 e a.2 ue hwf he
          (hnew e (List.mem_cons_self _ _) ue he)).2.2 u.id hne]
        exact hold
    have hnd1 : (l.filterMap (fun m => m.user.map UserJson.id)).Nodup := by
      cases he : e.user with
      | none => simpa [List.filterMap_cons, he] using hnd
      | some ue =>
        simp only [List.filterMap_cons, he, Option.map_some'] at hnd
        exact (List.nodup_cons.1 hnd).2
    have ih1 := ih ((CreateMember a.1 e a.2).1, (CreateMember a.1 e a.2).2.1) hwf1 hnd1 hnew1
    intro m hm u hu
    rw [addMembers_cons]
    rcases List.mem_cons.1 hm with hme | hml
    · subst hme
      obtain ⟨h1, ⟨mem, h2, h3, h4⟩, _⟩ := CreateMember_with_user a.1 m a.2 u hwf hu
        (hnew m (List.mem_cons_self _ _) u hu)
      obtain ⟨_, _, _, _, _, _, hfind, hobjs⟩ := hextl
      obtain ⟨mem2, hm2, hsame⟩ := hobjs _ mem h2
      refine ⟨a.2.Objs.length, mem2, hfind _ _ h1, hm2, ?_, ?_⟩
      · rw [← h3, ← hsame]
      · rw [← h4, ← hsame]
    · obtain ⟨p, mem, h1, h2, h3, h4⟩ := ih1 m hml u hu
      refine ⟨p, mem, h1, h2, ?_, ?_⟩
      · rw [h3]
        have hR : (CreateMember a.1 e a.2).2.1.Roles = a.2.Roles := hext1.2.2.2.2.1
        simp only [hR]
      · rw [h4]; exact hext1.1

theorem addRoles_find (l : List RoleJson) (g : CGuild) (e : String) :
    Map.find (addRoles l g).Roles e =
      match Map.find g.Roles e with
      | some r => some r
      | none => (l.find? (fun r => r.id = e)).map toRole := by
  unfold addRoles
  induction l generalizing g with
  | nil =>
    simp only [List.foldl_nil]
    cases hf : Map.find g.Roles e <;> simp
  | cons x l ih =>
    simp only [List.foldl_cons]
    rw [ih]
    simp only [map_find_insert, toRole]
    cases hf : Map.find g.Roles e with
    | some r => rfl
    | none =>
      by_cases hx : x.id = e
      · subst hx
        simp [List.find?_cons, toRole]
      · simp [hx, List.find?_cons]

theorem addChannels_find (l : List ChannelJson) (g : CGuild) (k : String) :
    Map.find (addChannels l g).Channels k =
      match Map.find g.Channels k with
      | some c => some c
      | none => (l.find? (fun c => c.id = k)).map
          (fun c => ({ (toChannel c) with GuildID := g.ID } : CChannel)) := by
  unfold addChannels
  induction l generalizing g with
  | nil =>
    simp only [List.foldl_nil]
    cases hf : Map.find g.Channels k <;> simp
  | cons x l ih =>
    simp only [List.foldl_cons]
    rw [ih]
    simp only [map_find_insert, toChannel]
    cases hf : Map.find g.Channels k with
    | some r => rfl
    | none =>
      by_cases hx : x.id = k
      · subst hx
        simp [List.find?_cons, toChannel]
      · simp [hx, List.find?_cons]

theorem addChannels_Roles (l : List ChannelJson) (g : CGuild) :
    (addChannels l g).Roles = g.Roles := by
  unfold addChannels
  induction l generalizing g with
  | nil => rfl
  | cons e l ih => simp only [List.foldl_cons]; rw [ih]

theorem addChannels_Members (l : List ChannelJson) (g : CGuild) :
    (addChannels l g).Members = g.Members := by
  unfold addChannels
  induction l generalizing g with
  | nil => rfl
  | cons e l ih => simp only [List.foldl_cons]; rw [ih]

theorem addRoles_Members (l : List RoleJson) (g : CGuild) :
    (addRoles l g).Members = g.Members ∧ (addRoles l g).Channels = g.Channels := by
  unfold addRoles
  induction l generalizing g with
  | nil => exact ⟨rfl, rfl⟩
  | cons e l ih => simp only [List.foldl_cons]; rw [(ih _).1, (ih _).2]; exact ⟨rfl, rfl⟩

theorem find?_of_nodup_ids (l : List ChannelJson) (c : ChannelJson)
    (hnd : (l.map ChannelJson.id).Nodup) (hc : c ∈ l) :
    l.find? (fun x => x.id = c.id) = some c := by
  induction l with
  | nil => cases hc
  | cons x l ih =>
    rw [List.map_cons, List.nodup_cons] at hnd
    rcases List.mem_cons.1 hc with h | h
    · subst h; simp [List.find?_cons]
    · have hne : x.id ≠ c.id := by
        intro heq
        exact hnd.1 (heq ▸ List.mem_map_of_mem _ h)
      simp [List.find?_cons, hne]
      exact ih hnd.2 h

theorem roles_ids_of_find (roles : List RoleJson) (l : List String) :
    (l.filterMap (fun e => (roles.find? (fun r => r.id = e)).map toRole)).map CRole.ID =
      l.filter (fun e => e ∈ roles.map RoleJson.id) := by
  induction l with
  | nil => rfl
  | cons e l ih =>
    cases hf : roles.find? (fun r => r.id = e) with
    | none =>
      have hnot : e ∉ roles.map RoleJson.id := by
        intro hmem
        rw [List.mem_map] at hmem
        obtain ⟨r, hr, hid⟩ := hmem
        have := List.find?_eq_none.1 hf r hr
        simp [hid] at this
      rw [List.filterMap_cons_none (by simp [hf]),
        List.filter_cons_of_neg (by simpa using hnot)]
      exact ih
    | some r =>
      have hid : r.id = e := by
        have := List.find?_some hf
        simpa using this
      have hmem : e ∈ roles.map RoleJson.id :=
        List.mem_map.2 ⟨r, List.mem_of_find?_eq_some hf, hid⟩
      rw [List.filterMap_cons_some (b := toRole r) (by simp [hf]),
        List.filter_cons_of_pos (by simpa using hmem), List.map_cons, ih]
      simp [toRole, hid]

theorem GetMember_found (s : Client) (guild : CGuild) (UserID : String)
    (rest : Option MemberJson) (p : Nat) (h : Map.find guild.Members UserID = some p) :
    GetMember s guild UserID rest = (s, guild, some p) := by
  unfold GetMember
  rw [h]

theorem buildGuild_eq (s : Client) (json : GuildJson) (owner : Option MemberJson) :
    buildGuild s json owner =
      ((GetMember
          (addVoiceStates json.voice_states (addMembers json.members
            (s, addChannels json.channels (addRoles json.roles
              { ID := json.id, Name := json.name, Icon := json.icon })))).1
          (addVoiceStates json.voice_states (addMembers json.members
            (s, addChannels json.channels (addRoles json.roles
              { ID := json.id, Name := json.name, Icon := json.icon })))).2
          json.owner_id owner).1,
       { (GetMember
          (addVoiceStates json.voice_states (addMembers json.members
            (s, addChannels json.channels (addRoles json.roles
              { ID := json.id, Name := json.name, Icon := json.icon })))).1
          (addVoiceStates json.voice_states (addMembers json.members
            (s, addChannels json.channels (addRoles json.roles
              { ID := json.id, Name := json.name, Icon := json.icon })))).2
          json.owner_id owner).2.1 with
         Owner := (GetMember
          (addVoiceStates json.voice_states (addMembers json.members
            (s, addChannels json.channels (addRoles json.roles
              { ID := json.id, Name := json.name, Icon := json.icon })))).1
          (addVoiceStates json.voice_states (addMembers json.members
            (s, addChannels json.channels (addRoles json.roles
              { ID := json.id, Name := json.name, Icon := json.icon })))).2
          json.owner_id owner).2.2 }) := rfl

theorem buildGuild_spec (s : Client) (json : GuildJson) (owner : Option MemberJson)
    (hwf : UsersWF s)
    (hch : (json.channels.map ChannelJson.id).Nodup)
    (hmem : (json.members.filterMap (fun m => m.user.map UserJson.id)).Nodup) :
    (∀ c ∈ json.channels, Map.find (buildGuild s json owner).2.Channels c.id =
        some { (toChannel c) with GuildID := json.id }) ∧
    (∀ m ∈ json.members, ∀ u, m.user = some u →
      ∃ (p : Nat) (mem : CGuildMember),
        Map.find (buildGuild s json owner).2.Members u.id = some p ∧
        (buildGuild s json owner).2.Objs[p]? = some mem ∧
        mem.Roles = m.roles.filterMap
          (fun e => (json.roles.find? (fun r => r.id = e)).map toRole) ∧
        mem.GuildID = json.id ∧
        (json.owner_id = u.id → (buildGuild s json owner).2.Owner = some p)) := by
  rw [buildGuild_eq]
  have hID : (addChannels json.channels (addRoles json.roles
      { ID := json.id, Name := json.name, Icon := json.icon })).ID = json.id := by
    rw [addChannels_ID, addRoles_ID]
  have hRoles : ∀ e, Map.find (addChannels json.channels (addRoles json.roles
      { ID := json.id, Name := json.name, Icon := json.icon })).Roles e =
      (json.roles.find? (fun r => r.id = e)).map toRole := by
    intro e
    rw [addChannels_Roles, addRoles_find]
    rfl
  have hChan : ∀ k, Map.find (addChannels json.channels (addRoles json.roles
      { ID := json.id, Name := json.name, Icon := json.icon })).Channels k =
      (json.channels.find? (fun c => c.id = k)).map
        (fun c => ({ (toChannel c) with GuildID := json.id } : CChannel)) := by
    intro k
    rw [addChannels_find, (addRoles_Members _ _).2, addRoles_ID]
    rfl
  have hMem0 : (addChannels json.channels (addRoles json.roles
      { ID := json.id, Name := json.name, Icon := json.icon })).Members = [] := by
    rw [addChannels_Members, (addRoles_Members _ _).1]
  generalize addChannels json.channels (addRoles json.roles
      { ID := json.id, Name := json.name, Icon := json.icon }) = gC at hID hRoles hChan hMem0 ⊢
  have hspec := addMembers_spec json.members (s, gC) hwf hmem
    (by intro m _ u _; show Map.find gC.Members u.id = none; rw [hMem0]; rfl)
  have hextM := (addMembers_ext json.members (s, gC)).2
  generalize addMembers json.members (s, gC) = aM at hspec hextM ⊢
  have hextV := (addVoiceStates_ext json.voice_states aM).2
  generalize addVoiceStates json.voice_states aM = aV at hextV ⊢
  have hextG := guildExt_GetMember aV.1 aV.2 json.owner_id owner
  have hfound := GetMember_found aV.1 aV.2 json.owner_id owner
  generalize GetMember aV.1 aV.2 json.owner_id owner = r5 at hextG hfound ⊢
  have hMV := guildExt_trans hextM hextV
  have hall := guildExt_trans hMV hextG
  obtain ⟨_, _, _, _, _, hC, _, _⟩ := hall
  obtain ⟨_, _, _, _, _, _, hfind, hobjs⟩ := guildExt_trans hextV hextG
  refine ⟨?_, ?_⟩
  · intro c hc
    show Map.find r5.2.1.Channels c.id = _
    rw [hC]
    show Map.find gC.Channels c.id = _
    rw [hChan, find?_of_nodup_ids _ c hch hc]
    rfl
  · intro m hm u hu
    obtain ⟨p, mem, h1, h2, h3, h4⟩ := hspec m hm u hu
    obtain ⟨mem2, hm2, hsame⟩ := hobjs p mem h2
    refine ⟨p, mem2, hfind _ _ h1, hm2, ?_, ?_, ?_⟩
    · rw [← hsame] at h3
      rw [show mem2.Roles = _ from h3]
      congr 1
      funext e
      exact hRoles e
    · rw [← hsame] at h4
      exact (show mem2.GuildID = _ from h4).trans hID
    · intro ho
      have hV : Map.find aV.2.Members json.owner_id = some p := by
        rw [ho]; exact hextV.2.2.2.2.2.2.1 _ _ h1
      rw [hfound p hV]

theorem OnGuildCreate_guilds (s : Client) (json : GuildJson) (owner : Option MemberJson) :
    ∃ s1, OnGuildCreate s json owner = Outcome.done s1 ∧
      s1.m_Guilds = Map.insert s.m_Guilds json.id (buildGuild s json owner).2 := by
  have hG := frameEq_guilds (frameEq_buildGuild s json owner)
  have hID := buildGuild_ID s json owner
  unfold OnGuildCreate
  simp only [hID, hG]
  split
  · exact ⟨_, rfl, by rw [notifyIf_guilds]⟩
  · exact ⟨_, rfl, by rw [notifyIf_guilds]⟩

/-- C10: for a client whose user cache stores every user under its own id, and a
GUILD_CREATE snapshot of a guild id that is not cached, with pairwise distinct channel
ids and pairwise distinct member (user) ids, the handler returns and the guild is
cached under its id; every channel of the snapshot is found in the channel map under
its id, with the type of the snapshot and the id of the guild as guild reference; every
member of the snapshot that has a user is found in the member map under the user id,
and the ids of its role list are the listed role ids that are roles of the snapshot, in
listed order; and when the owner id is the user id of such a member, the owner
reference of the guild is that very member object. -/
theorem guild_create_caches_snapshot (s : Client) (json : GuildJson)
    (owner : Option MemberJson) (hwf : UsersWF s)
    (hnew : Map.find s.m_Guilds json.id = none)
    (hch : (json.channels.map ChannelJson.id).Nodup)
    (hmem : (json.members.filterMap (fun m => m.user.map UserJson.id)).Nodup) :
    ∃ s1 g, OnGuildCreate s json owner = Outcome.done s1 ∧
      Map.find s1.m_Guilds json.id = some g ∧
      (∀ c ∈ json.channels, ∃ ch : CChannel, Map.find g.Channels c.id = some ch ∧
        ch.ID = c.id ∧ ch.Type_ = c.type ∧ ch.GuildID = json.id) ∧
      (∀ m ∈ json.members, ∀ u, m.user = some u →
        ∃ (p : Nat) (mem : CGuildMember), Map.find g.Members u.id = some p ∧
          g.Objs[p]? = some mem ∧
          mem.Roles.map CRole.ID = m.roles.filter (fun e => e ∈ json.roles.map RoleJson.id) ∧
          (json.owner_id = u.id → g.Owner = some p)) := by
  obtain ⟨s1, h1, h2⟩ := OnGuildCreate_guilds s json owner
  obtain ⟨hC, hM⟩ := buildGuild_spec s json owner hwf hch hmem
  refine ⟨s1, (buildGuild s json owner).2, h1, ?_, ?_, ?_⟩
  · rw [h2]; exact map_find_insert_self _ _ _ hnew
  · intro c hc
    exact ⟨_, hC c hc, rfl, rfl, rfl⟩
  · intro m hm u hu
    obtain ⟨p, mem, a1, a2, a3, _, a5⟩ := hM m hm u hu
    refine ⟨p, mem, a1, a2, ?_, a5⟩
    rw [a3]
    exact roles_ids_of_find json.roles m.roles

/-- C10 (witness): the scenario of the specification on a new client: after
GUILD_CREATE the channel C2 of G1 is a voice channel, the member U1 has the role list
R1, and the owner of G1 is the cached member U1. -/
theorem guild_create_caches_snapshot_witness :
    ∃ s1 g, OnGuildCreate (Client.create "token" 0) scenarioGuild none = Outcome.done s1 ∧
      Map.find s1.m_Guilds "G1" = some g ∧
      (∃ ch : CChannel, Map.find g.Channels "C2" = some ch ∧
        ch.Type_ = ChannelTypes.GUILD_VOICE ∧ ch.GuildID = "G1") ∧
      (∃ (p : Nat) (mem : CGuildMember), Map.find g.Members "U1" = some p ∧
        g.Objs[p]? = some mem ∧ mem.Roles.map CRole.ID = ["R1"] ∧ g.Owner = some p) := by
  obtain ⟨s1, g, h1, h2, h3, h4⟩ := guild_create_caches_snapshot (Client.create "token" 0)
    scenarioGuild none (by intro k up h; simp [Client.create, Map.find] at h)
    (by decide) (by decide) (by decide)
  refine ⟨s1, g, h1, h2, ?_, ?_⟩
  · obtain ⟨ch, c1, _, c3, c4⟩ := h3 { id := "C2", type := ChannelTypes.GUILD_VOICE } (by decide)
    exact ⟨ch, c1, c3, c4⟩
  · obtain ⟨p, mem, m1, m2, m3, m4⟩ := h4
      { user := some { id := "U1", username := "user" }, roles := ["R1"] } (by decide)
      { id := "U1", username := "user" } rfl
    exact ⟨p, mem, m1, m2, m3, m4 rfl⟩

/-! ## INVALID_SESSION, RECONNECT and the op-code switch -/

/-- C13: an INVALID_SESSION frame is handled to its end. When its data is `true` the
only effect is one RESUME frame with the token, the held session id and the last
sequence number (no close of the socket, no post). Otherwise the effects are the local
close of the socket followed by one RECONNECT post with the delay 5000, and no frame. In
both cases the session id is as before; and the delivery of a RECONNECT message, in any
state, clears the session id and starts the socket. -/
theorem invalid_session_resumes_or_reconnects (s : Client) (Pay : SPayload) :
    (∃ s1, OnPayload s { Pay with OP := OPCodes.INVALID_SESSION } = Outcome.done s1 ∧
      s1.trace = s.trace ++
        (if Pay.D = "true" then
          [Effect.send (Frame.RESUME s.m_Token s.m_SessionID s.m_LastSeqNum)]
        else
          [Effect.socketClose, Effect.post BusEvent.RECONNECT (BusValue.int 0) 5000]) ∧
      s1.m_SessionID = s.m_SessionID) ∧
    (∀ (t : Client) (v : BusValue),
      (OnMessageReceive t BusEvent.RECONNECT v).m_SessionID = "" ∧
      (OnMessageReceive t BusEvent.RECONNECT v).trace = t.trace ++ [Effect.socketStart]) := by
  refine ⟨?_, fun t v => ⟨rfl, rfl⟩⟩
  by_cases h : Pay.D = "true"
  · exact ⟨SendResume s, by simp [OnPayload, OnInvalidSession, h],
      by simp [SendResume, SendOP, Client.emit, h], rfl⟩
  · exact ⟨(s.emit Effect.socketClose).emit
        (Effect.post BusEvent.RECONNECT (BusValue.int 0) 5000),
      by simp only [OnPayload, OnInvalidSession, h, if_false],
      by simp [Client.emit, h], rfl⟩

/-- C14 (failing input): a client that holds the session id S receives a frame with the
op-code RECONNECT: the switch has no case for it, the state (session id included) and
the trace are unchanged, so no connection is requested; and the next HELLO is answered
with a RESUME frame that carries S, not with an IDENTIFY frame. -/
theorem reconnect_frame_is_ignored :
    OnPayload { Client.create "token" 0 with m_SessionID := "S", m_LastSeqNum := 7 }
        { OP := OPCodes.RECONNECT } =
      Outcome.done { Client.create "token" 0 with m_SessionID := "S", m_LastSeqNum := 7 } ∧
    ∃ s1, OnPayload { Client.create "token" 0 with m_SessionID := "S", m_LastSeqNum := 7 }
        { OP := OPCodes.HELLO, heartbeat_interval := some 41250 } = Outcome.done s1 ∧
      s1.trace = [Effect.send (Frame.RESUME "token" "S" 7), Effect.heartbeatThread] :=
  ⟨rfl, _, rfl, by decide⟩

/-! ## Events that name something the cache does not hold -/

/-- C15 (failing input): in the scenario client, a VOICE_STATE_UPDATE for the guild G9,
which is not cached, and one for the user U9, who is no member of the cached guild G1,
both end in a fault: the iterator returned by `find` is dereferenced unchecked. -/
theorem voice_state_update_faults_on_unknown_ids :
    Map.find (scenarioClient true).m_Guilds "G9" = none ∧
    OnVoiceStateUpdate (scenarioClient true) { guild_id := "G9", user_id := "U1" } =
      Outcome.fault ∧
    Map.find ((scenarioClient true).guildAt "G1").Members "U9" = none ∧
    OnVoiceStateUpdate (scenarioClient true) { guild_id := "G1", user_id := "U9" } =
      Outcome.fault :=
  ⟨by decide, by decide, by decide, by decide⟩

/-- C16 (failing input): in the scenario client the member U1 of G1 has the role list
R1; a GUILD_MEMBER_UPDATE for U1 that lists the role id R9, which G1 does not have, and
the nickname `nick` ends with the exception of `at` leaving the handler, and the member
then has an empty role list (the nickname is still the old one). -/
theorem member_update_with_unknown_role_throws :
    ((scenarioClient true).guildAt "G1").Objs.map (fun m => (m.Roles.map CRole.ID, m.Nick)) =
      [(["R1"], "")] ∧
    ∃ s1, OnGuildMemberUpdate (scenarioClient true)
        { guild_id := "G1", user_id := "U1", nick := "nick", roles := ["R9"] } =
        Outcome.thrown s1 ∧
      (s1.guildAt "G1").Objs.map (fun m => (m.Roles.map CRole.ID, m.Nick)) = [([], "")] :=
  ⟨by decide, _, rfl, by decide⟩

/-- C17 (failing input): G1 is cached with the name `guild` and the channels C1 and C2;
after a GUILD_CREATE for G1 whose snapshot has the name `renamed` and no channel, the
cache has one entry for G1 and it still carries the name `guild` and the channels C1
and C2. -/
theorem guild_create_keeps_stale_guild :
    ∃ s1, OnGuildCreate (scenarioClient true)
        { scenarioGuild with name := "renamed", channels := [] } none = Outcome.done s1 ∧
      s1.m_Guilds.map (fun e => (e.1, e.2.Name, Map.keys e.2.Channels)) =
        [("G1", "guild", ["C1", "C2"])] :=
  ⟨_, rfl, by decide⟩

/-- C18 (failing input): the same PRESENCE_UPDATE for U1, with the status `dnd` and the
one activity `chess`, applied twice to the scenario client: after the first application
the activity list of U1 is `chess`, after the second it is `chess, chess`. -/
theorem presence_update_appends_activities :
    ∃ s1 s2,
      OnPresenceUpdate (scenarioClient true)
        { user := { id := "U1" }, guild_id := "G1", status := "dnd",
          activities := [{ name := "chess" }] } none = Outcome.done s1 ∧
      OnPresenceUpdate s1
        { user := { id := "U1" }, guild_id := "G1", status := "dnd",
          activities := [{ name := "chess" }] } none = Outcome.done s2 ∧
      s1.Users.map (fun u => (u.ID, u.State, u.Activities.map CActivity.Name)) =
        [("U1", OnlineState.DND, ["chess"])] ∧
      s2.Users.map (fun u => (u.ID, u.State, u.Activities.map CActivity.Name)) =
        [("U1", OnlineState.DND, ["chess", "chess"])] :=
  ⟨_, _, rfl, rfl, by decide, by decide⟩

/-! ## Quit -/

theorem leave_all_guilds (l : Map CGuild) (s : Client) :
    l.foldl (fun a e => Leave a (some e.2)) s =
      { s with trace := s.trace ++
          l.map (fun e => Effect.send (Frame.VOICE_STATE_UPDATE e.2.ID none)) } := by
  induction l generalizing s with
  | nil => simp
  | cons e l ih =>
    rw [List.foldl_cons, ih]
    simp [Leave, ChangeVoiceState, SendOP, Client.emit]

/-- C20: after `Quit` on a client with a controller attached, the terminate flag and the
quit flag are set; the guild cache, the user cache, the voice-connection table, the
pending-audio-source table and the playback-queue table are empty; the controller is
detached; and the effects of the call are, in this order, one voice-state-update frame
with a null channel for every guild that was cached, the stop of the socket, one
disconnect notification and one quit notification. -/
theorem quit_clears_everything (s : Client) (hc : s.m_Controller = true) :
    (Quit s).m_Terminate = true ∧ (Quit s).m_Quit = true ∧
    (Quit s).m_Guilds = [] ∧ (Quit s).m_Users = [] ∧ (Quit s).m_VoiceSockets = [] ∧
    (Quit s).m_AudioSources = [] ∧ (Quit s).m_MusicQueues = [] ∧
    (Quit s).m_Controller = false ∧
    (Quit s).trace = s.trace ++
      s.m_Guilds.map (fun e => Effect.send (Frame.VOICE_STATE_UPDATE e.2.ID none)) ++
      [Effect.socketStop, Effect.notify Notification.OnDisconnect,
       Effect.notify Notification.OnQuit] := by
  unfold Quit
  rw [leave_all_guilds]
  simp [Client.emit, hc]

/-- C20 (witness): `Quit` on the scenario client with a controller attached. -/
theorem quit_clears_everything_witness :
    (Quit (scenarioClient true)).m_Guilds = [] ∧
    (Quit (scenarioClient true)).m_Controller = false ∧
    (Quit (scenarioClient true)).trace =
      [Effect.notify (Notification.OnGuildJoin "G1"),
       Effect.send (Frame.VOICE_STATE_UPDATE "G1" none),
       Effect.socketStop, Effect.notify Notification.OnDisconnect,
       Effect.notify Notification.OnQuit] := by
  have h := quit_clears_everything (scenarioClient true) (by decide)
  exact ⟨h.2.2.1, h.2.2.2.2.2.2.2.1, h.2.2.2.2.2.2.2.2⟩

/-! ## VOICE_STATE_UPDATE -/

theorem CreateVoiceStateIn_member_found (s : Client) (json : VoiceStateJson) (G : CGuild)
    (pm : Nat) (hm : Map.find G.Members json.user_id = some pm) :
    CreateVoiceStateIn s json G =
      match Map.find G.Channels json.channel_id with
      | none =>
        (s, G.setMember pm (fun m => { m with State := none }),
          { GuildRef := some G.ID, UserRef := Map.find s.m_Users json.user_id,
            ChannelRef := none })
      | some ch =>
        (s, G.setMember pm (fun m => { m with State := some (json.fill
            { GuildRef := some G.ID, UserRef := Map.find s.m_Users json.user_id,
              ChannelRef := some ch }) }),
          json.fill { GuildRef := some G.ID, UserRef := Map.find s.m_Users json.user_id,
                      ChannelRef := some ch }) := by
  unfold CreateVoiceStateIn
  simp only [hm]
  cases Map.find G.Channels json.channel_id <;> rfl

theorem setMember_get_self (g : CGuild) (p : Nat) (f : CGuildMember → CGuildMember)
    (m : CGuildMember) (h : g.Objs[p]? = some m) :
    (g.setMember p f).Objs[p]? = some (f m) := by
  have hlt : p < g.Objs.length := by
    rcases List.getElem?_eq_some.1 h with ⟨hl, _⟩
    exact hl
  rw [setMember_objs g p f m h]
  simp [List.getElem?_set, hlt]

theorem setMember_get_other (g : CGuild) (p q : Nat) (f : CGuildMember → CGuildMember)
    (hpq : p ≠ q) : (g.setMember p f).Objs[q]? = g.Objs[q]? := by
  unfold CGuild.setMember
  cases hp : g.Objs[p]? with
  | none => rfl
  | some m => simp [List.getElem?_set, hpq]

theorem guildAt_setGuild (s : Client) (id : String) (g g0 : CGuild)
    (h : Map.find s.m_Guilds id = some g0) : (s.setGuild id g).guildAt id = g := by
  unfold Client.guildAt
  rw [setGuild_find s id g g0 h]
  rfl

theorem voiceStateNotify_frame (s : Client) (json : VoiceStateJson) (Tmp : CVoiceState)
    (c : Option CChannel) (up bp : Nat) :
    (voiceStateNotify s json Tmp c up bp).m_Guilds = s.m_Guilds ∧
    (voiceStateNotify s json Tmp c up bp).m_Users = s.m_Users ∧
    (voiceStateNotify s json Tmp c up bp).Users = s.Users ∧
    (voiceStateNotify s json Tmp c up bp).m_BotUser = s.m_BotUser ∧
    (voiceStateNotify s json Tmp c up bp).m_Controller = s.m_Controller ∧
    (voiceStateNotify s json Tmp c up bp).m_VoiceSockets =
      (if (s.user up).ID = (s.user bp).ID ∧ Tmp.ChannelRef = none then
        Map.erase s.m_VoiceSockets (s.guildAt json.guild_id).ID
      else s.m_VoiceSockets) ∧
    (voiceStateNotify s json Tmp c up bp).m_MusicQueues =
      (if (s.user up).ID = (s.user bp).ID ∧ Tmp.ChannelRef = none then
        Map.erase s.m_MusicQueues (s.guildAt json.guild_id).ID
      else s.m_MusicQueues) := by
  unfold voiceStateNotify
  dsimp only
  by_cases hcond : (s.user up).ID = (s.user bp).ID ∧ Tmp.ChannelRef = none
  · simp only [if_pos hcond]
    split
    · exact ⟨rfl, rfl, rfl, rfl, rfl, rfl, rfl⟩
    · split
      · exact ⟨rfl, rfl, rfl, rfl, rfl, rfl, rfl⟩
      · split <;> exact ⟨rfl, rfl, rfl, rfl, rfl, rfl, rfl⟩
  · simp only [if_neg hcond]
    split
    · exact ⟨rfl, rfl, rfl, rfl, rfl, rfl, rfl⟩
    · split
      · exact ⟨rfl, rfl, rfl, rfl, rfl, rfl, rfl⟩
      · split <;> exact ⟨rfl, rfl, rfl, rfl, rfl, rfl, rfl⟩

/-- C11 (counterexample): without a controller, G1 is cached, the bot member of G1 holds
a voice state in C2, G1 has a voice connection and a playback queue, and after a
VOICE_STATE_UPDATE for the bot user in G1 without a channel both entries are still
there. -/
theorem bot_leaves_without_controller_keeps_tables :
    Map.keys (voiceClient false).m_Guilds = ["G1"] ∧
    ((voiceClient false).guildAt "G1").Objs.map
        (fun m => m.State.map (fun v => v.ChannelRef.map CChannel.ID)) = [some (some "C2")] ∧
    Map.keys (voiceClient false).m_VoiceSockets = ["G1"] ∧
    Map.keys (voiceClient false).m_MusicQueues = ["G1"] ∧
    ∃ s1, OnVoiceStateUpdate (voiceClient false)
        { guild_id := "G1", user_id := "B", channel_id := "" } = Outcome.done s1 ∧
      Map.keys s1.m_VoiceSockets = ["G1"] ∧ Map.keys s1.m_MusicQueues = ["G1"] :=
  ⟨by decide, by decide, by decide, by decide, _, rfl, by decide, by decide⟩

/-- C11 (amended): with a controller attached, a guild G cached under the guild id of
the event, the member of the event cached in G, the user of the event cached and equal
(by id) to the bot user, and a channel id that names no channel of G: the
VOICE_STATE_UPDATE is handled to its end, afterwards G has no entry in the
voice-connection table and none in the playback-queue table, and the voice state of the
member is cleared. -/
theorem bot_leaves_voice_tears_down (s : Client) (json : VoiceStateJson) (G : CGuild)
    (pm up bp : Nat) (m : CGuildMember)
    (hc : s.m_Controller = true)
    (hg : Map.find s.m_Guilds json.guild_id = some G)
    (hm : Map.find G.Members json.user_id = some pm)
    (hobj : G.Objs[pm]? = some m)
    (hu : Map.find s.m_Users json.user_id = some up)
    (hb : s.m_BotUser = some bp)
    (hbot : (s.user up).ID = (s.user bp).ID)
    (hch : Map.find G.Channels json.channel_id = none) :
    ∃ s1, OnVoiceStateUpdate s json = Outcome.done s1 ∧
      Map.find s1.m_VoiceSockets G.ID = none ∧
      Map.find s1.m_MusicQueues G.ID = none ∧
      ∃ (G1 : CGuild) (m1 : CGuildMember),
        Map.find s1.m_Guilds json.guild_id = some G1 ∧
        Map.find G1.Members json.user_id = some pm ∧
        G1.Objs[pm]? = some m1 ∧ m1.State = none := by
  have hcv : CreateVoiceState s json =
      (s.setGuild json.guild_id (G.setMember pm (fun m => { m with State := none })),
        { GuildRef := some G.ID, UserRef := some up, ChannelRef := none }) := by
    unfold CreateVoiceState
    rw [hg]
    simp only [CreateVoiceStateIn_member_found s json G pm hm, hch, hu]
  have hga := guildAt_setGuild s json.guild_id
    (G.setMember pm (fun m => { m with State := none })) G hg
  have hfld := setMember_fields G pm (fun m => { m with State := none })
  have hgf := setGuild_find s json.guild_id
    (G.setMember pm (fun m => { m with State := none })) G hg
  have hev : OnVoiceStateUpdate s json = Outcome.done (voiceStateNotify
      (s.setGuild json.guild_id (G.setMember pm (fun m => { m with State := none }))) json
      { GuildRef := some G.ID, UserRef := some up, ChannelRef := none }
      (G.channelOf pm) up bp) := by
    unfold OnVoiceStateUpdate
    simp only [hg, hm, hcv]
    have h1 : (s.setGuild json.guild_id
        (G.setMember pm (fun m => { m with State := none }))).m_Controller = true := hc
    have h2 : (s.setGuild json.guild_id
        (G.setMember pm (fun m => { m with State := none }))).m_BotUser = some bp := hb
    simp [h1, h2]
  obtain ⟨f1, _, _, _, _, f6, f7⟩ := voiceStateNotify_frame
    (s.setGuild json.guild_id (G.setMember pm (fun m => { m with State := none }))) json
    { GuildRef := some G.ID, UserRef := some up, ChannelRef := none } (G.channelOf pm) up bp
  have hcond : ((s.setGuild json.guild_id
      (G.setMember pm (fun m => { m with State := none }))).user up).ID =
      ((s.setGuild json.guild_id
      (G.setMember pm (fun m => { m with State := none }))).user bp).ID ∧
      ({ GuildRef := some G.ID, UserRef := some up, ChannelRef := none } : CVoiceState).ChannelRef
        = none := ⟨hbot, rfl⟩
  rw [if_pos hcond, hga, hfld.2.2] at f6 f7
  refine ⟨_, hev, ?_, ?_, G.setMember pm (fun m => { m with State := none }),
    { m with State := none }, ?_, ?_, ?_, rfl⟩
  · rw [f6, map_find_erase, if_pos rfl]
  · rw [f7, map_find_erase, if_pos rfl]
  · rw [f1]; exact hgf
  · rw [hfld.2.1]; exact hm
  · exact setMember_get_self G pm _ m hobj

/-- C11 (witness): the amended statement at the voice scenario with a controller
attached. -/
theorem bot_leaves_voice_tears_down_witness :
    ∃ s1, OnVoiceStateUpdate (voiceClient true)
        { guild_id := "G1", user_id := "B", channel_id := "" } = Outcome.done s1 ∧
      Map.find s1.m_VoiceSockets "G1" = none ∧ Map.find s1.m_MusicQueues "G1" = none := by
  obtain ⟨s1, h1, h2, h3, _⟩ := bot_leaves_voice_tears_down (voiceClient true)
    { guild_id := "G1", user_id := "B", channel_id := "" }
    ((voiceClient true).guildAt "G1") 0 0 0
    ((((voiceClient true).guildAt "G1").Objs.head?).getD {})
    (by decide) (by decide) (by decide) (by decide) (by decide) (by decide) (by decide)
    (by decide)
  exact ⟨s1, h1, h2, h3⟩

/-! ## AddToQueue and StartSpeaking -/

theorem map_find_assign {α : Type} (m : Map α) (k : String) (v : α) (k' : String) :
    Map.find (Map.assign m k v) k' =
      if k' = k then (Map.find m k').map (fun _ => v) else Map.find m k' := by
  induction m with
  | nil => simp [Map.assign, Map.find]
  | cons e m ih =>
    obtain ⟨k1, v1⟩ := e
    have ih2 : Map.find (List.map (fun p => if p.1 = k then (p.1, v) else p) m) k' =
        if k' = k then (Map.find m k').map (fun _ => v) else Map.find m k' := ih
    unfold Map.assign
    rw [List.map_cons]
    by_cases h1 : k1 = k
    · rw [if_pos (show (k1, v1).1 = k from h1)]
      by_cases h2 : k1 = k'
      · have h3 : k' = k := by rw [← h2, h1]
        simp [Map.find, h2, h3]
      · simp only [Map.find, h2, if_false]
        exact ih2
    · rw [if_neg (show ¬ (k1, v1).1 = k from h1)]
      by_cases h2 : k1 = k'
      · have h3 : ¬ k' = k := by rw [← h2]; exact h1
        simp [Map.find, h2, h3]
      · simp only [Map.find, h2, if_false]
        exact ih2

theorem map_find_assign_ne_none {α : Type} (m : Map α) (k : String) (v : α) (k' : String)
    (h : Map.find (Map.assign m k v) k' ≠ none) : Map.find m k' ≠ none := by
  rw [map_find_assign] at h
  intro hn
  rw [hn] at h
  simp at h

theorem map_find_insert_ne_none {α : Type} (m : Map α) (k : String) (v : α) (k' : String)
    (h : Map.find (Map.insert m k v) k' ≠ none) : k' = k ∨ Map.find m k' ≠ none := by
  rw [map_find_insert] at h
  cases hf : Map.find m k' with
  | some x => right; simp
  | none =>
    rw [hf] at h
    by_cases hk : k = k'
    · left; exact hk.symm
    · simp [hk] at h

theorem botVoiceState_congr (s s1 : Client) (hg : s1.m_Guilds = s.m_Guilds)
    (hU : s1.Users = s.Users) (hb : s1.m_BotUser = s.m_BotUser) (g : String) :
    botVoiceState s1 g = botVoiceState s g := by
  unfold botVoiceState Client.user
  rw [hg, hU, hb]

theorem setMember_length (g : CGuild) (p : Nat) (f : CGuildMember → CGuildMember) :
    (g.setMember p f).Objs.length = g.Objs.length := by
  unfold CGuild.setMember
  cases g.Objs[p]? with
  | none => rfl
  | some m => simp

theorem guildWF_setMember (g : CGuild) (p : Nat) (f : CGuildMember → CGuildMember)
    (h : GuildWF g) : GuildWF (g.setMember p f) := by
  unfold GuildWF
  rw [(setMember_fields g p f).2.1, setMember_length]
  exact h

theorem botVoiceState_isSome (s : Client) (g : String)
    (h : (botVoiceState s g).isSome = true) :
    ∃ (G : CGuild) (bp pm : Nat) (m : CGuildMember) (st : CVoiceState),
      Map.find s.m_Guilds g = some G ∧ s.m_BotUser = some bp ∧
      Map.find G.Members (s.user bp).ID = some pm ∧ G.Objs[pm]? = some m ∧
      m.State = some st := by
  unfold botVoiceState at h
  cases hG : Map.find s.m_Guilds g with
  | none => rw [hG] at h; simp at h
  | some G =>
    cases hb : s.m_BotUser with
    | none => rw [hG, hb] at h; simp at h
    | some bp =>
      cases hm : Map.find G.Members (s.user bp).ID with
      | none => rw [hG, hb] at h; simp [hm] at h
      | some pm =>
        cases ho : G.Objs[pm]? with
        | none => rw [hG, hb] at h; simp [hm, ho] at h
        | some m =>
          cases hst : m.State with
          | none => rw [hG, hb] at h; simp [hm, ho, hst] at h
          | some st => exact ⟨G, bp, pm, m, st, rfl, rfl, hm, ho, hst⟩

theorem botVoiceState_of (s : Client) (g : String) (G : CGuild) (bp pm : Nat)
    (m : CGuildMember) (st : CVoiceState)
    (hG : Map.find s.m_Guilds g = some G) (hb : s.m_BotUser = some bp)
    (hm : Map.find G.Members (s.user bp).ID = some pm) (ho : G.Objs[pm]? = some m)
    (hst : m.State = some st) : (botVoiceState s g).isSome = true := by
  unfold botVoiceState
  rw [hG, hb]
  simp [hm, ho, hst]

theorem vsu_CreateVoiceState (s : Client) (json : VoiceStateJson) (G : CGuild) (pm : Nat)
    (hg : Map.find s.m_Guilds json.guild_id = some G)
    (hm : Map.find G.Members json.user_id = some pm) :
    ∃ (st : Option CVoiceState) (Tmp : CVoiceState),
      CreateVoiceState s json =
        (s.setGuild json.guild_id (G.setMember pm (fun m => { m with State := st })), Tmp) ∧
      Tmp.GuildRef = some G.ID ∧ Tmp.UserRef = Map.find s.m_Users json.user_id ∧
      (st = none → Tmp.ChannelRef = none) := by
  unfold CreateVoiceState
  rw [hg]
  dsimp only
  rw [CreateVoiceStateIn_member_found s json G pm hm]
  cases hch : Map.find G.Channels json.channel_id with
  | none => exact ⟨none, _, rfl, rfl, rfl, fun _ => rfl⟩
  | some ch =>
    exact ⟨some _, _, rfl, rfl, rfl, fun h => by cases h⟩

/-! ## The guild built by GUILD_CREATE is well formed -/

theorem usersExt_refl (s : Client) : UsersExt s s :=
  ⟨fun _ _ h => h, fun _ _ h => h⟩

theorem usersExt_trans {s s1 s2 : Client} (h1 : UsersExt s s1) (h2 : UsersExt s1 s2) :
    UsersExt s s2 :=
  ⟨fun k up h => h2.1 k up (h1.1 k up h), fun up u h => h2.2 up u (h1.2 up u h)⟩

theorem usersExt_emit (s : Client) (e : Effect) : UsersExt s (s.emit e) :=
  ⟨fun _ _ h => h, fun _ _ h => h⟩

theorem usersExt_resolveUser (s : Client) (json : UserJson) :
    UsersExt s (resolveUser s json).1 := by
  unfold resolveUser
  cases hf : Map.find s.m_Users json.id with
  | some up => exact usersExt_refl s
  | none =>
    refine ⟨?_, ?_⟩
    · intro k up hk
      exact map_find_insert_of_some _ _ _ _ _ hk
    · intro up u hu
      have hlt : up < s.Users.length := by
        rcases List.getElem?_eq_some.1 hu with ⟨hl, _⟩
        exact hl
      show (s.Users ++ [({ ID := json.id, Username := json.username } : CUser)])[up]? = some u
      rw [List.getElem?_append_left hlt]
      exact hu

theorem usersExt_CreateMember (s : Client) (json : MemberJson) (guild : CGuild) :
    UsersExt s (CreateMember s json guild).1 := by
  unfold CreateMember
  cases json.user with
  | none => exact usersExt_refl s
  | some u => exact usersExt_resolveUser s u

theorem guildWF_push (g : CGuild) (Ret : CGuildMember) (k0 : String) (h : GuildWF g) :
    GuildWF { g with Objs := g.Objs ++ [Ret] } ∧
    GuildWF { g with Objs := g.Objs ++ [Ret],
                     Members := Map.insert g.Members k0 g.Objs.length } := by
  obtain ⟨hr, hi⟩ := h
  refine ⟨⟨?_, hi⟩, ⟨?_, ?_⟩⟩
  · intro k p hk
    have := hr k p hk
    show p < (g.Objs ++ [Ret]).length
    simp; omega
  · intro k p hk
    show p < (g.Objs ++ [Ret]).length
    have hk2 : Map.find (Map.insert g.Members k0 g.Objs.length) k = some p := hk
    rw [map_find_insert] at hk2
    cases hold : Map.find g.Members k with
    | some q =>
      rw [hold] at hk2
      have hq : q = p := by simpa using hk2
      have := hr k q hold
      simp; omega
    | none =>
      rw [hold] at hk2
      by_cases hkk : k0 = k
      · simp only [hkk, if_true] at hk2
        have hq : g.Objs.length = p := by simpa using hk2
        simp; omega
      · simp [hkk] at hk2
  · intro k1 k2 p hk1 hk2
    have e1 : Map.find (Map.insert g.Members k0 g.Objs.length) k1 = some p := hk1
    have e2 : Map.find (Map.insert g.Members k0 g.Objs.length) k2 = some p := hk2
    rw [map_find_insert] at e1 e2
    cases o1 : Map.find g.Members k1 with
    | some q1 =>
      rw [o1] at e1
      have hq1 : q1 = p := by simpa using e1
      subst hq1
      cases o2 : Map.find g.Members k2 with
      | some q2 =>
        rw [o2] at e2
        have hq2 : q2 = q1 := by simpa using e2
        subst hq2
        exact hi k1 k2 q2 o1 o2
      | none =>
        rw [o2] at e2
        have := hr k1 q1 o1
        by_cases hkk : k0 = k2
        · simp only [hkk, if_true] at e2
          have hq : g.Objs.length = q1 := by simpa using e2
          omega
        · simp [hkk] at e2
    | none =>
      rw [o1] at e1
      by_cases hkk : k0 = k1
      · simp only [hkk, if_true] at e1
        have hq : g.Objs.length = p := by simpa using e1
        cases o2 : Map.find g.Members k2 with
        | some q2 =>
          rw [o2] at e2
          have hq2 : q2 = p := by simpa using e2
          have := hr k2 q2 o2
          omega
        | none =>
          rw [o2] at e2
          by_cases hkk2 : k0 = k2
          · rw [← hkk, ← hkk2]
          · simp [hkk2] at e2
      · simp [hkk] at e1

theorem guildWF_CreateMember (s : Client) (json : MemberJson) (guild : CGuild)
    (h : GuildWF guild) : GuildWF (CreateMember s json guild).2.1 := by
  unfold CreateMember
  cases json.user with
  | none => exact (guildWF_push guild _ "" h).1
  | some u => exact (guildWF_push guild _ _ h).2

theorem usersExt_GetMember (s : Client) (guild : CGuild) (UserID : String)
    (rest : Option MemberJson) : UsersExt s (GetMember s guild UserID rest).1 := by
  unfold GetMember
  cases Map.find guild.Members UserID with
  | some p => exact usersExt_refl s
  | none =>
    cases rest with
    | none => exact usersExt_emit s _
    | some j => exact usersExt_trans (usersExt_emit s _) (usersExt_CreateMember _ j guild)

theorem usersWF_emit (s : Client) (e : Effect) (h : UsersWF s) : UsersWF (s.emit e) := h

theorem usersWF_GetMember (s : Client) (guild : CGuild) (UserID : String)
    (rest : Option MemberJson) (h : UsersWF s) : UsersWF (GetMember s guild UserID rest).1 := by
  unfold GetMember
  cases Map.find guild.Members UserID with
  | some p => exact h
  | none =>
    cases rest with
    | none => exact h
    | some j => exact usersWF_CreateMember _ j guild (usersWF_emit s _ h)

theorem guildWF_GetMember (s : Client) (guild : CGuild) (UserID : String)
    (rest : Option MemberJson) (h : GuildWF guild) :
    GuildWF (GetMember s guild UserID rest).2.1 := by
  unfold GetMember
  cases Map.find guild.Members UserID with
  | some p => exact h
  | none =>
    cases rest with
    | none => exact h
    | some j => exact guildWF_CreateMember _ j guild h

theorem wf_CreateVoiceStateIn (s : Client) (json : VoiceStateJson) (guild : CGuild) :
    UsersExt s (CreateVoiceStateIn s json guild).1 ∧
    (UsersWF s → UsersWF (CreateVoiceStateIn s json guild).1) ∧
    (GuildWF guild → GuildWF (CreateVoiceStateIn s json guild).2.1) := by
  unfold CreateVoiceStateIn
  cases Map.find guild.Members json.user_id with
  | some p =>
    cases Map.find guild.Channels json.channel_id <;>
      exact ⟨usersExt_refl s, fun h => h, fun h => guildWF_setMember _ _ _ h⟩
  | none =>
    cases json.member with
    | none => exact ⟨usersExt_refl s, fun h => h, fun h => h⟩
    | some j =>
      cases Map.find guild.Channels json.channel_id <;>
        exact ⟨usersExt_CreateMember s j guild, usersWF_CreateMember s j guild,
          fun h => guildWF_setMember _ _ _ (guildWF_CreateMember s j guild h)⟩

theorem wf_addMembers (l : List MemberJson) (a : Client × CGuild) :
    UsersExt a.1 (addMembers l a).1 ∧ (UsersWF a.1 → UsersWF (addMembers l a).1) ∧
    (GuildWF a.2 → GuildWF (addMembers l a).2) := by
  unfold addMembers
  induction l generalizing a with
  | nil => exact ⟨usersExt_refl _, fun h => h, fun h => h⟩
  | cons e l ih =>
    simp only [List.foldl_cons]
    have h := ih ((CreateMember a.1 e a.2).1, (CreateMember a.1 e a.2).2.1)
    exact ⟨usersExt_trans (usersExt_CreateMember _ _ _) h.1,
      fun hw => h.2.1 (usersWF_CreateMember _ _ _ hw),
      fun hw => h.2.2 (guildWF_CreateMember _ _ _ hw)⟩

theorem wf_addVoiceStates (l : List VoiceStateJson) (a : Client × CGuild) :
    UsersExt a.1 (addVoiceStates l a).1 ∧ (UsersWF a.1 → UsersWF (addVoiceStates l a).1) ∧
    (GuildWF a.2 → GuildWF (addVoiceStates l a).2) := by
  unfold addVoiceStates
  induction l generalizing a with
  | nil => exact ⟨usersExt_refl _, fun h => h, fun h => h⟩
  | cons e l ih =>
    simp only [List.foldl_cons]
    have h := ih ((CreateVoiceStateIn a.1 e a.2).1, (CreateVoiceStateIn a.1 e a.2).2.1)
    have h0 := wf_CreateVoiceStateIn a.1 e a.2
    exact ⟨usersExt_trans h0.1 h.1, fun hw => h.2.1 (h0.2.1 hw),
      fun hw => h.2.2 (h0.2.2 hw)⟩

theorem guildWF_addRoles (l : List RoleJson) (g : CGuild) (h : GuildWF g) :
    GuildWF (addRoles l g) := by
  unfold addRoles
  induction l generalizing g with
  | nil => exact h
  | cons e l ih =>
    simp only [List.foldl_cons]
    exact ih _ h

theorem guildWF_addChannels (l : List ChannelJson) (g : CGuild) (h : GuildWF g) :
    GuildWF (addChannels l g) := by
  unfold addChannels
  induction l generalizing g with
  | nil => exact h
  | cons e l ih =>
    simp only [List.foldl_cons]
    exact ih _ h

theorem wf_buildGuild (s : Client) (json : GuildJson) (owner : Option MemberJson) :
    UsersExt s (buildGuild s json owner).1 ∧ (UsersWF s → UsersWF (buildGuild s json owner).1) ∧
    GuildWF (buildGuild s json owner).2 := by
  rw [buildGuild_eq]
  have g0 : GuildWF ({ ID := json.id, Name := json.name, Icon := json.icon } : CGuild) :=
    ⟨fun k p hk => by simp [Map.find] at hk, fun k1 k2 p hk => by simp [Map.find] at hk⟩
  have g2 := guildWF_addChannels json.channels _ (guildWF_addRoles json.roles _ g0)
  have a3 := wf_addMembers json.members
    (s, addChannels json.channels (addRoles json.roles
      { ID := json.id, Name := json.name, Icon := json.icon }))
  have a4 := wf_addVoiceStates json.voice_states (addMembers json.members
    (s, addChannels json.channels (addRoles json.roles
      { ID := json.id, Name := json.name, Icon := json.icon })))
  refine ⟨usersExt_trans (usersExt_trans a3.1 a4.1) (usersExt_GetMember _ _ _ _),
    fun hw => usersWF_GetMember _ _ _ _ (a4.2.1 (a3.2.1 hw)), ?_⟩
  exact guildWF_GetMember _ _ _ _ (a4.2.2 (a3.2.2 g2))

theorem frameEq_botUser {s s1 : Client} (h : FrameEq s s1) : s1.m_BotUser = s.m_BotUser := by
  unfold FrameEq at h
  have h1 := congrArg Client.m_BotUser h
  exact h1

theorem frameEq_voiceSockets {s s1 : Client} (h : FrameEq s s1) :
    s1.m_VoiceSockets = s.m_VoiceSockets := by
  unfold FrameEq at h
  have h1 := congrArg Client.m_VoiceSockets h
  exact h1

theorem usersExt_user (s r : Client) (p : Nat) (u : CUser) (h : UsersExt s r)
    (hu : s.Users[p]? = some u) : r.user p = s.user p := by
  unfold Client.user
  rw [List.getD_eq_getElem?_getD, List.getD_eq_getElem?_getD, hu, h.2 p u hu]

/-! ## The routing hash -/

/-- C21: the switch of the DISPATCH branch has seventeen event names as case labels, and
the routing hash takes pairwise distinct values on them. -/
theorem dispatch_event_hashes_are_distinct :
    dispatchEventNames.length = 17 ∧ (dispatchEventNames.map Adler32).Nodup := by
  decide

/-- C30 (counterexample): the string `plmine` is none of the five state names, it has
the hash of `online`, and `StrToOnlineState` maps it to ONLINE. -/
theorem colliding_string_is_online :
    "plmine" ∉ ["online", "dnd", "idle", "invisible", "offline"] ∧
    Adler32 "plmine" = Adler32 "online" ∧
    StrToOnlineState "plmine" = OnlineState.ONLINE := by
  decide

/-- C30 (amended): each of the five state names is mapped to its state; for every string
`s`, `StrToOnlineState s` is a state other than OFFLINE only when the hash of `s` is the
hash of one of `online`, `dnd`, `idle` or `invisible`, and then it is the state of that
name; and every string whose hash is that of none of the four names is mapped to
OFFLINE. -/
theorem online_state_follows_hash (s : String) :
    (∀ st : OnlineState, StrToOnlineState (OnlineStateToStr st) = st) ∧
    (StrToOnlineState s ≠ OnlineState.OFFLINE →
      ∃ st : OnlineState, st ≠ OnlineState.OFFLINE ∧
        Adler32 s = Adler32 (OnlineStateToStr st) ∧ StrToOnlineState s = st) ∧
    ((∀ st : OnlineState, st ≠ OnlineState.OFFLINE →
        Adler32 s ≠ Adler32 (OnlineStateToStr st)) →
      StrToOnlineState s = OnlineState.OFFLINE) := by
  refine ⟨by intro st; cases st <;> decide, ?_, ?_⟩
  · intro h
    unfold StrToOnlineState at h ⊢
    by_cases h1 : Adler32 s = Adler32 "online"
    · exact ⟨OnlineState.ONLINE, by decide, h1, by rw [if_pos h1]⟩
    · by_cases h2 : Adler32 s = Adler32 "dnd"
      · exact ⟨OnlineState.DND, by decide, h2, by rw [if_neg h1, if_pos h2]⟩
      · by_cases h3 : Adler32 s = Adler32 "idle"
        · exact ⟨OnlineState.IDLE, by decide, h3,
            by rw [if_neg h1, if_neg h2, if_pos h3]⟩
        · by_cases h4 : Adler32 s = Adler32 "invisible"
          · exact ⟨OnlineState.INVISIBLE, by decide, h4,
              by rw [if_neg h1, if_neg h2, if_neg h3, if_pos h4]⟩
          · exfalso
            apply h
            simp only [h1, h2, h3, h4, if_false, ite_self]
  · intro h
    have h1 := h OnlineState.ONLINE (by decide)
    have h2 := h OnlineState.DND (by decide)
    have h3 := h OnlineState.IDLE (by decide)
    have h4 := h OnlineState.INVISIBLE (by decide)
    unfold OnlineStateToStr at h1 h2 h3 h4
    unfold StrToOnlineState
    simp only [h1, h2, h3, h4, if_false, ite_self]

/-- C30 (witness): the amended statement at the string `plmine`, which is mapped to
ONLINE and has the hash of `online`. -/
theorem online_state_follows_hash_witness :
    StrToOnlineState "plmine" ≠ OnlineState.OFFLINE ∧
    ∃ st : OnlineState, st ≠ OnlineState.OFFLINE ∧
      Adler32 "plmine" = Adler32 (OnlineStateToStr st) ∧ StrToOnlineState "plmine" = st :=
  ⟨by decide, (online_state_follows_hash "plmine").2.1 (by decide)⟩

/-! ## Message events -/

/-- C23 (failing input): on the scenario client (controller attached, G1 cached), a
MESSAGE_CREATE without a guild id, for the channel D1 and written by U1: `CreateMessage`
returns a message without a guild reference whose channel is the synthesized channel
D1 of the type DM, and the handler then faults on `msg->GuildRef->ID`, before any
notification; the same holds for a guild id that is not cached. -/
theorem direct_message_faults :
    (∃ r, CreateMessage (scenarioClient true)
        { id := "M1", channel_id := "D1", author := some { id := "U1", username := "user" },
          content := "hi" } none = some r ∧
      r.2.GuildRef = none ∧
      r.2.ChannelRef = some { ID := "D1", Type_ := ChannelTypes.DM }) ∧
    OnDispatch (scenarioClient true) 5 (DispatchEvent.MESSAGE_CREATE
        { id := "M1", channel_id := "D1", author := some { id := "U1", username := "user" },
          content := "hi" } none) = Outcome.fault ∧
    Map.find (scenarioClient true).m_Guilds "G9" = none ∧
    OnDispatch (scenarioClient true) 5 (DispatchEvent.MESSAGE_CREATE
        { id := "M1", channel_id := "D1", guild_id := "G9",
          author := some { id := "U1", username := "user" }, content := "hi" } none) =
      Outcome.fault :=
  ⟨⟨_, rfl, by decide, by decide⟩, by decide, by decide, by decide⟩

/-- C27 (failing input): G1 is cached with the members U1 (member object 0) and U2
(member object 1); a MESSAGE_CREATE in the channel C1 of G1, written by U1, that
mentions U2 is handled to its end, and the mention list of the message handed to the
controller has one entry, which is the member object 0 of U1, the author, and not the
member object of U2. -/
theorem mention_resolves_to_author :
    Map.find (pairClient.guildAt "G1").Members "U1" = some 0 ∧
    Map.find (pairClient.guildAt "G1").Members "U2" = some 1 ∧
    ∃ s1 msg, OnDispatch pairClient 5 (DispatchEvent.MESSAGE_CREATE
        { id := "M1", channel_id := "C1", guild_id := "G1",
          author := some { id := "U1", username := "one" },
          mentions := [{ id := "U2", username := "two" }] } none) = Outcome.done s1 ∧
      s1.trace = pairClient.trace ++ [Effect.notify (Notification.OnMessage msg)] ∧
      msg.GuildRef = some "G1" ∧
      msg.Mentions = [MemberRef.cached 0] :=
  ⟨by decide, by decide, _, _, rfl, rfl, by decide, by decide⟩

/-! ## VOICE_SERVER_UPDATE and the end of a source -/

/-- C24 (failing input): two runs in which the guild G1 is cached, the bot's own member
is cached in G1 and a queue factory is set.  With a controller, after READY for the bot
user B and GUILD_CREATE of a guild G1 in which B is a member without a voice state, the
VOICE_SERVER_UPDATE for G1 faults: the null `State` of the bot member is dereferenced.
And in the voice scenario, where G1 has a voice connection built with the session id VS,
after a VOICE_STATE_UPDATE that gives the bot member the session id VS2 a second
VOICE_SERVER_UPDATE for G1 is handled to its end, but the connection in the table is
still the one built with VS. -/
theorem voice_server_update_faults_without_voice_state :
    (∃ s, runDispatch
        { Client.create "token" 0 with m_Controller := true, m_QueueFactory := true }
        [(1, DispatchEvent.READY { session_id := "S", user := { id := "B", username := "bot" } }),
         (2, DispatchEvent.GUILD_CREATE quietGuild none)] = Outcome.done s ∧
      Map.keys s.m_Guilds = ["G1"] ∧ Map.find (s.guildAt "G1").Members "B" = some 0 ∧
      s.m_QueueFactory = true ∧ botVoiceState s "G1" = none ∧
      OnDispatch s 3 (DispatchEvent.VOICE_SERVER_UPDATE { guild_id := "G1" }) =
        Outcome.fault) ∧
    (Map.keys (voiceClient true).m_Guilds = ["G1"] ∧
      Map.find ((voiceClient true).guildAt "G1").Members "B" = some 0 ∧
      (voiceClient true).m_QueueFactory = true ∧
      Map.find (voiceClient true).m_VoiceSockets "G1" =
        some { SessionID := "VS", ClientID := "B" } ∧
      ∃ s, runDispatch (voiceClient true)
        [(4, DispatchEvent.VOICE_STATE_UPDATE
               { guild_id := "G1", user_id := "B", channel_id := "C2", session_id := "VS2" }),
         (5, DispatchEvent.VOICE_SERVER_UPDATE { guild_id := "G1" })] = Outcome.done s ∧
      botVoiceState s "G1" = some
        { GuildRef := some "G1", UserRef := some 0,
          ChannelRef := some { ID := "C2", GuildID := "G1", Type_ := ChannelTypes.GUILD_VOICE },
          SessionID := "VS2" } ∧
      Map.find s.m_VoiceSockets "G1" = some { SessionID := "VS", ClientID := "B" }) :=
  ⟨⟨_, rfl, by decide, by decide, by decide, by decide, by decide⟩,
    by decide, by decide, by decide, by decide, ⟨_, rfl, by decide, by decide⟩⟩

/-- C25 (counterexample): on the scenario client without a controller, the
speaking-finished signal for the cached guild G1 changes nothing: no message is posted
on the event bus. -/
theorem speak_finish_without_controller_posts_nothing :
    Map.keys (scenarioClient false).m_Guilds = ["G1"] ∧
    OnSpeakFinish (scenarioClient false) "G1" = scenarioClient false ∧
    (scenarioClient false).trace = [] := by
  decide

/-- C25 (amended): with a controller attached, for every guild id `g` the
speaking-finished signal for `g` changes nothing but the trace, to which it adds one
QUEUE_NEXT_SONG message with the value `g` and, when `g` is cached, the notification
that playback ended for that guild: no item leaves a playback queue and no source is
started. -/
theorem speak_finish_posts_queue_advance (s : Client) (g : String)
    (hc : s.m_Controller = true) :
    OnSpeakFinish s g =
      { s with trace := s.trace ++
          Effect.post BusEvent.QUEUE_NEXT_SONG (BusValue.str g) 0 ::
            (match Map.find s.m_Guilds g with
             | some G => [Effect.notify (Notification.OnEndSpeaking G.ID)]
             | none => []) } := by
  unfold OnSpeakFinish
  rw [if_pos hc]
  cases hf : Map.find s.m_Guilds g with
  | none => simp [Client.emit, hf]
  | some G => simp [Client.emit, hf]

/-- C25 (witness): the speaking-finished signal for the cached guild G1 on the scenario
client with a controller attached. -/
theorem speak_finish_posts_queue_advance_witness :
    (OnSpeakFinish (scenarioClient true) "G1").trace =
      (scenarioClient true).trace ++
        [Effect.post BusEvent.QUEUE_NEXT_SONG (BusValue.str "G1") 0,
         Effect.notify (Notification.OnEndSpeaking "G1")] ∧
    (OnSpeakFinish (scenarioClient true) "G1").m_MusicQueues =
      (scenarioClient true).m_MusicQueues := by
  have h := speak_finish_posts_queue_advance (scenarioClient true) "G1" (by decide)
  rw [h]
  exact ⟨by decide, rfl⟩

/-! ## The role lists of the command configuration -/

theorem map_find_put {α : Type} (m : Map α) (k : String) (v : α) (k' : String) :
    Map.find (Map.put m k v) k' = if k' = k then some v else Map.find m k' := by
  unfold Map.put
  cases hf : Map.find m k with
  | some w =>
    simp only []
    rw [map_find_assign]
    by_cases hk : k' = k
    · rw [if_pos hk, if_pos hk, hk, hf]; rfl
    · rw [if_neg hk, if_neg hk]
  | none =>
    simp only []
    rw [map_find_append]
    by_cases hk : k' = k
    · rw [if_pos hk, hk, hf]; simp [Map.find]
    · rw [if_neg hk]
      have hk2 : ¬ k = k' := fun h => hk h.symm
      cases Map.find m k' <;> simp [Map.find, hk2]

theorem map_assign_of_not_found {α : Type} (m : Map α) (k : String) (v : α)
    (h : Map.find m k = none) : Map.assign m k v = m := by
  induction m with
  | nil => rfl
  | cons e m ih =>
    obtain ⟨k1, v1⟩ := e
    by_cases hk : k1 = k
    · simp [Map.find, hk] at h
    · simp only [Map.find, hk, if_false] at h
      have ih2 : List.map (fun p => if p.1 = k then (p.1, v) else p) m = m := ih h
      unfold Map.assign
      rw [List.map_cons, if_neg (show ¬ (k1, v1).1 = k from hk), ih2]

theorem map_put_put {α : Type} (m : Map α) (k : String) (v : α) :
    Map.put (Map.put m k v) k v = Map.put m k v := by
  have h1 : Map.find (Map.put m k v) k = some v := by rw [map_find_put, if_pos rfl]
  have h2 : ∀ n : Map α, Map.find n k = some v → Map.put n k v = Map.assign n k v := by
    intro n hn
    unfold Map.put
    rw [hn]
  rw [h2 _ h1]
  unfold Map.put
  cases hf : Map.find m k with
  | some w => exact map_assign_assign m k v
  | none =>
    simp only []
    unfold Map.assign
    rw [List.map_append]
    have h3 : List.map (fun p => if p.1 = k then (p.1, v) else p) m = m :=
      map_assign_of_not_found m k v hf
    rw [h3]
    simp

theorem pushRoles_cons (L : List String) (e : String) (R : List String) :
    pushRoles L (e :: R) = pushRoles (if e ∈ L then L else L ++ [e]) R := by
  unfold pushRoles
  rfl

theorem mem_firstOccurrences (R : List String) (x : String) :
    x ∈ firstOccurrences R ↔ x ∈ R := by
  induction R with
  | nil => simp [firstOccurrences]
  | cons e l ih =>
    simp only [firstOccurrences, List.mem_cons, List.mem_filter, ih, decide_eq_true_eq]
    constructor
    · rintro (h | ⟨h, _⟩)
      · exact Or.inl h
      · exact Or.inr h
    · intro h
      by_cases hx : x = e
      · exact Or.inl hx
      · rcases h with h | h
        · exact absurd h hx
        · exact Or.inr ⟨h, hx⟩

theorem nodup_firstOccurrences (R : List String) : (firstOccurrences R).Nodup := by
  induction R with
  | nil => simp [firstOccurrences]
  | cons e l ih =>
    simp only [firstOccurrences, List.nodup_cons, List.mem_filter, decide_eq_true_eq]
    exact ⟨fun h => h.2 rfl, ih.filter _⟩

theorem pushRoles_eq (R : List String) (L : List String) :
    pushRoles L R = rolesAfterAdd L R := by
  induction R generalizing L with
  | nil => simp [pushRoles, rolesAfterAdd, firstOccurrences]
  | cons e R ih =>
    rw [pushRoles_cons, ih]
    unfold rolesAfterAdd
    by_cases he : e ∈ L
    · rw [if_pos he]
      simp only [firstOccurrences]
      rw [List.filter_cons_of_neg (by simpa using he), List.filter_filter]
      congr 1
      apply List.filter_congr
      intro x _
      by_cases hx : x ∈ L
      · simp [hx]
      · have hxe : x ≠ e := fun h => hx (h ▸ he)
        simp [hx, hxe]
    · rw [if_neg he]
      simp only [firstOccurrences]
      rw [List.filter_cons_of_pos (by simpa using he), List.filter_filter, List.append_assoc]
      congr 1
      simp only [List.singleton_append]
      congr 1
      apply List.filter_congr
      intro x _
      by_cases hx : x ∈ L
      · simp [hx]
      · by_cases hxe : x = e
        · simp [hxe]
        · simp [hx, hxe]

theorem mem_pushRoles (R L : List String) (x : String) :
    x ∈ pushRoles L R ↔ x ∈ L ∨ x ∈ R := by
  rw [pushRoles_eq]
  unfold rolesAfterAdd
  simp only [List.mem_append, List.mem_filter, mem_firstOccurrences, decide_eq_true_eq]
  constructor
  · rintro (h | ⟨h, _⟩)
    · exact Or.inl h
    · exact Or.inr h
  · intro h
    by_cases hx : x ∈ L
    · exact Or.inl hx
    · rcases h with h | h
      · exact absurd h hx
      · exact Or.inr ⟨h, hx⟩

theorem pushRoles_of_subset (R L : List String) (h : ∀ e ∈ R, e ∈ L) : pushRoles L R = L := by
  induction R with
  | nil => rfl
  | cons e R ih =>
    rw [pushRoles_cons, if_pos (h e (List.mem_cons_self _ _))]
    exact ih (fun x hx => h x (List.mem_cons_of_mem _ hx))

theorem pushRoles_idem (R L : List String) : pushRoles (pushRoles L R) R = pushRoles L R :=
  pushRoles_of_subset R _ (fun e he => (mem_pushRoles R L e).2 (Or.inr he))

theorem nodup_rolesAfterAdd (L R : List String) (h : L.Nodup) : (rolesAfterAdd L R).Nodup := by
  unfold rolesAfterAdd
  rw [List.nodup_append]
  refine ⟨h, (nodup_firstOccurrences R).filter _, ?_⟩
  intro x hx hx2
  simp only [List.mem_filter, decide_eq_true_eq] at hx2
  exact hx2.2 hx

theorem getRoles_eq (c : CJSONCmdsConfig) (G C : String) :
    c.GetRoles G C = (Map.find ((Map.find c.m_CmdDatabase G).getD []) C).getD [] := by
  unfold CJSONCmdsConfig.GetRoles
  cases Map.find c.m_CmdDatabase G with
  | none => simp [Map.find]
  | some cmds =>
    simp only [Option.getD_some]
    cases Map.find cmds C <;> rfl

/-- C28: after `AddRoles(G, C, R)`, `GetRoles(G, C)` is the role list stored before
followed by the roles of `R` that were not already in it, each once, in the order of
their first occurrence in `R`; a duplicate-free list stays duplicate-free; a second
call `AddRoles(G, C, R)` leaves the configuration as the first call left it; and the
role list of every other pair of a guild and a command is unchanged. -/
theorem add_roles_appends_new_roles (c : CJSONCmdsConfig) (G C : String) (R : List String) :
    (c.AddRoles G C R).GetRoles G C = rolesAfterAdd (c.GetRoles G C) R ∧
    ((c.GetRoles G C).Nodup → ((c.AddRoles G C R).GetRoles G C).Nodup) ∧
    (c.AddRoles G C R).AddRoles G C R = c.AddRoles G C R ∧
    (∀ G1 C1 : String, G1 ≠ G ∨ C1 ≠ C →
      (c.AddRoles G C R).GetRoles G1 C1 = c.GetRoles G1 C1) := by
  have hget : (c.AddRoles G C R).GetRoles G C = rolesAfterAdd (c.GetRoles G C) R := by
    rw [getRoles_eq, getRoles_eq c]
    unfold CJSONCmdsConfig.AddRoles CJSONCmdsConfig.SaveCmdDB
    simp only [map_find_put, if_true, Option.getD_some]
    exact pushRoles_eq R _
  refine ⟨hget, ?_, ?_, ?_⟩
  · intro h
    rw [hget]
    exact nodup_rolesAfterAdd _ _ h
  · unfold CJSONCmdsConfig.AddRoles CJSONCmdsConfig.SaveCmdDB
    simp only [map_find_put, if_true, Option.getD_some, pushRoles_idem, map_put_put]
  · intro G1 C1 h
    rw [getRoles_eq, getRoles_eq c]
    unfold CJSONCmdsConfig.AddRoles CJSONCmdsConfig.SaveCmdDB
    simp only [map_find_put]
    by_cases hG : G1 = G
    · rw [if_pos hG, hG]
      have hC : C1 ≠ C := by
        rcases h with h | h
        · exact absurd hG h
        · exact h
      simp only [Option.getD_some, map_find_put, if_neg hC]
    · rw [if_neg hG]

theorem removeRoles_db (c : CJSONCmdsConfig) (G C : String) (R : List String)
    (cmds : Map (List String)) (DBRoles : List String)
    (hG : Map.find c.m_CmdDatabase G = some cmds) (hC : Map.find cmds C = some DBRoles) :
    (c.RemoveRoles G C R).m_CmdDatabase =
      if (DBRoles.filter (fun Val => decide (Val ∉ R))).isEmpty then
        Map.assign c.m_CmdDatabase G
          (Map.erase (Map.assign cmds C (DBRoles.filter (fun Val => decide (Val ∉ R)))) C)
      else
        Map.assign c.m_CmdDatabase G
          (Map.assign cmds C (DBRoles.filter (fun Val => decide (Val ∉ R)))) := by
  have h1 : Map.find (Map.assign c.m_CmdDatabase G
      (Map.assign cmds C (DBRoles.filter (fun Val => decide (Val ∉ R))))) G =
      some (Map.assign cmds C (DBRoles.filter (fun Val => decide (Val ∉ R)))) :=
    map_find_assign_self _ _ _ _ hG
  have h2 : Map.find (Map.assign cmds C (DBRoles.filter (fun Val => decide (Val ∉ R)))) C =
      some (DBRoles.filter (fun Val => decide (Val ∉ R))) :=
    map_find_assign_self _ _ _ _ hC
  unfold CJSONCmdsConfig.RemoveRoles
  simp only [hG, hC]
  split
  · unfold CJSONCmdsConfig.DeleteCommand CJSONCmdsConfig.SaveCmdDB
    simp only [h1, h2]
    unfold Map.assign
    rw [List.map_map]
    apply List.map_congr_left
    intro e _
    by_cases hk : e.1 = G
    · simp [Function.comp, hk]
    · simp [Function.comp, hk]
  · rfl

/-- C29: after `RemoveRoles(G, C, R)`, `GetRoles(G, C)` is the role list stored before
without the roles that occur in `R`, the others in their order; when no role remains,
the map of the guild has no entry for the command; and the role list of every other
pair of a guild and a command is unchanged. -/
theorem remove_roles_filters_roles (c : CJSONCmdsConfig) (G C : String) (R : List String) :
    (c.RemoveRoles G C R).GetRoles G C =
      (c.GetRoles G C).filter (fun e => decide (e ∉ R)) ∧
    ((c.GetRoles G C).filter (fun e => decide (e ∉ R)) = [] →
      ∀ cmds : Map (List String),
        Map.find (c.RemoveRoles G C R).m_CmdDatabase G = some cmds → Map.find cmds C = none) ∧
    (∀ G1 C1 : String, G1 ≠ G ∨ C1 ≠ C →
      (c.RemoveRoles G C R).GetRoles G1 C1 = c.GetRoles G1 C1) := by
  cases hG : Map.find c.m_CmdDatabase G with
  | none =>
    have hr : c.RemoveRoles G C R = c := by
      unfold CJSONCmdsConfig.RemoveRoles; rw [hG]
    rw [hr]
    refine ⟨by simp [CJSONCmdsConfig.GetRoles, hG], ?_, fun _ _ _ => rfl⟩
    intro _ cmds hc
    rw [hG] at hc
    cases hc
  | some cmds =>
    cases hC : Map.find cmds C with
    | none =>
      have hr : c.RemoveRoles G C R = c := by
        unfold CJSONCmdsConfig.RemoveRoles; rw [hG]; simp only [hC]
      rw [hr]
      refine ⟨by simp [CJSONCmdsConfig.GetRoles, hG, hC], ?_, fun _ _ _ => rfl⟩
      intro _ cmds1 hc
      rw [hG] at hc
      have : cmds = cmds1 := by simpa using hc
      rw [← this]
      exact hC
    | some DBRoles =>
      have hdb := removeRoles_db c G C R cmds DBRoles hG hC
      have hget : c.GetRoles G C = DBRoles := by
        simp [CJSONCmdsConfig.GetRoles, hG, hC]
      have h2 : Map.find (Map.assign cmds C (DBRoles.filter (fun Val => decide (Val ∉ R)))) C =
          some (DBRoles.filter (fun Val => decide (Val ∉ R))) :=
        map_find_assign_self _ _ _ _ hC
      by_cases hE : (DBRoles.filter (fun Val => decide (Val ∉ R))).isEmpty = true
      · rw [if_pos hE] at hdb
        have hnil : DBRoles.filter (fun Val => decide (Val ∉ R)) = [] :=
          List.isEmpty_iff.1 hE
        have hfG : Map.find (c.RemoveRoles G C R).m_CmdDatabase G = some
            (Map.erase (Map.assign cmds C (DBRoles.filter (fun Val => decide (Val ∉ R)))) C) := by
          rw [hdb]; exact map_find_assign_self _ _ _ _ hG
        refine ⟨?_, ?_, ?_⟩
        · rw [hget, hnil]
          unfold CJSONCmdsConfig.GetRoles
          rw [hfG]
          simp only [map_find_erase, if_true]
        · intro _ cmds1 hc
          rw [hfG] at hc
          have hc1 := Option.some.inj hc
          rw [← hc1, map_find_erase, if_pos rfl]
        · intro G1 C1 h
          rw [getRoles_eq, getRoles_eq c, hdb, map_find_assign]
          by_cases hG1 : G1 = G
          · have hC1 : ¬ C = C1 := by
              rcases h with h | h
              · exact absurd hG1 h
              · exact fun e => h e.symm
            have hC2 : ¬ C1 = C := fun e => hC1 e.symm
            rw [if_pos hG1, hG1, hG]
            simp only [Option.map_some', Option.getD_some, map_find_erase, if_neg hC1,
              map_find_assign, if_neg hC2]
          · rw [if_neg hG1]
      · rw [if_neg hE] at hdb
        have hfG : Map.find (c.RemoveRoles G C R).m_CmdDatabase G = some
            (Map.assign cmds C (DBRoles.filter (fun Val => decide (Val ∉ R)))) := by
          rw [hdb]; exact map_find_assign_self _ _ _ _ hG
        refine ⟨?_, ?_, ?_⟩
        · rw [hget]
          unfold CJSONCmdsConfig.GetRoles
          rw [hfG]
          simp only [h2]
        · intro hnil
          rw [hget] at hnil
          rw [hnil] at hE
          exact absurd rfl hE
        · intro G1 C1 h
          rw [getRoles_eq, getRoles_eq c, hdb, map_find_assign]
          by_cases hG1 : G1 = G
          · have hC2 : ¬ C1 = C := by
              rcases h with h | h
              · exact absurd hG1 h
              · exact h
            rw [if_pos hG1, hG1, hG]
            simp only [Option.map_some', Option.getD_some, map_find_assign, if_neg hC2]
          · rw [if_neg hG1]

/-! ## A voice state that is stored has a channel -/

theorem statesOK_setMember (g : CGuild) (p : Nat) (st : Option CVoiceState)
    (h : GuildStatesOK g) (hst : ∀ v : CVoiceState, st = some v → v.ChannelRef ≠ none) :
    GuildStatesOK (g.setMember p (fun m => { m with State := st })) := by
  unfold CGuild.setMember
  cases hp : g.Objs[p]? with
  | none => exact h
  | some m0 =>
    intro m hm v hv
    rcases List.mem_or_eq_of_mem_set hm with h1 | h1
    · exact h m h1 v hv
    · rw [h1] at hv
      exact hst v hv

theorem statesOK_CreateMember (s : Client) (json : MemberJson) (guild : CGuild)
    (h : GuildStatesOK guild) : GuildStatesOK (CreateMember s json guild).2.1 := by
  have key : ∀ Ret : CGuildMember, Ret.State = none →
      ∀ m ∈ guild.Objs ++ [Ret], ∀ v : CVoiceState, m.State = some v → v.ChannelRef ≠ none := by
    intro Ret hR m hm v hv
    rcases List.mem_append.1 hm with h1 | h1
    · exact h m h1 v hv
    · rw [List.mem_singleton.1 h1, hR] at hv
      cases hv
  unfold CreateMember
  cases json.user with
  | none => exact key _ rfl
  | some u => exact key _ rfl

theorem statesOK_GetMember (s : Client) (guild : CGuild) (UserID : String)
    (rest : Option MemberJson) (h : GuildStatesOK guild) :
    GuildStatesOK (GetMember s guild UserID rest).2.1 := by
  unfold GetMember
  cases Map.find guild.Members UserID with
  | some p => exact h
  | none =>
    cases rest with
    | none => exact h
    | some j => exact statesOK_CreateMember _ j guild h

theorem statesOK_CreateVoiceStateIn (s : Client) (json : VoiceStateJson) (guild : CGuild)
    (h : GuildStatesOK guild) : GuildStatesOK (CreateVoiceStateIn s json guild).2.1 := by
  have hnone : ∀ v : CVoiceState, (none : Option CVoiceState) = some v → v.ChannelRef ≠ none :=
    fun v hv => by cases hv
  have hsome : ∀ (ch : CChannel) (v : CVoiceState),
      some (json.fill { GuildRef := some guild.ID, UserRef := Map.find s.m_Users json.user_id,
                        ChannelRef := some ch }) = some v → v.ChannelRef ≠ none := by
    intro ch v hv
    have hv1 := Option.some.inj hv
    rw [← hv1]
    intro hc
    cases hc
  unfold CreateVoiceStateIn
  cases Map.find guild.Members json.user_id with
  | some p =>
    cases hch : Map.find guild.Channels json.channel_id with
    | none => exact statesOK_setMember _ _ _ h hnone
    | some ch => exact statesOK_setMember _ _ _ h (hsome ch)
  | none =>
    cases json.member with
    | none => exact h
    | some j =>
      cases hch : Map.find guild.Channels json.channel_id with
      | none => exact statesOK_setMember _ _ _ (statesOK_CreateMember s j guild h) hnone
      | some ch => exact statesOK_setMember _ _ _ (statesOK_CreateMember s j guild h) (hsome ch)

theorem statesOK_addMembers (l : List MemberJson) (a : Client × CGuild)
    (h : GuildStatesOK a.2) : GuildStatesOK (addMembers l a).2 := by
  unfold addMembers
  induction l generalizing a with
  | nil => exact h
  | cons e l ih =>
    simp only [List.foldl_cons]
    exact ih _ (statesOK_CreateMember _ _ _ h)

theorem statesOK_addVoiceStates (l : List VoiceStateJson) (a : Client × CGuild)
    (h : GuildStatesOK a.2) : GuildStatesOK (addVoiceStates l a).2 := by
  unfold addVoiceStates
  induction l generalizing a with
  | nil => exact h
  | cons e l ih =>
    simp only [List.foldl_cons]
    exact ih _ (statesOK_CreateVoiceStateIn _ _ _ h)

theorem statesOK_addRoles (l : List RoleJson) (g : CGuild) (h : GuildStatesOK g) :
    GuildStatesOK (addRoles l g) := by
  unfold addRoles
  induction l generalizing g with
  | nil => exact h
  | cons e l ih =>
    simp only [List.foldl_cons]
    exact ih _ h

theorem statesOK_addChannels (l : List ChannelJson) (g : CGuild) (h : GuildStatesOK g) :
    GuildStatesOK (addChannels l g) := by
  unfold addChannels
  induction l generalizing g with
  | nil => exact h
  | cons e l ih =>
    simp only [List.foldl_cons]
    exact ih _ h

theorem statesOK_buildGuild (s : Client) (json : GuildJson) (owner : Option MemberJson) :
    GuildStatesOK (buildGuild s json owner).2 := by
  rw [buildGuild_eq]
  have g0 : GuildStatesOK ({ ID := json.id, Name := json.name, Icon := json.icon } : CGuild) :=
    fun m hm => by cases hm
  have g2 := statesOK_addChannels json.channels _ (statesOK_addRoles json.roles _ g0)
  have g3 := statesOK_addMembers json.members
    (s, addChannels json.channels (addRoles json.roles
      { ID := json.id, Name := json.name, Icon := json.icon })) g2
  have g4 := statesOK_addVoiceStates json.voice_states _ g3
  exact statesOK_GetMember _ _ _ _ g4

theorem voiceStatesOK_OnGuildCreate (s s1 : Client) (json : GuildJson)
    (owner : Option MemberJson) (h : VoiceStatesOK s)
    (he : OnGuildCreate s json owner = Outcome.done s1) : VoiceStatesOK s1 := by
  obtain ⟨s2, h2, hG⟩ := OnGuildCreate_guilds s json owner
  rw [h2] at he
  cases he
  intro k G hk
  rw [hG, map_find_insert] at hk
  cases hold : Map.find s.m_Guilds k with
  | some x =>
    rw [hold] at hk
    have hx := Option.some.inj hk
    rw [← hx]
    exact h k x hold
  | none =>
    rw [hold] at hk
    by_cases hkk : json.id = k
    · simp only [hkk, if_true] at hk
      have hx := Option.some.inj hk
      rw [← hx]
      exact statesOK_buildGuild s json owner
    · simp [hkk] at hk

theorem OnGuildDelete_guilds (s s1 : Client) (id : String) (Unavailable : Bool)
    (he : OnGuildDelete s id Unavailable = Outcome.done s1) :
    s1.m_Guilds = s.m_Guilds ∨ s1.m_Guilds = Map.erase s.m_Guilds id := by
  unfold OnGuildDelete at he
  cases hf : Map.find s.m_Guilds id with
  | none =>
    rw [hf] at he
    cases he
    exact Or.inl rfl
  | some guild =>
    rw [hf] at he
    dsimp only at he
    cases he
    right
    dsimp only
    split
    · rfl
    · split <;> rfl

theorem voiceStatesOK_OnGuildDelete (s s1 : Client) (id : String) (Unavailable : Bool)
    (h : VoiceStatesOK s) (he : OnGuildDelete s id Unavailable = Outcome.done s1) :
    VoiceStatesOK s1 := by
  intro k G hk
  rcases OnGuildDelete_guilds s s1 id Unavailable he with h1 | h1
  · rw [h1] at hk
    exact h k G hk
  · rw [h1, map_find_erase] at hk
    by_cases hid : id = k
    · simp [hid] at hk
    · rw [if_neg hid] at hk
      exact h k G hk

theorem OnVoiceStateUpdate_guilds (s s1 : Client) (json : VoiceStateJson)
    (he : OnVoiceStateUpdate s json = Outcome.done s1) :
    ∃ (G : CGuild) (pm : Nat) (st : Option CVoiceState),
      Map.find s.m_Guilds json.guild_id = some G ∧
      Map.find G.Members json.user_id = some pm ∧
      s1.m_Guilds =
        Map.assign s.m_Guilds json.guild_id (G.setMember pm (fun m => { m with State := st })) ∧
      (∀ v : CVoiceState, st = some v → v.ChannelRef ≠ none) ∧
      (Map.find G.Channels json.channel_id = none → st = none) := by
  unfold OnVoiceStateUpdate at he
  cases hg : Map.find s.m_Guilds json.guild_id with
  | none => rw [hg] at he; cases he
  | some G =>
    rw [hg] at he
    dsimp only at he
    cases hm : Map.find G.Members json.user_id with
    | none => rw [hm] at he; cases he
    | some pm =>
      rw [hm] at he
      dsimp only at he
      have hcv : ∃ (st : Option CVoiceState) (Tmp : CVoiceState),
          CreateVoiceState s json =
            (s.setGuild json.guild_id (G.setMember pm (fun m => { m with State := st })), Tmp) ∧
          (∀ v : CVoiceState, st = some v → v.ChannelRef ≠ none) ∧
          (Map.find G.Channels json.channel_id = none → st = none) := by
        unfold CreateVoiceState
        rw [hg]
        dsimp only
        rw [CreateVoiceStateIn_member_found s json G pm hm]
        cases hch : Map.find G.Channels json.channel_id with
        | none => exact ⟨none, _, rfl, fun v hv => (by cases hv), fun _ => rfl⟩
        | some ch =>
          refine ⟨some _, _, rfl, ?_, fun hc => (by cases hc)⟩
          intro v hv
          have hv1 := Option.some.inj hv
          rw [← hv1]
          intro hc
          cases hc
      obtain ⟨st, Tmp, hcv1, hst, hno⟩ := hcv
      rw [hcv1] at he
      dsimp only at he
      refine ⟨G, pm, st, rfl, hm, ?_, hst, hno⟩
      split at he
      · split at he
        · cases he; rfl
        · split at he
          · cases he
          · cases he
            exact (voiceStateNotify_frame _ _ _ _ _ _).1
      · cases he; rfl

theorem voiceStatesOK_OnVoiceStateUpdate (s s1 : Client) (json : VoiceStateJson)
    (h : VoiceStatesOK s) (he : OnVoiceStateUpdate s json = Outcome.done s1) :
    VoiceStatesOK s1 := by
  obtain ⟨G, pm, st, hg, _, hG, hst, _⟩ := OnVoiceStateUpdate_guilds s s1 json he
  intro k X hk
  rw [hG, map_find_assign] at hk
  by_cases hkg : k = json.guild_id
  · rw [if_pos hkg, hkg, hg] at hk
    have hx := Option.some.inj hk
    rw [← hx]
    exact statesOK_setMember G pm st (h _ G hg) hst
  · rw [if_neg hkg] at hk
    exact h k X hk

theorem OnVoiceServerUpdate_frame (s s1 : Client) (json : VoiceServerJson)
    (he : OnVoiceServerUpdate s json = Outcome.done s1) :
    s1.m_Guilds = s.m_Guilds ∧ s1.m_LastSeqNum = s.m_LastSeqNum := by
  unfold OnVoiceServerUpdate at he
  cases hf : Map.find s.m_Guilds json.guild_id with
  | none =>
    rw [hf] at he
    cases he
    exact ⟨rfl, rfl⟩
  | some guild =>
    rw [hf] at he
    dsimp only at he
    cases hb : s.m_BotUser with
    | none => simp only [hb] at he; cases he
    | some bp =>
      simp only [hb] at he
      cases hm : Map.find guild.Members (s.user bp).ID with
      | none =>
        simp only [hm] at he; cases he
        exact ⟨rfl, rfl⟩
      | some p =>
        simp only [hm] at he
        cases ho : guild.Objs[p]? with
        | none => simp only [ho] at he; cases he
        | some m =>
          simp only [ho] at he
          cases hst : m.State with
          | none => simp only [hst] at he; cases he
          | some st =>
            simp only [hst] at he
            cases hq : s.m_QueueFactory with
            | true =>
              simp only [hq, if_true] at he
              split at he
              · cases he
                exact ⟨rfl, rfl⟩
              · cases he
                exact ⟨rfl, rfl⟩
            | false =>
              simp only [hq, Bool.false_eq_true, if_false] at he
              split at he
              · cases he
                exact ⟨rfl, rfl⟩
              · cases he
                exact ⟨rfl, rfl⟩

theorem OnVoiceServerUpdate_guilds (s s1 : Client) (json : VoiceServerJson)
    (he : OnVoiceServerUpdate s json = Outcome.done s1) : s1.m_Guilds = s.m_Guilds := by
  exact (OnVoiceServerUpdate_frame s s1 json he).1

theorem voiceStatesOK_OnDispatch (s s1 : Client) (S : Int) (ev : VoiceEvent)
    (h : VoiceStatesOK s) (he : OnDispatch s S ev.toDispatch = Outcome.done s1) :
    VoiceStatesOK s1 := by
  have h0 : VoiceStatesOK { s with m_LastSeqNum := S } := h
  cases ev with
  | GUILD_CREATE d owner => exact voiceStatesOK_OnGuildCreate _ s1 d owner h0 he
  | GUILD_DELETE id unavailable => exact voiceStatesOK_OnGuildDelete _ s1 id unavailable h0 he
  | VOICE_STATE_UPDATE d => exact voiceStatesOK_OnVoiceStateUpdate _ s1 d h0 he
  | VOICE_SERVER_UPDATE d =>
    intro k G hk
    rw [OnVoiceServerUpdate_guilds _ s1 d he] at hk
    exact h k G hk

theorem voiceStatesOK_runDispatch (evs : List (Int × VoiceEvent)) (s s1 : Client)
    (h : VoiceStatesOK s)
    (he : runDispatch s (evs.map (fun e => (e.1, e.2.toDispatch))) = Outcome.done s1) :
    VoiceStatesOK s1 := by
  induction evs generalizing s with
  | nil =>
    simp only [List.map_nil, runDispatch] at he
    cases he
    exact h
  | cons e rest ih =>
    simp only [List.map_cons, runDispatch] at he
    cases ha : OnDispatch s e.1 e.2.toDispatch with
    | done s2 =>
      rw [ha] at he
      exact ih s2 (voiceStatesOK_OnDispatch s s2 e.1 e.2 h ha) he
    | thrown s2 => rw [ha] at he; cases he
    | fault => rw [ha] at he; cases he

/-- C26: in every state reached from a state without cached guilds (the state of a new
client) by GUILD_CREATE, GUILD_DELETE, VOICE_STATE_UPDATE and VOICE_SERVER_UPDATE
events, a cached member holds at most one voice state (the field `State`), and a member
that holds a voice state has a channel reference in it; and a VOICE_STATE_UPDATE whose
channel id names no channel of the guild leaves the member of the event without a voice
state. -/
theorem member_voice_state_has_channel (s0 : Client) (h0 : s0.m_Guilds = [])
    (evs : List (Int × VoiceEvent)) (s : Client)
    (h : runDispatch s0 (evs.map (fun e => (e.1, e.2.toDispatch))) = Outcome.done s) :
    (∀ (g : String) (G : CGuild) (uid : String) (p : Nat) (m : CGuildMember)
        (v : CVoiceState),
      Map.find s.m_Guilds g = some G → Map.find G.Members uid = some p →
      G.Objs[p]? = some m → m.State = some v → v.ChannelRef ≠ none) ∧
    (∀ (S : Int) (json : VoiceStateJson) (s1 : Client) (G : CGuild),
      OnDispatch s S (DispatchEvent.VOICE_STATE_UPDATE json) = Outcome.done s1 →
      Map.find s.m_Guilds json.guild_id = some G →
      Map.find G.Channels json.channel_id = none →
      ∃ (G1 : CGuild) (p : Nat), Map.find s1.m_Guilds json.guild_id = some G1 ∧
        Map.find G1.Members json.user_id = some p ∧
        ∀ m : CGuildMember, G1.Objs[p]? = some m → m.State = none) := by
  have hinit : VoiceStatesOK s0 := by
    intro k G hk
    rw [h0] at hk
    simp [Map.find] at hk
  have hok := voiceStatesOK_runDispatch evs s0 s hinit h
  refine ⟨?_, ?_⟩
  · intro g G uid p m v hG _ ho hst
    have hmem : m ∈ G.Objs := by
      rcases List.getElem?_eq_some.1 ho with ⟨hl, he⟩
      rw [← he]
      exact List.getElem_mem hl
    exact hok g G hG m hmem v hst
  · intro S json s1 G he hG hch
    obtain ⟨G0, pm, st, hg0, hm, hG1, _, hno⟩ := OnVoiceStateUpdate_guilds _ s1 json he
    have hg0b : Map.find s.m_Guilds json.guild_id = some G0 := hg0
    rw [hG] at hg0b
    have hGG := Option.some.inj hg0b
    subst hGG
    have hst := hno hch
    subst hst
    refine ⟨G.setMember pm (fun m => { m with State := none }), pm, ?_, ?_, ?_⟩
    · rw [hG1]
      exact map_find_assign_self _ _ _ _ hG
    · rw [(setMember_fields G pm _).2.1]
      exact hm
    · intro m hmo
      cases hp : G.Objs[pm]? with
      | none =>
        have : (G.setMember pm (fun m => { m with State := none })).Objs[pm]? = none := by
          unfold CGuild.setMember
          rw [hp]
          exact hp
        rw [this] at hmo
        cases hmo
      | some m0 =>
        rw [setMember_get_self G pm _ m0 hp] at hmo
        have := Option.some.inj hmo
        rw [← this]

/-- C26 (witness): the statement at the run GUILD_CREATE of the guild G1 in which B holds
a voice state in C2, on a new client: the member B holds the voice state with the
channel C2. -/
theorem member_voice_state_has_channel_witness :
    ∃ s, runDispatch (Client.create "token" 0)
        [(1, DispatchEvent.GUILD_CREATE botGuild none),
         (2, DispatchEvent.VOICE_STATE_UPDATE
               { guild_id := "G1", user_id := "B", channel_id := "C2", session_id := "V2" })] =
        Outcome.done s ∧
      (∀ (g : String) (G : CGuild) (uid : String) (p : Nat) (m : CGuildMember)
          (v : CVoiceState),
        Map.find s.m_Guilds g = some G → Map.find G.Members uid = some p →
        G.Objs[p]? = some m → m.State = some v → v.ChannelRef ≠ none) ∧
      (s.guildAt "G1").Objs.map (fun m => m.State.map (fun v => v.SessionID)) = [some "V2"] :=
  ⟨_, rfl,
    (member_voice_state_has_channel (Client.create "token" 0) rfl
      [(1, VoiceEvent.GUILD_CREATE botGuild none),
       (2, VoiceEvent.VOICE_STATE_UPDATE
             { guild_id := "G1", user_id := "B", channel_id := "C2", session_id := "V2" })]
      _ rfl).1,
    by decide⟩

/-! ## The sequence number of the heartbeat -/

theorem frameEq_lastSeq {s s1 : Client} (h : FrameEq s s1) :
    s1.m_LastSeqNum = s.m_LastSeqNum := by
  unfold FrameEq at h
  have h1 := congrArg Client.m_LastSeqNum h
  exact h1

theorem lastSeq_notifyIf (s : Client) (n : Notification) :
    (s.notifyIf n).m_LastSeqNum = s.m_LastSeqNum := by
  unfold Client.notifyIf
  split <;> rfl

theorem lastSeq_setUser (s : Client) (up : Nat) (f : CUser → CUser) :
    (s.setUser up f).m_LastSeqNum = s.m_LastSeqNum := by
  unfold Client.setUser
  split <;> rfl

theorem lastSeq_OnReady (s s1 : Client) (json : ReadyJson)
    (he : OnReady s json = Outcome.done s1) : s1.m_LastSeqNum = s.m_LastSeqNum := by
  unfold OnReady at he
  cases he
  rw [lastSeq_notifyIf]
  have h := frameEq_lastSeq
    (frameEq_resolveUser { s with m_SessionID := json.session_id } json.user)
  exact h

theorem lastSeq_OnGuildCreate (s s1 : Client) (json : GuildJson) (owner : Option MemberJson)
    (he : OnGuildCreate s json owner = Outcome.done s1) : s1.m_LastSeqNum = s.m_LastSeqNum := by
  have hf := frameEq_lastSeq (frameEq_buildGuild s json owner)
  unfold OnGuildCreate at he
  dsimp only at he
  split at he
  · cases he
    rw [lastSeq_notifyIf]
    exact hf
  · cases he
    rw [lastSeq_notifyIf]
    exact hf

theorem lastSeq_OnGuildDelete (s s1 : Client) (id : String) (Unavailable : Bool)
    (he : OnGuildDelete s id Unavailable = Outcome.done s1) :
    s1.m_LastSeqNum = s.m_LastSeqNum := by
  unfold OnGuildDelete at he
  cases hf : Map.find s.m_Guilds id with
  | none => rw [hf] at he; cases he; rfl
  | some guild =>
    rw [hf] at he
    dsimp only at he
    cases he
    dsimp only
    split
    · rfl
    · split <;> rfl

theorem lastSeq_OnGuildMemberUpdate (s s1 : Client) (json : MemberUpdateJson)
    (he : OnGuildMemberUpdate s json = Outcome.done s1) :
    s1.m_LastSeqNum = s.m_LastSeqNum := by
  unfold OnGuildMemberUpdate at he
  split at he
  · cases he; rfl
  · split at he
    · cases he; rfl
    · dsimp only at he
      split at he
      · cases he
        rw [lastSeq_notifyIf]
        rfl
      · cases he

theorem lastSeq_OnGuildMemberRemove (s s1 : Client) (GuildID UserID : String) (outside : Nat)
    (he : OnGuildMemberRemove s GuildID UserID outside = Outcome.done s1) :
    s1.m_LastSeqNum = s.m_LastSeqNum := by
  unfold OnGuildMemberRemove at he
  cases hf : Map.find s.m_Guilds GuildID with
  | none => rw [hf] at he; cases he; rfl
  | some guild =>
    rw [hf] at he
    dsimp only at he
    have h1 : (match Map.find guild.Members UserID with
        | some _ =>
          (s.setGuild GuildID { guild with Members := Map.erase guild.Members UserID }).notifyIf
            (Notification.OnMemberRemove guild.ID UserID)
        | none => s).m_LastSeqNum = s.m_LastSeqNum := by
      split
      · rw [lastSeq_notifyIf]; rfl
      · rfl
    split at he
    · split at he
      · cases he; exact h1
      · cases he; exact h1
    · cases he; exact h1

theorem lastSeq_OnPresenceUpdate (s s1 : Client) (json : PresenceJson)
    (rest : Option MemberJson) (he : OnPresenceUpdate s json rest = Outcome.done s1) :
    s1.m_LastSeqNum = s.m_LastSeqNum := by
  have h1 : ((resolveUser s json.user).1.setUser (resolveUser s json.user).2
      (writePresence json)).m_LastSeqNum = s.m_LastSeqNum := by
    rw [lastSeq_setUser]
    exact frameEq_lastSeq (frameEq_resolveUser s json.user)
  unfold OnPresenceUpdate at he
  dsimp only at he
  split at he
  · cases he; exact h1
  · cases he
    rw [lastSeq_notifyIf]
    show (GetMember _ _ _ rest).1.m_LastSeqNum = s.m_LastSeqNum
    rw [frameEq_lastSeq (frameEq_GetMember _ _ _ rest)]
    exact h1

theorem lastSeq_CreateVoiceState (s : Client) (json : VoiceStateJson) :
    (CreateVoiceState s json).1.m_LastSeqNum = s.m_LastSeqNum := by
  unfold CreateVoiceState
  split
  · rename_i guild hg
    have h := frameEq_lastSeq (frameEq_CreateVoiceStateIn s json guild)
    exact h
  · rfl

theorem lastSeq_voiceStateNotify (s : Client) (json : VoiceStateJson) (Tmp : CVoiceState)
    (c : Option CChannel) (up bp : Nat) :
    (voiceStateNotify s json Tmp c up bp).m_LastSeqNum = s.m_LastSeqNum := by
  unfold voiceStateNotify
  dsimp only
  by_cases hcond : (s.user up).ID = (s.user bp).ID ∧ Tmp.ChannelRef = none
  · simp only [if_pos hcond]
    split
    · rfl
    · split
      · rfl
      · split <;> rfl
  · simp only [if_neg hcond]
    split
    · rfl
    · split
      · rfl
      · split <;> rfl

theorem lastSeq_OnVoiceStateUpdate (s s1 : Client) (json : VoiceStateJson)
    (he : OnVoiceStateUpdate s json = Outcome.done s1) :
    s1.m_LastSeqNum = s.m_LastSeqNum := by
  have hcv := lastSeq_CreateVoiceState s json
  unfold OnVoiceStateUpdate at he
  split at he
  · cases he
  · split at he
    · cases he
    · dsimp only at he
      split at he
      · split at he
        · cases he; exact hcv
        · split at he
          · cases he
          · cases he
            rw [lastSeq_voiceStateNotify]
            exact hcv
      · cases he; exact hcv

theorem lastSeq_mentionOf (s : Client) (guild : Option CGuild) (Author : Option Nat)
    (e : UserJson) (r : Client × MemberRef) (h : mentionOf s guild Author e = some r) :
    r.1.m_LastSeqNum = s.m_LastSeqNum := by
  have hf := frameEq_lastSeq (frameEq_resolveUser s e)
  unfold mentionOf at h
  dsimp only at h
  split at h
  · split at h
    · cases h
    · split at h
      · cases h; exact hf
      · cases h; exact hf
  · cases h; exact hf

theorem lastSeq_addMentions (guild : Option CGuild) (Author : Option Nat)
    (l : List UserJson) (a r : Client × List MemberRef)
    (h : addMentions guild Author l a = some r) : r.1.m_LastSeqNum = a.1.m_LastSeqNum := by
  induction l generalizing a with
  | nil =>
    unfold addMentions at h
    cases h
    rfl
  | cons e l ih =>
    unfold addMentions at h
    cases hm : mentionOf a.1 guild Author e with
    | none => rw [hm] at h; cases h
    | some q =>
      rw [hm] at h
      dsimp only at h
      rw [ih _ h]
      exact lastSeq_mentionOf a.1 guild Author e q hm

theorem lastSeq_CreateMessage (s : Client) (json : MessageJson) (rest : Option MemberJson)
    (r : Client × CMessage) (h : CreateMessage s json rest = some r) :
    r.1.m_LastSeqNum = s.m_LastSeqNum := by
  unfold CreateMessage at h
  dsimp only at h
  split at h
  · cases h
  · rename_i q hq
    cases h
    dsimp only
    rw [lastSeq_addMentions _ _ _ _ q hq]
    dsimp only
    split
    · rfl
    · rename_i u hu
      have hf := frameEq_lastSeq (frameEq_resolveUser s u)
      split
      · exact hf
      · split
        · exact hf
        · show (GetMember _ _ _ rest).1.m_LastSeqNum = s.m_LastSeqNum
          rw [frameEq_lastSeq (frameEq_GetMember _ _ _ rest)]
          exact hf

theorem lastSeq_OnMessageEvent (s s1 : Client) (T : ActionType) (json : MessageJson)
    (rest : Option MemberJson) (he : OnMessageEvent s T json rest = Outcome.done s1) :
    s1.m_LastSeqNum = s.m_LastSeqNum := by
  unfold OnMessageEvent at he
  cases hc : CreateMessage s json rest with
  | none => rw [hc] at he; cases he
  | some r =>
    have hr := lastSeq_CreateMessage s json rest r hc
    rw [hc] at he
    dsimp only at he
    split at he
    · cases he
    · have hn : (match T with
          | ActionType.MESSAGE_CREATED => r.1.notifyIf (Notification.OnMessage r.2)
          | ActionType.MESSAGE_EDITED => r.1.notifyIf (Notification.OnMessageEdited r.2)
          | ActionType.MESSAGE_DELETED =>
            r.1.notifyIf (Notification.OnMessageDeleted r.2)).m_LastSeqNum
          = s.m_LastSeqNum := by
        cases T <;> (dsimp only; rw [lastSeq_notifyIf]; exact hr)
      split at he
      · cases he; exact hn
      · cases he; exact hn

theorem lastSeq_OnChannel (s s1 : Client) (json : ChannelJson)
    (he : OnChannelCreate s json = Outcome.done s1 ∨ OnChannelUpdate s json = Outcome.done s1 ∨
      OnChannelDelete s json = Outcome.done s1) : s1.m_LastSeqNum = s.m_LastSeqNum := by
  rcases he with he | he | he
  · unfold OnChannelCreate at he
    dsimp only at he
    split at he <;> (cases he; rfl)
  · unfold OnChannelUpdate at he
    dsimp only at he
    split at he <;> (cases he; rfl)
  · unfold OnChannelDelete at he
    dsimp only at he
    split at he <;> (cases he; rfl)

theorem lastSeq_OnGuildMemberAdd (s s1 : Client) (GuildID : String) (json : MemberJson)
    (he : OnGuildMemberAdd s GuildID json = Outcome.done s1) :
    s1.m_LastSeqNum = s.m_LastSeqNum := by
  unfold OnGuildMemberAdd at he
  split at he
  · rename_i guild hg
    cases he
    rw [lastSeq_notifyIf]
    have h := frameEq_lastSeq (frameEq_CreateMember s json guild)
    exact h
  · cases he; rfl

theorem lastSeq_OnDispatch (s s1 : Client) (S : Int) (ev : DispatchEvent)
    (he : OnDispatch s S ev = Outcome.done s1) : s1.m_LastSeqNum = S := by
  unfold OnDispatch at he
  cases ev with
  | READY d => exact lastSeq_OnReady _ s1 d he
  | GUILD_CREATE d owner => exact lastSeq_OnGuildCreate _ s1 d owner he
  | GUILD_DELETE id unavailable => exact lastSeq_OnGuildDelete _ s1 id unavailable he
  | GUILD_MEMBER_UPDATE d => exact lastSeq_OnGuildMemberUpdate _ s1 d he
  | GUILD_MEMBER_REMOVE g u outside => exact lastSeq_OnGuildMemberRemove _ s1 g u outside he
  | GUILD_BAN_ADD g u outside => exact lastSeq_OnGuildMemberRemove _ s1 g u outside he
  | RESUMED =>
    dsimp only at he
    cases he
    rw [lastSeq_notifyIf]
  | PRESENCE_UPDATE d member => exact lastSeq_OnPresenceUpdate _ s1 d member he
  | VOICE_STATE_UPDATE d => exact lastSeq_OnVoiceStateUpdate _ s1 d he
  | VOICE_SERVER_UPDATE d => exact (OnVoiceServerUpdate_frame _ s1 d he).2
  | MESSAGE_CREATE d member => exact lastSeq_OnMessageEvent _ s1 _ d member he
  | MESSAGE_UPDATE d member => exact lastSeq_OnMessageEvent _ s1 _ d member he
  | MESSAGE_DELETE d member => exact lastSeq_OnMessageEvent _ s1 _ d member he
  | CHANNEL_CREATE d => exact lastSeq_OnChannel _ s1 d (Or.inl he)
  | CHANNEL_UPDATE d => exact lastSeq_OnChannel _ s1 d (Or.inr (Or.inl he))
  | CHANNEL_DELETE d => exact lastSeq_OnChannel _ s1 d (Or.inr (Or.inr he))
  | GUILD_MEMBER_ADD g d => exact lastSeq_OnGuildMemberAdd _ s1 g d he

theorem lastSeq_OnPayload (s s1 : Client) (Pay : SPayload)
    (he : OnPayload s Pay = Outcome.done s1) :
    s1.m_LastSeqNum = if Pay.OP = OPCodes.DISPATCH then Pay.S else s.m_LastSeqNum := by
  unfold OnPayload at he
  cases hop : Pay.OP <;> rw [hop] at he <;> dsimp only at he
  case DISPATCH =>
    rw [if_pos rfl]
    split at he
    · exact lastSeq_OnDispatch s s1 Pay.S _ he
    · cases he; rfl
  case HELLO =>
    rw [if_neg (by decide)]
    split at he
    · unfold OnHello at he
      cases he
      show (joinHeartbeat _ _).m_LastSeqNum = s.m_LastSeqNum
      rw [joinHeartbeat_lastSeq]
      unfold SendIdentity SendResume SendOP Client.emit
      dsimp only
      split <;> rfl
    · cases he; rfl
  case INVALID_SESSION =>
    rw [if_neg (by decide)]
    unfold OnInvalidSession at he
    split at he
    · cases he; rfl
    · cases he; rfl
  all_goals (rw [if_neg (by decide)]; cases he; rfl)

theorem lastDispatchSeq_foldl (frames : List SPayload) (x : Int) :
    frames.foldl (fun acc p => if p.OP = OPCodes.DISPATCH then some p.S else acc) (some x) =
      some ((lastDispatchSeq frames).getD x) := by
  unfold lastDispatchSeq
  induction frames generalizing x with
  | nil => rfl
  | cons p rest ih =>
    simp only [List.foldl_cons]
    by_cases hp : p.OP = OPCodes.DISPATCH
    · simp only [hp, if_true]
      rw [ih p.S]
      rfl
    · simp only [hp, if_false]
      exact ih x

theorem lastSeq_runPayloads (frames : List SPayload) (s s1 : Client)
    (he : runPayloads s frames = Outcome.done s1) :
    s1.m_LastSeqNum = (lastDispatchSeq frames).getD s.m_LastSeqNum := by
  induction frames generalizing s with
  | nil =>
    unfold runPayloads at he
    cases he
    rfl
  | cons p rest ih =>
    unfold runPayloads at he
    cases hp : OnPayload s p with
    | done s2 =>
      rw [hp] at he
      have h2 := lastSeq_OnPayload s s2 p hp
      rw [ih s2 he, h2]
      unfold lastDispatchSeq
      simp only [List.foldl_cons]
      by_cases hd : p.OP = OPCodes.DISPATCH
      · simp only [hd, if_true]
        rw [lastDispatchSeq_foldl rest p.S]
        rfl
      · simp only [hd, if_false]
    | thrown s2 => rw [hp] at he; cases he
    | fault => rw [hp] at he; cases he

theorem lastDispatchSeq_mem_aux (frames : List SPayload) (a : Option Int) (S : Int)
    (h : frames.foldl (fun acc p => if p.OP = OPCodes.DISPATCH then some p.S else acc) a
      = some S) :
    a = some S ∨ ∃ p ∈ frames, p.OP = OPCodes.DISPATCH ∧ p.S = S := by
  induction frames generalizing a with
  | nil => exact Or.inl h
  | cons p rest ih =>
    simp only [List.foldl_cons] at h
    rcases ih _ h with h1 | ⟨q, hq, hq2⟩
    · by_cases hp : p.OP = OPCodes.DISPATCH
      · rw [if_pos hp] at h1
        exact Or.inr ⟨p, List.mem_cons_self _ _, hp, Option.some.inj h1⟩
      · rw [if_neg hp] at h1
        exact Or.inl h1
    · exact Or.inr ⟨q, List.mem_cons_of_mem _ hq, hq2⟩

theorem lastDispatchSeq_mem (frames : List SPayload) (S : Int)
    (h : lastDispatchSeq frames = some S) :
    ∃ p ∈ frames, p.OP = OPCodes.DISPATCH ∧ p.S = S := by
  rcases lastDispatchSeq_mem_aux frames none S h with h1 | h1
  · cases h1
  · exact h1

theorem heartbeatIter_beat (t : Client) (ht : t.m_Terminate = false)
    (ha : t.m_HeartACKReceived = true) :
    HeartbeatIter t =
      ({ t with trace := t.trace ++ [Effect.send (Frame.HEARTBEAT
                  (if t.m_LastSeqNum ≠ -1 then toString t.m_LastSeqNum else ""))],
                m_HeartACKReceived := false }, true) := by
  unfold HeartbeatIter
  rw [if_neg (by simp [ht]), if_neg (by simp [ha])]
  rfl

/-- C22: in a state reached from a new client by a run of payloads whose DISPATCH frames
carry sequence numbers that are not negative, an iteration of the liveness monitor that
starts with the acknowledgement flag set (and not terminated) goes on, and it changes
nothing but the trace, to which it adds one HEARTBEAT frame whose data is the decimal
text of the sequence number of the last DISPATCH payload of the run, or the empty string
when the run has none, and the acknowledgement flag, which it clears.  A payload with
an op-code other than DISPATCH leaves the recorded sequence number as it is; and in
every state such an iteration sends the text of the recorded sequence number, or the
empty string when that is the initial value -1. -/
theorem heartbeat_carries_last_dispatch_seq (Token : String) (Intents : Nat)
    (frames : List SPayload) (s : Client)
    (hrun : runPayloads (Client.create Token Intents) frames = Outcome.done s)
    (hseq : ∀ p ∈ frames, p.OP = OPCodes.DISPATCH → 0 ≤ p.S)
    (ht : s.m_Terminate = false) (ha : s.m_HeartACKReceived = true) :
    HeartbeatIter s =
      ({ s with trace := s.trace ++ [Effect.send (Frame.HEARTBEAT
                  (match lastDispatchSeq frames with
                   | some S => toString S
                   | none => ""))],
                m_HeartACKReceived := false }, true) ∧
    (∀ (t t1 : Client) (Pay : SPayload), Pay.OP ≠ OPCodes.DISPATCH →
      OnPayload t Pay = Outcome.done t1 → t1.m_LastSeqNum = t.m_LastSeqNum) ∧
    (∀ t : Client, t.m_Terminate = false → t.m_HeartACKReceived = true →
      HeartbeatIter t =
        ({ t with trace := t.trace ++ [Effect.send (Frame.HEARTBEAT
                    (if t.m_LastSeqNum ≠ -1 then toString t.m_LastSeqNum else ""))],
                  m_HeartACKReceived := false }, true)) := by
  refine ⟨?_, ?_, heartbeatIter_beat⟩
  · rw [heartbeatIter_beat s ht ha]
    have hl := lastSeq_runPayloads frames _ s hrun
    have hdata : (if s.m_LastSeqNum ≠ -1 then toString s.m_LastSeqNum else "") =
        (match lastDispatchSeq frames with
         | some S => toString S
         | none => "") := by
      cases hd : lastDispatchSeq frames with
      | none =>
        rw [hd] at hl
        have h1 : s.m_LastSeqNum = -1 := hl
        simp [h1]
      | some S =>
        rw [hd] at hl
        have h1 : s.m_LastSeqNum = S := hl
        obtain ⟨p, hp, hop, hS⟩ := lastDispatchSeq_mem frames S hd
        have h0 := hseq p hp hop
        rw [hS] at h0
        have hne : S ≠ -1 := by omega
        simp [h1, hne]
    rw [hdata]
  · intro t t1 Pay hop he
    rw [lastSeq_OnPayload t t1 Pay he, if_neg hop]

/-- C22 (witness): the statement at the run HELLO, DISPATCH READY with the sequence
number 5 on a new client: the next iteration of the liveness monitor sends a HEARTBEAT
frame with the data `5`. -/
theorem heartbeat_carries_last_dispatch_seq_witness :
    beatClient.m_Terminate = false ∧ beatClient.m_HeartACKReceived = true ∧
    beatClient.m_LastSeqNum = 5 ∧
    (HeartbeatIter beatClient).1.trace =
      beatClient.trace ++ [Effect.send (Frame.HEARTBEAT "5")] := by
  have h := (heartbeat_carries_last_dispatch_seq "token" 0
    [{ OP := OPCodes.HELLO, heartbeat_interval := some 41250 },
     { OP := OPCodes.DISPATCH, S := 5,
       event := some (DispatchEvent.READY
         { session_id := "S", user := { id := "B", username := "bot" } }) }]
    beatClient rfl (by decide) (by decide) (by decide)).1
  refine ⟨by decide, by decide, by decide, ?_⟩
  rw [h]
  decide

/-- C28 (witness): the statement at a configuration in which the command C of the guild
G has the roles `x`, `a`, and the call `AddRoles(G, C, [a, b, a])`: afterwards the role
list is `x`, `a`, `b`. -/
theorem add_roles_appends_new_roles_witness :
    (CJSONCmdsConfig.AddRoles { m_CmdDatabase := [("G", [("C", ["x", "a"])])] } "G" "C"
      ["a", "b", "a"]).GetRoles "G" "C" = ["x", "a", "b"] := by
  rw [(add_roles_appends_new_roles { m_CmdDatabase := [("G", [("C", ["x", "a"])])] } "G" "C"
    ["a", "b", "a"]).1]
  decide

/-- C29 (witness): the statement at a configuration in which the command C of the guild
G has the roles `x`, `a`: `RemoveRoles(G, C, [a])` leaves the role `x`, and
`RemoveRoles(G, C, [a, x])` leaves the map of G without an entry for C. -/
theorem remove_roles_filters_roles_witness :
    (CJSONCmdsConfig.RemoveRoles { m_CmdDatabase := [("G", [("C", ["x", "a"])])] } "G" "C"
      ["a"]).GetRoles "G" "C" = ["x"] ∧
    (CJSONCmdsConfig.RemoveRoles { m_CmdDatabase := [("G", [("C", ["x", "a"])])] } "G" "C"
      ["a", "x"]).m_CmdDatabase = [("G", [])] ∧
    Map.find ([] : Map (List String)) "C" = none := by
  refine ⟨?_, by decide, ?_⟩
  · rw [(remove_roles_filters_roles { m_CmdDatabase := [("G", [("C", ["x", "a"])])] } "G" "C"
      ["a"]).1]
    decide
  · exact (remove_roles_filters_roles { m_CmdDatabase := [("G", [("C", ["x", "a"])])] } "G" "C"
      ["a", "x"]).2.1 (by decide) [] (by decide)

/-! ## Voice connections over runs of steps -/

theorem botStateIn_isSome (B : String) (G : CGuild) (h : (botStateIn B G).isSome = true) :
    ∃ (pm : Nat) (m : CGuildMember) (st : CVoiceState),
      Map.find G.Members B = some pm ∧ G.Objs[pm]? = some m ∧ m.State = some st := by
  unfold botStateIn at h
  cases hm : Map.find G.Members B with
  | none => rw [hm] at h; simp at h
  | some pm =>
    cases ho : G.Objs[pm]? with
    | none => rw [hm] at h; simp [ho] at h
    | some m =>
      cases hst : m.State with
      | none => rw [hm] at h; simp [ho, hst] at h
      | some st => exact ⟨pm, m, st, rfl, ho, hst⟩

theorem botStateIn_of (B : String) (G : CGuild) (pm : Nat) (m : CGuildMember)
    (st : CVoiceState) (hm : Map.find G.Members B = some pm) (ho : G.Objs[pm]? = some m)
    (hst : m.State = some st) : (botStateIn B G).isSome = true := by
  unfold botStateIn
  rw [hm]
  simp [ho, hst]

theorem guildKeeps_refl (B : String) (G : CGuild) : GuildKeeps B G G :=
  ⟨rfl, fun h => h, fun h => h⟩

theorem guildKeeps_trans {B : String} {G G1 G2 : CGuild} (h1 : GuildKeeps B G G1)
    (h2 : GuildKeeps B G1 G2) : GuildKeeps B G G2 :=
  ⟨by rw [h2.1, h1.1], fun h => h2.2.1 (h1.2.1 h), fun h => h2.2.2 (h1.2.2 h)⟩

theorem guildKeeps_of (B : String) (G G1 : CGuild) (hid : G1.ID = G.ID)
    (hwf : GuildWF G → GuildWF G1)
    (hM : ∀ p : Nat, Map.find G.Members B = some p → Map.find G1.Members B = some p)
    (hO : ∀ (p : Nat) (m : CGuildMember), G.Objs[p]? = some m →
      ∃ m1 : CGuildMember, G1.Objs[p]? = some m1 ∧ m1.State = m.State) :
    GuildKeeps B G G1 := by
  refine ⟨hid, hwf, ?_⟩
  intro h
  obtain ⟨pm, m, st, e1, e2, e3⟩ := botStateIn_isSome B G h
  obtain ⟨m1, f1, f2⟩ := hO pm m e2
  exact botStateIn_of B G1 pm m1 st (hM pm e1) f1 (by rw [f2]; exact e3)

theorem guildKeeps_CreateMember (B : String) (s : Client) (json : MemberJson)
    (guild : CGuild) : GuildKeeps B guild (CreateMember s json guild).2.1 := by
  have happ : ∀ (p : Nat) (m : CGuildMember) (x : CGuildMember), guild.Objs[p]? = some m →
      (guild.Objs ++ [x])[p]? = some m := by
    intro p m x h
    rcases List.getElem?_eq_some.1 h with ⟨hlt, _⟩
    rw [List.getElem?_append_left hlt]; exact h
  refine guildKeeps_of B guild _ (guildExt_CreateMember s json guild).1
    (guildWF_CreateMember s json guild) ?_ ?_
  · intro p hp
    exact (guildExt_CreateMember s json guild).2.2.2.2.2.2.1 B p hp
  · intro p m hm
    unfold CreateMember
    cases json.user with
    | none => exact ⟨m, happ p m _ hm, rfl⟩
    | some u => exact ⟨m, happ p m _ hm, rfl⟩

theorem guildKeeps_GetMember (B : String) (s : Client) (guild : CGuild) (UserID : String)
    (rest : Option MemberJson) : GuildKeeps B guild (GetMember s guild UserID rest).2.1 := by
  unfold GetMember
  cases Map.find guild.Members UserID with
  | some p => exact guildKeeps_refl B guild
  | none =>
    cases rest with
    | none => exact guildKeeps_refl B guild
    | some j => exact guildKeeps_CreateMember B _ j guild

theorem guildKeeps_setMember (B : String) (G : CGuild) (p : Nat)
    (f : CGuildMember → CGuildMember) (hf : ∀ m : CGuildMember, (f m).State = m.State) :
    GuildKeeps B G (G.setMember p f) := by
  refine guildKeeps_of B G _ (setMember_fields G p f).2.2 (guildWF_setMember G p f) ?_ ?_
  · intro q hq
    rw [(setMember_fields G p f).2.1]
    exact hq
  · intro q m hm
    by_cases hpq : p = q
    · subst hpq
      exact ⟨f m, setMember_get_self G p f m hm, hf m⟩
    · exact ⟨m, by rw [setMember_get_other G p q f hpq]; exact hm, rfl⟩

theorem guildKeeps_channels (B : String) (G : CGuild) (c : Map CChannel) :
    GuildKeeps B G { G with Channels := c } :=
  ⟨rfl, fun h => h, fun h => h⟩

theorem guildKeeps_eraseMember (B : String) (G : CGuild) (k : String) (hk : k ≠ B) :
    GuildKeeps B G { G with Members := Map.erase G.Members k } := by
  have hfind : ∀ (k1 : String) (p : Nat),
      Map.find (Map.erase G.Members k) k1 = some p → Map.find G.Members k1 = some p := by
    intro k1 p h
    rw [map_find_erase] at h
    by_cases hkk : k = k1
    · simp [hkk] at h
    · rw [if_neg hkk] at h
      exact h
  refine guildKeeps_of B G _ rfl ?_ ?_ ?_
  · intro hwf
    exact ⟨fun k1 p h => hwf.1 k1 p (hfind k1 p h),
      fun k1 k2 p h1 h2 => hwf.2 k1 k2 p (hfind k1 p h1) (hfind k2 p h2)⟩
  · intro p hp
    show Map.find (Map.erase G.Members k) B = some p
    rw [map_find_erase, if_neg hk]
    exact hp
  · intro p m hm
    exact ⟨m, hm, rfl⟩

theorem usersWF_user (s : Client) (k : String) (up : Nat) (h : UsersWF s)
    (hk : Map.find s.m_Users k = some up) : (s.user up).ID = k := by
  obtain ⟨u, hu, hid⟩ := h k up hk
  unfold Client.user
  rw [List.getD_eq_getElem?_getD, hu]
  exact hid

theorem voiceInv_of_frame (B : String) (s s1 : Client) (h : VoiceInv B s)
    (hc : s1.m_Controller = s.m_Controller) (hg : s1.m_Guilds = s.m_Guilds)
    (hU : s1.Users = s.Users) (hu : s1.m_Users = s.m_Users)
    (hb : s1.m_BotUser = s.m_BotUser)
    (hv : ∀ g : String, Map.find s1.m_VoiceSockets g ≠ none →
      Map.find s.m_VoiceSockets g ≠ none) :
    VoiceInv B s1 := by
  obtain ⟨h1, h2, h3, h4, h5⟩ := h
  refine ⟨by rw [hc]; exact h1, by rw [hg]; exact h2, ?_, by rw [hb, hu]; exact h4, ?_⟩
  · intro k up hk
    rw [hu] at hk
    rw [hU]
    exact h3 k up hk
  · intro g hgs
    rw [hb, hg]
    exact h5 g (hv g hgs)

theorem voiceInv_users (B : String) (s s1 : Client) (h : VoiceInv B s) (hfe : FrameEq s s1)
    (hext : UsersExt s s1) (hwf : UsersWF s → UsersWF s1) : VoiceInv B s1 := by
  obtain ⟨h1, h2, h3, h4, h5⟩ := h
  refine ⟨by rw [frameEq_controller hfe]; exact h1, by rw [frameEq_guilds hfe]; exact h2,
    hwf h3, ?_, ?_⟩
  · intro bp hb
    rw [frameEq_botUser hfe] at hb
    exact hext.1 B bp (h4 bp hb)
  · intro g hgs
    rw [frameEq_voiceSockets hfe] at hgs
    rw [frameEq_botUser hfe, frameEq_guilds hfe]
    exact h5 g hgs

theorem voiceInv_setGuild (B : String) (s : Client) (id : String) (G G1 : CGuild)
    (h : VoiceInv B s) (hG : Map.find s.m_Guilds id = some G) (hk : GuildKeeps B G G1) :
    VoiceInv B (s.setGuild id G1) := by
  obtain ⟨h1, h2, h3, h4, h5⟩ := h
  refine ⟨h1, ?_, h3, h4, ?_⟩
  · intro k X hkX
    have e : Map.find (Map.assign s.m_Guilds id G1) k = some X := hkX
    rw [map_find_assign] at e
    by_cases hkk : k = id
    · rw [if_pos hkk, hkk, hG] at e
      have hX : G1 = X := by simpa using e
      rw [← hX, hkk]
      exact ⟨by rw [hk.1]; exact (h2 id G hG).1, hk.2.1 (h2 id G hG).2⟩
    · rw [if_neg hkk] at e
      exact h2 k X e
  · intro g hgs
    obtain ⟨hb, G0, e1, e2⟩ := h5 g hgs
    refine ⟨hb, ?_⟩
    by_cases hgg : g = id
    · rw [hgg] at e1
      rw [hG] at e1
      have hGG : G = G0 := by simpa using e1
      rw [← hGG] at e2
      refine ⟨G1, ?_, hk.2.2 e2⟩
      show Map.find (Map.assign s.m_Guilds id G1) g = some G1
      rw [hgg]
      exact map_find_assign_self _ _ _ _ hG
    · refine ⟨G0, ?_, e2⟩
      show Map.find (Map.assign s.m_Guilds id G1) g = some G0
      rw [map_find_assign, if_neg hgg]
      exact e1

theorem usersWF_setUser (s : Client) (up : Nat) (f : CUser → CUser)
    (hf : ∀ u : CUser, (f u).ID = u.ID) (h : UsersWF s) : UsersWF (s.setUser up f) := by
  unfold Client.setUser
  cases hu : s.Users[up]? with
  | none => exact h
  | some u =>
    intro k p hk
    obtain ⟨v, hv, hid⟩ := h k p hk
    show ∃ w : CUser, (s.Users.set up (f u))[p]? = some w ∧ w.ID = k
    have hlt : up < s.Users.length := by
      rcases List.getElem?_eq_some.1 hu with ⟨hl, _⟩
      exact hl
    by_cases hp : up = p
    · rw [← hp] at hv
      rw [hu] at hv
      have huv : u = v := by simpa using hv
      refine ⟨f u, ?_, by rw [hf, huv]; exact hid⟩
      rw [← hp]
      simp [List.getElem?_set, hlt]
    · refine ⟨v, ?_, hid⟩
      simp [List.getElem?_set, hp]
      exact hv

theorem setUser_fields (s : Client) (up : Nat) (f : CUser → CUser) :
    (s.setUser up f).m_Controller = s.m_Controller ∧
    (s.setUser up f).m_Guilds = s.m_Guilds ∧
    (s.setUser up f).m_Users = s.m_Users ∧
    (s.setUser up f).m_BotUser = s.m_BotUser ∧
    (s.setUser up f).m_VoiceSockets = s.m_VoiceSockets := by
  unfold Client.setUser
  cases s.Users[up]? with
  | none => exact ⟨rfl, rfl, rfl, rfl, rfl⟩
  | some u => exact ⟨rfl, rfl, rfl, rfl, rfl⟩

theorem voiceInv_setUser (B : String) (s : Client) (up : Nat) (f : CUser → CUser)
    (hf : ∀ u : CUser, (f u).ID = u.ID) (h : VoiceInv B s) : VoiceInv B (s.setUser up f) := by
  obtain ⟨f1, f2, f3, f4, f5⟩ := setUser_fields s up f
  obtain ⟨h1, h2, h3, h4, h5⟩ := h
  refine ⟨by rw [f1]; exact h1, by rw [f2]; exact h2, usersWF_setUser s up f hf h3,
    by rw [f3, f4]; exact h4, ?_⟩
  intro g hgs
  rw [f5] at hgs
  rw [f4, f2]
  exact h5 g hgs

theorem voiceInv_eraseUser (B : String) (s : Client) (k : String) (hk : k ≠ B)
    (h : VoiceInv B s) : VoiceInv B { s with m_Users := Map.erase s.m_Users k } := by
  obtain ⟨h1, h2, h3, h4, h5⟩ := h
  refine ⟨h1, h2, ?_, ?_, h5⟩
  · intro k1 up hk1
    have e : Map.find (Map.erase s.m_Users k) k1 = some up := hk1
    rw [map_find_erase] at e
    by_cases hkk : k = k1
    · simp [hkk] at e
    · rw [if_neg hkk] at e
      exact h3 k1 up e
  · intro bp hb
    show Map.find (Map.erase s.m_Users k) B = some bp
    rw [map_find_erase, if_neg hk]
    exact h4 bp hb

theorem voiceInv_notifyIf (B : String) (s : Client) (n : Notification) (h : VoiceInv B s) :
    VoiceInv B (s.notifyIf n) := by
  unfold Client.notifyIf
  split
  · exact voiceInv_of_frame B s _ h rfl rfl rfl rfl rfl (fun _ hg => hg)
  · exact h

theorem voiceInv_emit (B : String) (s : Client) (e : Effect) (h : VoiceInv B s) :
    VoiceInv B (s.emit e) :=
  voiceInv_of_frame B s _ h rfl rfl rfl rfl rfl (fun _ hg => hg)

theorem voiceInv_setSeq (B : String) (s : Client) (S : Int) (h : VoiceInv B s) :
    VoiceInv B { s with m_LastSeqNum := S } :=
  voiceInv_of_frame B s _ h rfl rfl rfl rfl rfl (fun _ hg => hg)

theorem resolveUser_find (s : Client) (json : UserJson) :
    Map.find (resolveUser s json).1.m_Users json.id = some (resolveUser s json).2 := by
  unfold resolveUser
  cases hf : Map.find s.m_Users json.id with
  | some up => exact hf
  | none => exact map_find_insert_self _ _ _ hf

theorem voiceInv_resolveUser (B : String) (s : Client) (json : UserJson) (h : VoiceInv B s) :
    VoiceInv B (resolveUser s json).1 :=
  voiceInv_users B s _ h (frameEq_resolveUser s json) (usersExt_resolveUser s json)
    (fun hw => (resolveUser_spec s json hw).1)

theorem voiceInv_OnReady (B : String) (s s1 : Client) (json : ReadyJson)
    (hB : json.user.id = B) (h : VoiceInv B s) (he : OnReady s json = Outcome.done s1) :
    VoiceInv B s1 := by
  unfold OnReady at he
  dsimp only at he
  cases he
  apply voiceInv_notifyIf
  have h0 : VoiceInv B { s with m_SessionID := json.session_id } :=
    voiceInv_of_frame B s _ h rfl rfl rfl rfl rfl (fun _ hg => hg)
  have h1 := voiceInv_resolveUser B _ json.user h0
  have hfind := resolveUser_find { s with m_SessionID := json.session_id } json.user
  rw [hB] at hfind
  obtain ⟨f1, f2, f3, f4, f5⟩ := h1
  refine ⟨f1, f2, f3, ?_, ?_⟩
  · intro bp hb
    have hb2 : some (resolveUser { s with m_SessionID := json.session_id } json.user).2
        = some bp := hb
    have hbb : (resolveUser { s with m_SessionID := json.session_id } json.user).2 = bp := by
      simpa using hb2
    rw [← hbb]
    exact hfind
  · intro g hgs
    exact ⟨by simp, (f5 g hgs).2⟩

theorem voiceInv_OnGuildCreate (B : String) (s s1 : Client) (json : GuildJson)
    (owner : Option MemberJson) (h : VoiceInv B s)
    (he : OnGuildCreate s json owner = Outcome.done s1) : VoiceInv B s1 := by
  have hb := wf_buildGuild s json owner
  have hfe := frameEq_buildGuild s json owner
  have h1 := voiceInv_users B s _ h hfe hb.1 hb.2.1
  have hid := buildGuild_ID s json owner
  have h2 : VoiceInv B { (buildGuild s json owner).1 with
      m_Guilds := Map.insert (buildGuild s json owner).1.m_Guilds
        (buildGuild s json owner).2.ID (buildGuild s json owner).2 } := by
    obtain ⟨f1, f2, f3, f4, f5⟩ := h1
    refine ⟨f1, ?_, f3, f4, ?_⟩
    · intro k X hk
      have e : Map.find (Map.insert (buildGuild s json owner).1.m_Guilds
          (buildGuild s json owner).2.ID (buildGuild s json owner).2) k = some X := hk
      rw [map_find_insert] at e
      cases hold : Map.find (buildGuild s json owner).1.m_Guilds k with
      | some x =>
        rw [hold] at e
        have hx : x = X := by simpa using e
        rw [← hx]
        exact f2 k x hold
      | none =>
        rw [hold] at e
        by_cases hkk : (buildGuild s json owner).2.ID = k
        · simp only [hkk, if_true] at e
          have hx : (buildGuild s json owner).2 = X := by simpa using e
          rw [← hx]
          exact ⟨hkk, hb.2.2⟩
        · simp [hkk] at e
    · intro g hgs
      obtain ⟨hbu, G, e1, e2⟩ := f5 g hgs
      exact ⟨hbu, G, map_find_insert_of_some _ _ _ _ _ e1, e2⟩
  unfold OnGuildCreate at he
  dsimp only at he
  split at he
  · cases he
    apply voiceInv_notifyIf
    exact voiceInv_of_frame B _ _ h2 rfl rfl rfl rfl rfl (fun _ hg => hg)
  · cases he
    exact voiceInv_notifyIf B _ _ h2

theorem voiceInv_eraseGuild (B : String) (s s1 : Client) (id : String) (h : VoiceInv B s)
    (hc : s1.m_Controller = s.m_Controller) (hg : s1.m_Guilds = Map.erase s.m_Guilds id)
    (hU : s1.Users = s.Users) (hu : s1.m_Users = s.m_Users)
    (hb : s1.m_BotUser = s.m_BotUser)
    (hv : s1.m_VoiceSockets = Map.erase s.m_VoiceSockets id) : VoiceInv B s1 := by
  obtain ⟨h1, h2, h3, h4, h5⟩ := h
  refine ⟨by rw [hc]; exact h1, ?_, ?_, by rw [hb, hu]; exact h4, ?_⟩
  · intro k G hk
    rw [hg, map_find_erase] at hk
    by_cases hid : id = k
    · simp [hid] at hk
    · rw [if_neg hid] at hk
      exact h2 k G hk
  · intro k up hk
    rw [hu] at hk
    rw [hU]
    exact h3 k up hk
  · intro g hgs
    rw [hv, map_find_erase] at hgs
    by_cases hid : id = g
    · simp [hid] at hgs
    · rw [if_neg hid] at hgs
      obtain ⟨hbu, G, e1, e2⟩ := h5 g hgs
      refine ⟨by rw [hb]; exact hbu, G, ?_, e2⟩
      rw [hg, map_find_erase, if_neg hid]
      exact e1

theorem voiceInv_OnGuildDelete (B : String) (s s1 : Client) (id : String)
    (Unavailable : Bool) (h : VoiceInv B s)
    (he : OnGuildDelete s id Unavailable = Outcome.done s1) : VoiceInv B s1 := by
  unfold OnGuildDelete at he
  cases hf : Map.find s.m_Guilds id with
  | none =>
    rw [hf] at he
    cases he
    exact h
  | some guild =>
    rw [hf] at he
    have hid : guild.ID = id := (h.2.1 id guild hf).1
    dsimp only at he
    rw [hid] at he
    cases he
    apply voiceInv_eraseGuild B s _ id h
    · dsimp only; split
      · rfl
      · split <;> rfl
    · dsimp only; split
      · rfl
      · split <;> rfl
    · dsimp only; split
      · rfl
      · split <;> rfl
    · dsimp only; split
      · rfl
      · split <;> rfl
    · dsimp only; split
      · rfl
      · split <;> rfl
    · dsimp only; split
      · rfl
      · split <;> rfl

theorem voiceInv_OnGuildMemberUpdate (B : String) (s s1 : Client) (json : MemberUpdateJson)
    (h : VoiceInv B s) (he : OnGuildMemberUpdate s json = Outcome.done s1) :
    VoiceInv B s1 := by
  unfold OnGuildMemberUpdate at he
  cases hg : Map.find s.m_Guilds json.guild_id with
  | none => rw [hg] at he; cases he; exact h
  | some guild =>
    rw [hg] at he
    dsimp only at he
    cases hm : Map.find guild.Members json.user_id with
    | none => rw [hm] at he; cases he; exact h
    | some p =>
      rw [hm] at he
      dsimp only at he
      split at he
      · cases he
        apply voiceInv_notifyIf
        exact voiceInv_setGuild B s _ guild _ h hg
          (guildKeeps_setMember B guild p _ (fun m => rfl))
      · cases he

theorem voiceInv_OnGuildMemberRemove (B : String) (s s1 : Client) (GuildID UserID : String)
    (outside : Nat) (hU : UserID ≠ B) (h : VoiceInv B s)
    (he : OnGuildMemberRemove s GuildID UserID outside = Outcome.done s1) :
    VoiceInv B s1 := by
  unfold OnGuildMemberRemove at he
  cases hg : Map.find s.m_Guilds GuildID with
  | none => rw [hg] at he; cases he; exact h
  | some guild =>
    rw [hg] at he
    dsimp only at he
    have h1 : VoiceInv B
        (match Map.find guild.Members UserID with
         | some _ =>
           (s.setGuild GuildID { guild with Members := Map.erase guild.Members UserID }).notifyIf
             (Notification.OnMemberRemove guild.ID UserID)
         | none => s) := by
      cases Map.find guild.Members UserID with
      | none => exact h
      | some p =>
        apply voiceInv_notifyIf
        exact voiceInv_setGuild B s _ guild _ h hg (guildKeeps_eraseMember B guild UserID hU)
    split at he
    · split at he
      · cases he
        exact voiceInv_eraseUser B _ UserID hU h1
      · cases he
        exact h1
    · cases he
      exact h1

theorem voiceInv_OnChannel (B : String) (s s1 : Client) (json : ChannelJson)
    (h : VoiceInv B s)
    (he : OnChannelCreate s json = Outcome.done s1 ∨ OnChannelUpdate s json = Outcome.done s1 ∨
      OnChannelDelete s json = Outcome.done s1) : VoiceInv B s1 := by
  rcases he with he | he | he
  · unfold OnChannelCreate at he
    dsimp only at he
    split at he
    · rename_i guild hg
      cases he
      exact voiceInv_setGuild B s _ guild _ h hg (guildKeeps_channels B guild _)
    · cases he; exact h
  · unfold OnChannelUpdate at he
    dsimp only at he
    split at he
    · rename_i guild hg
      cases he
      exact voiceInv_setGuild B s _ guild _ h hg (guildKeeps_channels B guild _)
    · cases he; exact h
  · unfold OnChannelDelete at he
    dsimp only at he
    split at he
    · rename_i guild hg
      cases he
      exact voiceInv_setGuild B s _ guild _ h hg (guildKeeps_channels B guild _)
    · cases he; exact h

theorem voiceInv_CreateMember (B : String) (s : Client) (json : MemberJson) (guild : CGuild)
    (h : VoiceInv B s) : VoiceInv B (CreateMember s json guild).1 :=
  voiceInv_users B s _ h (frameEq_CreateMember s json guild) (usersExt_CreateMember s json guild)
    (usersWF_CreateMember s json guild)

theorem voiceInv_GetMember (B : String) (s : Client) (guild : CGuild) (UserID : String)
    (rest : Option MemberJson) (h : VoiceInv B s) :
    VoiceInv B (GetMember s guild UserID rest).1 :=
  voiceInv_users B s _ h (frameEq_GetMember s guild UserID rest)
    (usersExt_GetMember s guild UserID rest) (usersWF_GetMember s guild UserID rest)

theorem voiceInv_OnGuildMemberAdd (B : String) (s s1 : Client) (GuildID : String)
    (json : MemberJson) (h : VoiceInv B s)
    (he : OnGuildMemberAdd s GuildID json = Outcome.done s1) : VoiceInv B s1 := by
  unfold OnGuildMemberAdd at he
  split at he
  · rename_i guild hg
    cases he
    apply voiceInv_notifyIf
    have h1 := voiceInv_CreateMember B s json guild h
    have hg1 : Map.find (CreateMember s json guild).1.m_Guilds GuildID = some guild := by
      rw [frameEq_guilds (frameEq_CreateMember s json guild)]
      exact hg
    exact voiceInv_setGuild B _ _ guild _ h1 hg1 (guildKeeps_CreateMember B s json guild)
  · cases he; exact h

theorem writePresence_ID (json : PresenceJson) (u : CUser) : (writePresence json u).ID = u.ID := by
  unfold writePresence
  cases json.game <;> rfl

theorem voiceInv_OnPresenceUpdate (B : String) (s s1 : Client) (json : PresenceJson)
    (rest : Option MemberJson) (h : VoiceInv B s)
    (he : OnPresenceUpdate s json rest = Outcome.done s1) : VoiceInv B s1 := by
  unfold OnPresenceUpdate at he
  dsimp only at he
  have h1 := voiceInv_setUser B _ (resolveUser s json.user).2 (writePresence json)
    (writePresence_ID json) (voiceInv_resolveUser B s json.user h)
  split at he
  · cases he; exact h1
  · rename_i guild hg
    cases he
    apply voiceInv_notifyIf
    have h2 := voiceInv_GetMember B _ guild
      ((((resolveUser s json.user).1.setUser (resolveUser s json.user).2
        (writePresence json)).user (resolveUser s json.user).2).ID) rest h1
    refine voiceInv_setGuild B _ _ guild _ h2 ?_ (guildKeeps_GetMember B _ guild _ rest)
    rw [frameEq_guilds (frameEq_GetMember _ guild _ rest)]
    exact hg

theorem voiceInv_vsu_core (B : String) (s s1 : Client) (G : CGuild) (pm : Nat)
    (st : Option CVoiceState) (gid uid : String) (h : VoiceInv B s)
    (hg : Map.find s.m_Guilds gid = some G) (hm : Map.find G.Members uid = some pm)
    (hG : s1.m_Guilds =
      Map.assign s.m_Guilds gid (G.setMember pm (fun m => { m with State := st })))
    (hc : s1.m_Controller = s.m_Controller)
    (hU : s1.Users = s.Users) (hu : s1.m_Users = s.m_Users)
    (hb : s1.m_BotUser = s.m_BotUser)
    (hv : ∀ g : String, Map.find s1.m_VoiceSockets g ≠ none →
      Map.find s.m_VoiceSockets g ≠ none ∧ (g = gid → uid = B → st ≠ none)) :
    VoiceInv B s1 := by
  obtain ⟨h1, h2, h3, h4, h5⟩ := h
  have hfld := setMember_fields G pm (fun m => { m with State := st })
  refine ⟨by rw [hc]; exact h1, ?_, ?_, by rw [hb, hu]; exact h4, ?_⟩
  · intro k X hk
    rw [hG, map_find_assign] at hk
    by_cases hkg : k = gid
    · rw [if_pos hkg, hkg, hg] at hk
      have hX : G.setMember pm (fun m => { m with State := st }) = X := by simpa using hk
      rw [← hX, hkg]
      exact ⟨by rw [hfld.2.2]; exact (h2 gid G hg).1, guildWF_setMember _ _ _ (h2 gid G hg).2⟩
    · rw [if_neg hkg] at hk
      exact h2 k X hk
  · intro k up hk
    rw [hu] at hk
    rw [hU]
    exact h3 k up hk
  · intro g hgs
    obtain ⟨hs, hst⟩ := hv g hgs
    obtain ⟨hbu, G0, e1, e2⟩ := h5 g hs
    refine ⟨by rw [hb]; exact hbu, ?_⟩
    obtain ⟨pb, mb, stb, e3, e4, e5⟩ := botStateIn_isSome B G0 e2
    by_cases hgg : g = gid
    · rw [hgg, hg] at e1
      have hGG : G = G0 := by simpa using e1
      rw [← hGG] at e3 e4
      have hfind : Map.find s1.m_Guilds g
          = some (G.setMember pm (fun m => { m with State := st })) := by
        rw [hG, map_find_assign, if_pos hgg, hgg, hg]
        rfl
      refine ⟨_, hfind, ?_⟩
      by_cases hp : pm = pb
      · have huid : uid = B := (h2 gid G hg).2.2 uid B pm hm (by rw [hp]; exact e3)
        have hne := hst hgg huid
        obtain ⟨v, hst2⟩ := Option.ne_none_iff_exists'.1 hne
        refine botStateIn_of B _ pb { mb with State := st } v
          (by rw [hfld.2.1]; exact e3) ?_ hst2
        rw [← hp]
        exact setMember_get_self G pm _ mb (by rw [hp]; exact e4)
      · exact botStateIn_of B _ pb mb stb (by rw [hfld.2.1]; exact e3)
          (by rw [setMember_get_other G pm pb _ hp]; exact e4) e5
    · exact ⟨G0, by rw [hG, map_find_assign, if_neg hgg]; exact e1, e2⟩

theorem voiceInv_OnVoiceStateUpdate (B : String) (s s1 : Client) (json : VoiceStateJson)
    (h : VoiceInv B s) (he : OnVoiceStateUpdate s json = Outcome.done s1) :
    VoiceInv B s1 := by
  have hinv := h
  obtain ⟨h1, h2, h3, h4, h5⟩ := h
  unfold OnVoiceStateUpdate at he
  cases hg : Map.find s.m_Guilds json.guild_id with
  | none => rw [hg] at he; cases he
  | some G =>
    rw [hg] at he
    dsimp only at he
    cases hm : Map.find G.Members json.user_id with
    | none => rw [hm] at he; cases he
    | some pm =>
      rw [hm] at he
      dsimp only at he
      obtain ⟨st, Tmp, hcv, hgr, hur, hch⟩ := vsu_CreateVoiceState s json G pm hg hm
      rw [hcv] at he
      dsimp only at he
      have hctl : (s.setGuild json.guild_id
          (G.setMember pm (fun m => { m with State := st }))).m_Controller = true := h1
      rw [hctl, hgr] at he
      simp only [Option.isSome_some, and_self, if_true] at he
      cases hU : Tmp.UserRef with
      | none =>
        rw [hU] at he
        cases he
        refine voiceInv_vsu_core B s _ G pm st json.guild_id json.user_id hinv hg hm
          rfl rfl rfl rfl rfl ?_
        intro g hgs
        refine ⟨hgs, ?_⟩
        intro _ hid _
        have hbu := (h5 g hgs).1
        cases hb : s.m_BotUser with
        | none => exact absurd hb hbu
        | some bp =>
          have hf := h4 bp hb
          rw [← hid, ← hur, hU] at hf
          cases hf
      | some up =>
        rw [hU] at he
        dsimp only at he
        cases hb : s.m_BotUser with
        | none =>
          have hbu : (s.setGuild json.guild_id
              (G.setMember pm (fun m => { m with State := st }))).m_BotUser = none := hb
          rw [hbu] at he
          cases he
        | some bp =>
          have hbu : (s.setGuild json.guild_id
              (G.setMember pm (fun m => { m with State := st }))).m_BotUser = some bp := hb
          rw [hbu] at he
          dsimp only at he
          cases he
          obtain ⟨f1, f2, f3, f4, f5, f6, _⟩ := voiceStateNotify_frame
            (s.setGuild json.guild_id (G.setMember pm (fun m => { m with State := st })))
            json Tmp (G.channelOf pm) up bp
          have hga : ((s.setGuild json.guild_id
              (G.setMember pm (fun m => { m with State := st }))).guildAt json.guild_id).ID
              = json.guild_id := by
            rw [guildAt_setGuild s json.guild_id _ G hg,
              (setMember_fields G pm (fun m => { m with State := st })).2.2]
            exact (h2 _ G hg).1
          rw [hga] at f6
          refine voiceInv_vsu_core B s _ G pm st json.guild_id json.user_id hinv hg hm
            f1 f5 f3 f2 f4 ?_
          intro g hgs
          rw [f6] at hgs
          have hsub : Map.find s.m_VoiceSockets g ≠ none := by
            split at hgs
            · rw [map_find_erase] at hgs
              by_cases hk : json.guild_id = g
              · simp [hk] at hgs
              · rw [if_neg hk] at hgs
                exact hgs
            · exact hgs
          refine ⟨hsub, ?_⟩
          intro hgg hid hst
          have hf := h4 bp hb
          rw [← hid, ← hur, hU] at hf
          have hup : up = bp := by simpa using hf
          rw [hup] at hgs
          have hcond : ((s.setGuild json.guild_id
              (G.setMember pm (fun m => { m with State := st }))).user bp).ID =
              ((s.setGuild json.guild_id
              (G.setMember pm (fun m => { m with State := st }))).user bp).ID ∧
              Tmp.ChannelRef = none := ⟨rfl, hch hst⟩
          rw [if_pos hcond, map_find_erase, hgg, if_pos rfl] at hgs
          exact hgs rfl

theorem voiceInv_addSocket (B : String) (s s1 : Client) (gid : String) (G : CGuild)
    (h : VoiceInv B s) (hG : Map.find s.m_Guilds gid = some G)
    (hbs : (botStateIn B G).isSome = true) (hbu : s.m_BotUser ≠ none)
    (hc : s1.m_Controller = s.m_Controller) (hg : s1.m_Guilds = s.m_Guilds)
    (hU : s1.Users = s.Users) (hu : s1.m_Users = s.m_Users)
    (hb : s1.m_BotUser = s.m_BotUser)
    (hv : ∀ g : String, Map.find s1.m_VoiceSockets g ≠ none →
      Map.find s.m_VoiceSockets g ≠ none ∨ g = gid) :
    VoiceInv B s1 := by
  obtain ⟨h1, h2, h3, h4, h5⟩ := h
  refine ⟨by rw [hc]; exact h1, by rw [hg]; exact h2, ?_, by rw [hb, hu]; exact h4, ?_⟩
  · intro k up hk
    rw [hu] at hk
    rw [hU]
    exact h3 k up hk
  · intro g hgs
    rw [hb, hg]
    rcases hv g hgs with h6 | h6
    · exact h5 g h6
    · exact ⟨hbu, G, by rw [h6]; exact hG, hbs⟩

theorem voiceInv_OnVoiceServerUpdate (B : String) (s s1 : Client) (json : VoiceServerJson)
    (h : VoiceInv B s) (he : OnVoiceServerUpdate s json = Outcome.done s1) :
    VoiceInv B s1 := by
  unfold OnVoiceServerUpdate at he
  cases hf : Map.find s.m_Guilds json.guild_id with
  | none =>
    rw [hf] at he
    cases he
    exact h
  | some guild =>
    rw [hf] at he
    have hid : guild.ID = json.guild_id := (h.2.1 _ guild hf).1
    cases hb : s.m_BotUser with
    | none => rw [hb] at he; cases he
    | some bp =>
      rw [hb] at he
      dsimp only at he
      have hB : (s.user bp).ID = B := usersWF_user s B bp h.2.2.1 (h.2.2.2.1 bp hb)
      cases hm : Map.find guild.Members (s.user bp).ID with
      | none => rw [hm] at he; cases he; exact h
      | some p =>
        rw [hm] at he
        dsimp only at he
        cases ho : guild.Objs[p]? with
        | none => rw [ho] at he; cases he
        | some m =>
          rw [ho] at he
          dsimp only at he
          cases hst : m.State with
          | none => rw [hst] at he; cases he
          | some st =>
            rw [hst] at he
            dsimp only at he
            have hbot : (botStateIn B guild).isSome = true :=
              botStateIn_of B guild p m st (by rw [← hB]; exact hm) ho hst
            have hbne : s.m_BotUser ≠ none := by rw [hb]; simp
            have key : ∀ g : String,
                Map.find (Map.insert s.m_VoiceSockets guild.ID
                  ({ SessionID := st.SessionID, ClientID := (s.user bp).ID } : CVoiceSocket)) g
                  ≠ none →
                Map.find s.m_VoiceSockets g ≠ none ∨ g = json.guild_id := by
              intro g hg
              rcases map_find_insert_ne_none _ _ _ _ hg with h1 | h1
              · right; rw [h1]; exact hid
              · left; exact h1
            have fin : ∀ (q : Map CMusicQueue) (a : Map String) (w : Map CVoiceSocket),
                (∀ g : String, Map.find w g ≠ none →
                  Map.find s.m_VoiceSockets g ≠ none ∨ g = json.guild_id) →
                VoiceInv B { s with m_VoiceSockets := w, m_MusicQueues := q,
                                    m_AudioSources := a } :=
              fun q a w hw => voiceInv_addSocket B s
                { s with m_VoiceSockets := w, m_MusicQueues := q, m_AudioSources := a }
                json.guild_id guild h hf hbot hbne rfl rfl rfl rfl rfl hw
            have key2 : ∀ (src : String) (g : String),
                Map.find (if (Map.find s.m_VoiceSockets guild.ID).isNone = true then
                  Map.assign (Map.insert s.m_VoiceSockets guild.ID
                    ({ SessionID := st.SessionID, ClientID := (s.user bp).ID } : CVoiceSocket))
                    guild.ID { SessionID := st.SessionID, ClientID := (s.user bp).ID,
                               Source := some src }
                  else Map.insert s.m_VoiceSockets guild.ID
                    ({ SessionID := st.SessionID, ClientID := (s.user bp).ID } : CVoiceSocket)) g
                  ≠ none →
                Map.find s.m_VoiceSockets g ≠ none ∨ g = json.guild_id := by
              intro src g hg
              split at hg
              · exact key g (map_find_assign_ne_none _ _ _ _ hg)
              · exact key g hg
            cases hq : s.m_QueueFactory with
            | true =>
              simp only [hq, if_true] at he
              split at he
              · cases he
                have h9 := fin (Map.insert s.m_MusicQueues guild.ID { GuildID := guild.ID })
                  s.m_AudioSources _ key
                rw [hb, hq] at h9
                exact h9
              · rename_i x src hsrc
                cases he
                have h9 := fin (Map.insert s.m_MusicQueues guild.ID { GuildID := guild.ID })
                  (Map.erase s.m_AudioSources guild.ID) _ (key2 src)
                rw [hb, hq] at h9
                exact h9
            | false =>
              simp only [hq, Bool.false_eq_true, if_false] at he
              split at he
              · cases he
                have h9 := fin s.m_MusicQueues s.m_AudioSources _ key
                rw [hb, hq] at h9
                exact h9
              · rename_i x src hsrc
                cases he
                have h9 := fin s.m_MusicQueues
                  (Map.erase s.m_AudioSources guild.ID) _ (key2 src)
                rw [hb, hq] at h9
                exact h9

theorem voiceInv_mentionOf (B : String) (s : Client) (guild : Option CGuild)
    (Author : Option Nat) (e : UserJson) (r : Client × MemberRef) (hinv : VoiceInv B s)
    (h : mentionOf s guild Author e = some r) : VoiceInv B r.1 := by
  have hf := voiceInv_resolveUser B s e hinv
  unfold mentionOf at h
  dsimp only at h
  split at h
  · split at h
    · cases h
    · split at h
      · cases h; exact hf
      · cases h; exact hf
  · cases h; exact hf

theorem voiceInv_addMentions (B : String) (guild : Option CGuild) (Author : Option Nat)
    (l : List UserJson) (a r : Client × List MemberRef) (hinv : VoiceInv B a.1)
    (h : addMentions guild Author l a = some r) : VoiceInv B r.1 := by
  induction l generalizing a with
  | nil =>
    unfold addMentions at h
    cases h
    exact hinv
  | cons e l ih =>
    unfold addMentions at h
    cases hm : mentionOf a.1 guild Author e with
    | none => rw [hm] at h; cases h
    | some q =>
      rw [hm] at h
      dsimp only at h
      exact ih _ (voiceInv_mentionOf B a.1 guild Author e q hinv hm) h

theorem voiceInv_CreateMessage (B : String) (s : Client) (json : MessageJson)
    (rest : Option MemberJson) (r : Client × CMessage) (hinv : VoiceInv B s)
    (h : CreateMessage s json rest = some r) : VoiceInv B r.1 := by
  unfold CreateMessage at h
  dsimp only at h
  split at h
  · cases h
  · rename_i q hq
    cases h
    dsimp only
    refine voiceInv_addMentions B _ _ _ _ q ?_ hq
    dsimp only
    split
    · exact hinv
    · rename_i u hu
      have hf := voiceInv_resolveUser B s u hinv
      split
      · exact hf
      · rename_i g hg
        split
        · exact hf
        · have h2 := voiceInv_GetMember B _ g
            (((resolveUser s u).1.user (resolveUser s u).2).ID) rest hf
          refine voiceInv_setGuild B _ _ g _ h2 ?_ (guildKeeps_GetMember B _ g _ rest)
          rw [frameEq_guilds (frameEq_GetMember _ g _ rest),
            frameEq_guilds (frameEq_resolveUser s u)]
          exact hg

theorem voiceInv_messageNotify (B : String) (r : Client × CMessage) (T : ActionType)
    (hr : VoiceInv B r.1) :
    VoiceInv B (match T with
      | ActionType.MESSAGE_CREATED => r.1.notifyIf (Notification.OnMessage r.2)
      | ActionType.MESSAGE_EDITED => r.1.notifyIf (Notification.OnMessageEdited r.2)
      | ActionType.MESSAGE_DELETED => r.1.notifyIf (Notification.OnMessageDeleted r.2)) := by
  cases T <;> exact voiceInv_notifyIf B _ _ hr

theorem voiceInv_OnMessageEvent (B : String) (s s1 : Client) (T : ActionType)
    (json : MessageJson) (rest : Option MemberJson) (hinv : VoiceInv B s)
    (he : OnMessageEvent s T json rest = Outcome.done s1) : VoiceInv B s1 := by
  unfold OnMessageEvent at he
  cases hc : CreateMessage s json rest with
  | none => rw [hc] at he; cases he
  | some r =>
    have hr := voiceInv_CreateMessage B s json rest r hinv hc
    rw [hc] at he
    dsimp only at he
    split at he
    · cases he
    · have hn := voiceInv_messageNotify B r T hr
      split at he
      · cases he; exact voiceInv_emit B _ _ hn
      · cases he; exact hn

theorem voiceInv_OnDispatch (B : String) (s s1 : Client) (S : Int) (ev : DispatchEvent)
    (hinv : VoiceInv B s) (hk : ev.keepsBot B = true)
    (he : OnDispatch s S ev = Outcome.done s1) : VoiceInv B s1 := by
  have h0 := voiceInv_setSeq B s S hinv
  unfold OnDispatch at he
  cases ev with
  | READY d =>
    exact voiceInv_OnReady B _ s1 d (by simpa [DispatchEvent.keepsBot] using hk) h0 he
  | GUILD_CREATE d owner => exact voiceInv_OnGuildCreate B _ s1 d owner h0 he
  | GUILD_DELETE id unavailable => exact voiceInv_OnGuildDelete B _ s1 id unavailable h0 he
  | GUILD_MEMBER_UPDATE d => exact voiceInv_OnGuildMemberUpdate B _ s1 d h0 he
  | GUILD_MEMBER_REMOVE g u outside =>
    exact voiceInv_OnGuildMemberRemove B _ s1 g u outside
      (by simpa [DispatchEvent.keepsBot] using hk) h0 he
  | GUILD_BAN_ADD g u outside =>
    exact voiceInv_OnGuildMemberRemove B _ s1 g u outside
      (by simpa [DispatchEvent.keepsBot] using hk) h0 he
  | RESUMED =>
    dsimp only at he
    cases he
    exact voiceInv_notifyIf B _ _ h0
  | PRESENCE_UPDATE d member => exact voiceInv_OnPresenceUpdate B _ s1 d member h0 he
  | VOICE_STATE_UPDATE d => exact voiceInv_OnVoiceStateUpdate B _ s1 d h0 he
  | VOICE_SERVER_UPDATE d => exact voiceInv_OnVoiceServerUpdate B _ s1 d h0 he
  | MESSAGE_CREATE d member => exact voiceInv_OnMessageEvent B _ s1 _ d member h0 he
  | MESSAGE_UPDATE d member => exact voiceInv_OnMessageEvent B _ s1 _ d member h0 he
  | MESSAGE_DELETE d member => exact voiceInv_OnMessageEvent B _ s1 _ d member h0 he
  | CHANNEL_CREATE d => exact voiceInv_OnChannel B _ s1 d h0 (Or.inl he)
  | CHANNEL_UPDATE d => exact voiceInv_OnChannel B _ s1 d h0 (Or.inr (Or.inl he))
  | CHANNEL_DELETE d => exact voiceInv_OnChannel B _ s1 d h0 (Or.inr (Or.inr he))
  | GUILD_MEMBER_ADD g d => exact voiceInv_OnGuildMemberAdd B _ s1 g d h0 he

theorem voiceInv_HeartbeatIter (B : String) (s : Client) (h : VoiceInv B s) :
    VoiceInv B (HeartbeatIter s).1 := by
  unfold HeartbeatIter
  by_cases ht : s.m_Terminate = true
  · simp only [ht, if_true]
    exact h
  · by_cases ha : s.m_HeartACKReceived = true
    · simp only [ht, ha, not_true_eq_false, if_false]
      exact voiceInv_of_frame B s _ h rfl rfl rfl rfl rfl (fun _ hg => hg)
    · simp only [ht, ha, not_false_eq_true, if_true, if_false]
      apply voiceInv_of_frame B s _ h
      · simp [Client.emit, Client.notifyIf]; split <;> rfl
      · simp [Client.emit, Client.notifyIf]; split <;> rfl
      · simp [Client.emit, Client.notifyIf]; split <;> rfl
      · simp [Client.emit, Client.notifyIf]; split <;> rfl
      · simp [Client.emit, Client.notifyIf]; split <;> rfl
      · intro g hg
        exfalso
        apply hg
        simp [Client.emit, Client.notifyIf]
        split <;> rfl

theorem voiceInv_HeartbeatLoop (B : String) (n : Nat) (s : Client) (h : VoiceInv B s) :
    VoiceInv B (HeartbeatLoop n s).1 := by
  induction n generalizing s with
  | zero => exact h
  | succ n ih =>
    unfold HeartbeatLoop
    dsimp only
    split
    · exact ih _ (voiceInv_HeartbeatIter B s h)
    · exact voiceInv_HeartbeatIter B s h

theorem voiceInv_OnHello (B : String) (s s1 : Client) (heartbeat_interval : Nat)
    (live : Bool) (h : VoiceInv B s)
    (he : OnHello s heartbeat_interval live = Outcome.done s1) : VoiceInv B s1 := by
  unfold OnHello at he
  cases he
  apply voiceInv_emit
  have h3 : VoiceInv B
      { (if ({ s with m_HeartbeatInterval := heartbeat_interval % 4294967296 } :
            Client).m_SessionID = "" then
          SendIdentity { s with m_HeartbeatInterval := heartbeat_interval % 4294967296 }
        else SendResume { s with m_HeartbeatInterval := heartbeat_interval % 4294967296 })
        with m_HeartACKReceived := true, m_Terminate := false } := by
    by_cases hs : s.m_SessionID = ""
    · simp only [hs, if_true]
      exact voiceInv_of_frame B s _ h rfl rfl rfl rfl rfl (fun _ hg => hg)
    · simp only [hs, if_false]
      exact voiceInv_of_frame B s _ h rfl rfl rfl rfl rfl (fun _ hg => hg)
  unfold joinHeartbeat
  split
  · exact voiceInv_HeartbeatLoop B 2 _ h3
  · exact h3

theorem voiceInv_OnPayload (B : String) (s s1 : Client) (Pay : SPayload)
    (h : VoiceInv B s) (hk : (ClientStep.Payload Pay).keepsBot B = true)
    (he : OnPayload s Pay = Outcome.done s1) : VoiceInv B s1 := by
  unfold OnPayload at he
  have hk2 : (if Pay.OP = OPCodes.DISPATCH then
      (match Pay.event with
       | some ev => ev.keepsBot B
       | none => true)
    else true) = true := hk
  cases hop : Pay.OP <;> rw [hop] at he <;> dsimp only at he
  case DISPATCH =>
    rw [hop] at hk2
    simp only [if_true] at hk2
    cases hev : Pay.event with
    | none =>
      rw [hev] at he
      cases he
      exact voiceInv_setSeq B s _ h
    | some ev =>
      rw [hev] at he hk2
      exact voiceInv_OnDispatch B s s1 Pay.S ev h hk2 he
  case HELLO =>
    split at he
    · exact voiceInv_OnHello B s s1 _ _ h he
    · cases he; exact h
  case HEARTBEAT_ACK =>
    cases he
    exact voiceInv_of_frame B s _ h rfl rfl rfl rfl rfl (fun _ hg => hg)
  case INVALID_SESSION =>
    unfold OnInvalidSession at he
    split at he
    · cases he
      exact voiceInv_emit B s _ h
    · cases he
      exact voiceInv_emit B _ _ (voiceInv_emit B s _ h)
  all_goals (cases he; exact h)

theorem voiceInv_OnMessageReceive (B : String) (s : Client) (Event : BusEvent)
    (Value : BusValue) (hq : Event ≠ BusEvent.QUIT) (h : VoiceInv B s) :
    VoiceInv B (OnMessageReceive s Event Value) := by
  unfold OnMessageReceive
  cases Event with
  | QUEUE_NEXT_SONG =>
    dsimp only
    split
    · exact h
    · split
      · split
        · exact voiceInv_of_frame B s _ h rfl rfl rfl rfl rfl
            (fun g hg => map_find_assign_ne_none _ _ _ g hg)
        · exact voiceInv_of_frame B s _ h rfl rfl rfl rfl rfl (fun _ hg => hg)
      · exact voiceInv_of_frame B s _ h rfl rfl rfl rfl rfl (fun _ hg => hg)
  | RESUME => exact voiceInv_emit B s _ h
  | RECONNECT =>
    exact voiceInv_of_frame B s _ h rfl rfl rfl rfl rfl (fun _ hg => hg)
  | QUIT => exact absurd rfl hq

theorem voiceInv_OnSpeakFinish (B : String) (s : Client) (Guild : String)
    (h : VoiceInv B s) : VoiceInv B (OnSpeakFinish s Guild) := by
  unfold OnSpeakFinish
  split
  · dsimp only
    split
    · exact voiceInv_emit B _ _ (voiceInv_emit B s _ h)
    · exact voiceInv_emit B s _ h
  · exact h

theorem voiceInv_Join (B : String) (s : Client) (channel : Option CChannel)
    (h : VoiceInv B s) : VoiceInv B (Join s channel) := by
  unfold Join
  cases channel with
  | none => exact h
  | some ch =>
    dsimp only
    split
    · exact h
    · exact voiceInv_of_frame B s _ h rfl rfl rfl rfl rfl (fun _ hg => hg)

theorem voiceInv_Leave (B : String) (s : Client) (guild : Option CGuild)
    (h : VoiceInv B s) : VoiceInv B (Leave s guild) := by
  unfold Leave
  cases guild with
  | none => exact h
  | some g => exact voiceInv_of_frame B s _ h rfl rfl rfl rfl rfl (fun _ hg => hg)

theorem voiceInv_AddToQueue (B : String) (s : Client) (guild : Option CGuild)
    (Info : String) (h : VoiceInv B s) : VoiceInv B (AddToQueue s guild Info) := by
  unfold AddToQueue
  cases guild with
  | none => exact h
  | some g =>
    dsimp only
    split
    · exact voiceInv_of_frame B s _ h rfl rfl rfl rfl rfl (fun _ hg => hg)
    · split
      · exact voiceInv_of_frame B s _ h rfl rfl rfl rfl rfl (fun _ hg => hg)
      · exact h

theorem voiceInv_setQueues (B : String) (s : Client) (q : Map CMusicQueue)
    (h : VoiceInv B s) : VoiceInv B { s with m_MusicQueues := q } :=
  voiceInv_of_frame B s _ h rfl rfl rfl rfl rfl (fun _ hg => hg)

theorem voiceInv_StartSpeakingSource (B : String) (s : Client) (channel : Option CChannel)
    (source : Option String) (h : VoiceInv B s) :
    VoiceInv B (StartSpeakingSource s channel source).1 := by
  unfold StartSpeakingSource
  cases channel with
  | none => exact h
  | some ch =>
    dsimp only
    split
    · exact h
    · cases source with
      | none => exact h
      | some src =>
        dsimp only
        split
        · exact voiceInv_of_frame B s _ h rfl rfl rfl rfl rfl
            (fun g hg => map_find_assign_ne_none _ _ _ g hg)
        · exact voiceInv_of_frame B (Join s (some ch)) _ (voiceInv_Join B s _ h)
            rfl rfl rfl rfl rfl (fun _ hg => hg)

theorem voiceInv_StartSpeaking (B : String) (s : Client) (channel : Option CChannel)
    (h : VoiceInv B s) : VoiceInv B (StartSpeaking s channel).1 := by
  unfold StartSpeaking
  cases channel with
  | none => exact h
  | some ch =>
    dsimp only
    split
    · exact h
    · split
      · split
        · exact voiceInv_StartSpeakingSource B _ _ _ (voiceInv_setQueues B s _ h)
        · exact voiceInv_StartSpeakingSource B _ _ _ (voiceInv_setQueues B s _ h)
      · exact voiceInv_StartSpeakingSource B _ _ _ h

theorem voiceInv_apply (B : String) (s s1 : Client) (e : ClientStep) (h : VoiceInv B s)
    (hk : e.keepsBot B = true) (he : e.apply s = Outcome.done s1) : VoiceInv B s1 := by
  cases e with
  | Payload Pay => exact voiceInv_OnPayload B s s1 Pay h hk he
  | Heartbeat => cases he; exact voiceInv_HeartbeatIter B s h
  | Message Event Value =>
    cases he
    exact voiceInv_OnMessageReceive B s Event Value
      (by simpa [ClientStep.keepsBot] using hk) h
  | SpeakFinish Guild => cases he; exact voiceInv_OnSpeakFinish B s Guild h
  | AddToQueue guild Info => cases he; exact voiceInv_AddToQueue B s guild Info h
  | StartSpeaking channel => cases he; exact voiceInv_StartSpeaking B s channel h
  | StartSpeakingSource channel source =>
    cases he; exact voiceInv_StartSpeakingSource B s channel source h
  | Join channel => cases he; exact voiceInv_Join B s channel h
  | Leave guild => cases he; exact voiceInv_Leave B s guild h

theorem voiceInv_runSteps (B : String) (steps : List ClientStep) (s s1 : Client)
    (h : VoiceInv B s) (hall : ∀ e ∈ steps, e.keepsBot B = true)
    (he : runSteps s steps = Outcome.done s1) : VoiceInv B s1 := by
  induction steps generalizing s with
  | nil =>
    unfold runSteps at he
    cases he
    exact h
  | cons e rest ih =>
    unfold runSteps at he
    cases ha : e.apply s with
    | done s2 =>
      rw [ha] at he
      exact ih s2 (voiceInv_apply B s s2 e h (hall e (List.mem_cons_self e rest)) ha)
        (fun x hx => hall x (List.mem_cons_of_mem e hx)) he
    | thrown s2 => rw [ha] at he; cases he
    | fault => rw [ha] at he; cases he

theorem voiceInv_create (B : String) (Token : String) (Intents : Nat) (queues : Bool) :
    VoiceInv B
      { Client.create Token Intents with m_Controller := true, m_QueueFactory := queues } := by
  refine ⟨rfl, ?_, ?_, ?_, ?_⟩
  · intro k G hk
    simp [Client.create, Map.find] at hk
  · intro k up hk
    simp [Client.create, Map.find] at hk
  · intro bp hb
    simp [Client.create] at hb
  · intro g hg
    simp [Client.create, Map.find] at hg

/-- C19 (counterexample): six runs of steps from a new client, each of which ends in a
state where the guild G1 has an entry in a voice table although the bot's own member
holds no voice state there.  (a) Without a controller: READY for the bot user B,
GUILD_CREATE of a guild G1 in which B holds a voice state, VOICE_SERVER_UPDATE for G1
and a VOICE_STATE_UPDATE that takes B out of its channel; the voice connection stays.
(b) With a controller and a queue factory: READY, GUILD_CREATE of a guild G1 in which B
holds no voice state and `AddToQueue(G1, a)`; G1 has a playback queue.  In (a) and (b)
every READY names B and no GUILD_MEMBER_REMOVE, GUILD_BAN_ADD or QUIT occurs.  With a
controller and a voice connection for G1 established as in (a): (c) a
GUILD_MEMBER_REMOVE that names B, (d) a GUILD_BAN_ADD that names B, and (e) a READY
that names another user B2, each leave the voice connection in place.  (f) With a
controller, after the bus message QUIT, which detaches the controller, the run (a)
leaves the voice connection in place. -/
theorem voice_tables_outlive_bot_voice_state :
    (∃ s, runSteps (Client.create "token" 0)
        [ClientStep.Dispatch 1 (DispatchEvent.READY
           { session_id := "S", user := { id := "B", username := "bot" } }),
         ClientStep.Dispatch 2 (DispatchEvent.GUILD_CREATE botGuild none),
         ClientStep.Dispatch 3 (DispatchEvent.VOICE_SERVER_UPDATE { guild_id := "G1" }),
         ClientStep.Dispatch 4 (DispatchEvent.VOICE_STATE_UPDATE
           { guild_id := "G1", user_id := "B", channel_id := "" })] = Outcome.done s ∧
      Map.keys s.m_VoiceSockets = ["G1"] ∧ botVoiceState s "G1" = none) ∧
    (∃ s, runSteps { Client.create "token" 0 with m_Controller := true, m_QueueFactory := true }
        [ClientStep.Dispatch 1 (DispatchEvent.READY
           { session_id := "S", user := { id := "B", username := "bot" } }),
         ClientStep.Dispatch 2 (DispatchEvent.GUILD_CREATE quietGuild none),
         ClientStep.AddToQueue (some { ID := "G1" }) "a"] = Outcome.done s ∧
      Map.keys s.m_MusicQueues = ["G1"] ∧ botVoiceState s "G1" = none) ∧
    (∃ s, runSteps { Client.create "token" 0 with m_Controller := true, m_QueueFactory := true }
        [ClientStep.Dispatch 1 (DispatchEvent.READY
           { session_id := "S", user := { id := "B", username := "bot" } }),
         ClientStep.Dispatch 2 (DispatchEvent.GUILD_CREATE botGuild none),
         ClientStep.Dispatch 3 (DispatchEvent.VOICE_SERVER_UPDATE { guild_id := "G1" }),
         ClientStep.Dispatch 4 (DispatchEvent.GUILD_MEMBER_REMOVE "G1" "B" 0)]
        = Outcome.done s ∧
      Map.keys s.m_VoiceSockets = ["G1"] ∧ botVoiceState s "G1" = none) ∧
    (∃ s, runSteps { Client.create "token" 0 with m_Controller := true, m_QueueFactory := true }
        [ClientStep.Dispatch 1 (DispatchEvent.READY
           { session_id := "S", user := { id := "B", username := "bot" } }),
         ClientStep.Dispatch 2 (DispatchEvent.GUILD_CREATE botGuild none),
         ClientStep.Dispatch 3 (DispatchEvent.VOICE_SERVER_UPDATE { guild_id := "G1" }),
         ClientStep.Dispatch 4 (DispatchEvent.GUILD_BAN_ADD "G1" "B" 0)]
        = Outcome.done s ∧
      Map.keys s.m_VoiceSockets = ["G1"] ∧ botVoiceState s "G1" = none) ∧
    (∃ s, runSteps { Client.create "token" 0 with m_Controller := true, m_QueueFactory := true }
        [ClientStep.Dispatch 1 (DispatchEvent.READY
           { session_id := "S", user := { id := "B", username := "bot" } }),
         ClientStep.Dispatch 2 (DispatchEvent.GUILD_CREATE botGuild none),
         ClientStep.Dispatch 3 (DispatchEvent.VOICE_SERVER_UPDATE { guild_id := "G1" }),
         ClientStep.Dispatch 4 (DispatchEvent.READY
           { session_id := "S", user := { id := "B2", username := "other" } })]
        = Outcome.done s ∧
      Map.keys s.m_VoiceSockets = ["G1"] ∧ botVoiceState s "G1" = none) ∧
    (∃ s, runSteps { Client.create "token" 0 with m_Controller := true, m_QueueFactory := true }
        [ClientStep.Message BusEvent.QUIT (BusValue.int 0),
         ClientStep.Dispatch 1 (DispatchEvent.READY
           { session_id := "S", user := { id := "B", username := "bot" } }),
         ClientStep.Dispatch 2 (DispatchEvent.GUILD_CREATE botGuild none),
         ClientStep.Dispatch 3 (DispatchEvent.VOICE_SERVER_UPDATE { guild_id := "G1" }),
         ClientStep.Dispatch 4 (DispatchEvent.VOICE_STATE_UPDATE
           { guild_id := "G1", user_id := "B", channel_id := "" })] = Outcome.done s ∧
      Map.keys s.m_VoiceSockets = ["G1"] ∧ botVoiceState s "G1" = none) :=
  ⟨⟨_, rfl, by decide, by decide⟩, ⟨_, rfl, by decide, by decide⟩,
    ⟨_, rfl, by decide, by decide⟩, ⟨_, rfl, by decide, by decide⟩,
    ⟨_, rfl, by decide, by decide⟩, ⟨_, rfl, by decide, by decide⟩⟩

/-- C19 (amended): take a new client to which a controller is attached, and a run of
steps from it: payloads of the gateway (DISPATCH with any event, HELLO, HEARTBEAT_ACK,
INVALID_SESSION and every other op-code), liveness-monitor iterations, messages of the
event bus, speaking-finished callbacks and the orchestrator operations AddToQueue,
StartSpeaking, Join and Leave.  If every READY event of the run names the same user B,
no GUILD_MEMBER_REMOVE or GUILD_BAN_ADD event names B and no bus message is QUIT, then
in the state the run ends in every guild that has an entry in the voice-connection
table is cached and the bot's own member in that guild holds a voice state. -/
theorem voice_connection_needs_bot_voice_state (Token : String) (Intents : Nat)
    (queues : Bool) (B : String) (steps : List ClientStep) (s : Client)
    (hall : ∀ e ∈ steps, e.keepsBot B = true)
    (hrun : runSteps
      { Client.create Token Intents with m_Controller := true, m_QueueFactory := queues }
      steps = Outcome.done s)
    (g : String) (hg : Map.find s.m_VoiceSockets g ≠ none) :
    (botVoiceState s g).isSome = true := by
  obtain ⟨_, _, h3, h4, h5⟩ := voiceInv_runSteps B steps _ s
    (voiceInv_create B Token Intents queues) hall hrun
  obtain ⟨hbu, G, e1, e2⟩ := h5 g hg
  obtain ⟨pm, m, st, e3, e4, e5⟩ := botStateIn_isSome B G e2
  cases hb : s.m_BotUser with
  | none => exact absurd hb hbu
  | some bp =>
    have hB : (s.user bp).ID = B := usersWF_user s B bp h3 (h4 bp hb)
    exact botVoiceState_of s g G bp pm m st e1 hb (by rw [hB]; exact e3) e4 e5

/-- C19 (witness): the amended statement at the run HELLO, READY for the bot user B,
GUILD_CREATE of a guild G1 in which B holds a voice state in C2, a PRESENCE_UPDATE of
another user, VOICE_SERVER_UPDATE for G1, a liveness-monitor iteration, `AddToQueue(G1,
a)`, `StartSpeaking(C2)` and the bus message QUEUE_NEXT_SONG for G1: the run ends, G1
has a voice connection and the bot member holds a voice state. -/
theorem voice_connection_needs_bot_voice_state_witness :
    ∃ s, runSteps { Client.create "token" 0 with m_Controller := true, m_QueueFactory := true }
        [ClientStep.Payload { OP := OPCodes.HELLO, heartbeat_interval := some 41250 },
         ClientStep.Dispatch 1 (DispatchEvent.READY
           { session_id := "S", user := { id := "B", username := "bot" } }),
         ClientStep.Dispatch 2 (DispatchEvent.GUILD_CREATE botGuild none),
         ClientStep.Dispatch 3 (DispatchEvent.PRESENCE_UPDATE
           { user := { id := "U1", username := "user" }, guild_id := "G1",
             status := "online" } none),
         ClientStep.Dispatch 4 (DispatchEvent.VOICE_SERVER_UPDATE { guild_id := "G1" }),
         ClientStep.Heartbeat,
         ClientStep.AddToQueue (some { ID := "G1" }) "a",
         ClientStep.StartSpeaking
           (some { ID := "C2", GuildID := "G1", Type_ := ChannelTypes.GUILD_VOICE }),
         ClientStep.Message BusEvent.QUEUE_NEXT_SONG (BusValue.str "G1")]
        = Outcome.done s ∧
      Map.find s.m_VoiceSockets "G1" ≠ none ∧ (botVoiceState s "G1").isSome = true :=
  ⟨_, rfl, by decide,
    voice_connection_needs_bot_voice_state "token" 0 true "B"
      [ClientStep.Payload { OP := OPCodes.HELLO, heartbeat_interval := some 41250 },
       ClientStep.Dispatch 1 (DispatchEvent.READY
         { session_id := "S", user := { id := "B", username := "bot" } }),
       ClientStep.Dispatch 2 (DispatchEvent.GUILD_CREATE botGuild none),
       ClientStep.Dispatch 3 (DispatchEvent.PRESENCE_UPDATE
         { user := { id := "U1", username := "user" }, guild_id := "G1",
           status := "online" } none),
       ClientStep.Dispatch 4 (DispatchEvent.VOICE_SERVER_UPDATE { guild_id := "G1" }),
       ClientStep.Heartbeat,
       ClientStep.AddToQueue (some { ID := "G1" }) "a",
       ClientStep.StartSpeaking
         (some { ID := "C2", GuildID := "G1", Type_ := ChannelTypes.GUILD_VOICE }),
       ClientStep.Message BusEvent.QUEUE_NEXT_SONG (BusValue.str "G1")]
      _ (by decide) rfl "G1" (by decide)⟩

end DiscordBot
